import Mathlib

/-!
# Hotel-Management-FrontEnd: response handling, token decoding, list controllers

A shallow embedding of the client-side logic of the booking front-end
(`src/api/*.js`, `src/util/jwt.js`, `src/App.js`, `src/pages/*.jsx`,
`src/components/Navbar.jsx`) and the properties proved about it.

Conventions of the embedding.

* A JavaScript value is a `JsVal`.  Strings are Lean strings (sequences of
  Unicode scalar values); a lone UTF-16 surrogate, which only a `\u` escape of
  `JSON.parse` can produce here, is represented by U+FFFD.
* A call that may throw returns `Except JsError _`; `try`/`catch` is a match on
  the result.
* An asynchronous handler is a function of the state its render closure
  captured and of the settled results of the calls it awaits.
-/

namespace HotelFrontend

/-! ## JavaScript values -/

/-- JavaScript values that occur in the program: the JSON values, `undefined`,
and built-in function objects (reached by reading an inherited member such as
`String.prototype.sub`).  A number is the exact decimal `mant * 10 ^ exp`. -/
inductive JsVal where
  | undefined
  | null
  | bool (b : Bool)
  | num (mant : Int) (exp : Int)
  | str (s : String)
  | arr (items : List JsVal)
  | obj (members : List (String × JsVal))
  | fn (name : String)

instance : Inhabited JsVal := ⟨JsVal.undefined⟩

/-- A thrown JavaScript error: the constructor name and the `message`. -/
structure JsError where
  name : String
  message : String
deriving DecidableEq, Repr

/-- The result of `ToBoolean`.  A number literal is falsy when the double it
denotes is zero: the mantissa is zero, or the magnitude is at most `2 ^ -1075`
(it rounds to zero). -/
def JsVal.truthy : JsVal → Bool
  | .undefined => false
  | .null => false
  | .bool b => b
  | .num mant exp =>
    decide (mant ≠ 0) && (decide (0 ≤ exp) || decide (10 ^ (-exp).toNat < mant.natAbs * 2 ^ 1075))
  | .str s => decide (s ≠ "")
  | .arr _ => true
  | .obj _ => true
  | .fn _ => true

/-! ## JSON.parse -/

/-- JSON insignificant whitespace: space, tab, line feed, carriage return. -/
def isJsonWs (c : Char) : Bool :=
  c.toNat = 32 || c.toNat = 9 || c.toNat = 10 || c.toNat = 13

/-- Drop leading JSON whitespace. -/
def skipWs : List Char → List Char
  | [] => []
  | c :: cs => if isJsonWs c then skipWs cs else c :: cs

/-- Value of a decimal digit. -/
def digitVal (c : Char) : Option Nat :=
  if 48 ≤ c.toNat ∧ c.toNat ≤ 57 then some (c.toNat - 48) else none

/-- Value of a hexadecimal digit (either case). -/
def hexVal (c : Char) : Option Nat :=
  if 48 ≤ c.toNat ∧ c.toNat ≤ 57 then some (c.toNat - 48)
  else if 97 ≤ c.toNat ∧ c.toNat ≤ 102 then some (c.toNat - 87)
  else if 65 ≤ c.toNat ∧ c.toNat ≤ 70 then some (c.toNat - 55)
  else none

/-- Read the longest run of decimal digits: the digits read, and the rest. -/
def readDigits : List Char → List Nat × List Char
  | [] => ([], [])
  | c :: cs =>
    match digitVal c with
    | some d => ((readDigits cs).1.cons d, (readDigits cs).2)
    | none => ([], c :: cs)

/-- The number a list of decimal digits denotes, most significant first. -/
def digitsToNat (ds : List Nat) : Nat :=
  ds.foldl (fun acc d => 10 * acc + d) 0

/-- The fraction part of a JSON number: `.` and at least one digit, or nothing. -/
def readFraction : List Char → Option (List Nat × List Char)
  | [] => some ([], [])
  | c :: cs =>
    if c.toNat = 46 then
      match readDigits cs with
      | ([], _) => none
      | (ds, rest) => some (ds, rest)
    else some ([], c :: cs)

/-- The digits of an exponent: at least one. -/
def readExpDigits (negative : Bool) (cs : List Char) : Option (Int × List Char) :=
  match readDigits cs with
  | ([], _) => none
  | (ds, rest) =>
    some (if negative then -(digitsToNat ds : Int) else (digitsToNat ds : Int), rest)

/-- The exponent part of a JSON number: `e` or `E`, an optional sign and at
least one digit, or nothing. -/
def readExponent : List Char → Option (Int × List Char)
  | [] => some (0, [])
  | c :: cs =>
    if c.toNat = 101 ∨ c.toNat = 69 then
      match cs with
      | [] => none
      | s :: ds =>
        if s.toNat = 43 then readExpDigits false ds
        else if s.toNat = 45 then readExpDigits true ds
        else readExpDigits false (s :: ds)
    else some (0, c :: cs)

/-- The part of a JSON number after the optional minus sign: an integer part
(`0`, or a non-zero digit followed by digits), then fraction and exponent. -/
def readUnsigned (negative : Bool) (cs : List Char) : Option (JsVal × List Char) :=
  let intPart : Option (List Nat × List Char) :=
    match cs with
    | [] => none
    | c :: rest =>
      if c.toNat = 48 then some ([0], rest)
      else match readDigits (c :: rest) with
        | ([], _) => none
        | (ds, rest2) => some (ds, rest2)
  match intPart with
  | none => none
  | some (ids, r1) =>
    match readFraction r1 with
    | none => none
    | some (fds, r2) =>
      match readExponent r2 with
      | none => none
      | some (e, r3) =>
        let m : Int := digitsToNat (ids ++ fds)
        some (JsVal.num (if negative then -m else m) (e - fds.length), r3)

/-- A JSON number. -/
def parseNumber : List Char → Option (JsVal × List Char)
  | [] => none
  | c :: cs => if c.toNat = 45 then readUnsigned true cs else readUnsigned false (c :: cs)

/-- The UTF-16 code units of a character. -/
def utf16Units (c : Char) : List Nat :=
  if c.toNat < 65536 then [c.toNat]
  else [55296 + (c.toNat - 65536) / 1024, 56320 + (c.toNat - 65536) % 1024]

/-- Decode UTF-16 code units: a surrogate pair is one character, a lone
surrogate is represented by U+FFFD. -/
def utf16Decode : List Nat → List Char
  | [] => []
  | [u] => if 55296 ≤ u ∧ u < 57344 then [Char.ofNat 65533] else [Char.ofNat u]
  | u :: v :: rest =>
    if 55296 ≤ u ∧ u < 56320 ∧ 56320 ≤ v ∧ v < 57344 then
      Char.ofNat (65536 + (u - 55296) * 1024 + (v - 56320)) :: utf16Decode rest
    else if 55296 ≤ u ∧ u < 57344 then Char.ofNat 65533 :: utf16Decode (v :: rest)
    else Char.ofNat u :: utf16Decode (v :: rest)

/-- The code unit of a single-character escape `\c`. -/
def simpleEscape (c : Char) : Option Nat :=
  if c.toNat = 34 then some 34
  else if c.toNat = 92 then some 92
  else if c.toNat = 47 then some 47
  else if c.toNat = 98 then some 8
  else if c.toNat = 102 then some 12
  else if c.toNat = 110 then some 10
  else if c.toNat = 114 then some 13
  else if c.toNat = 116 then some 9
  else none

/-- The body of a JSON string after the opening quote, up to and including the
closing quote: the code units read (in reverse), and the rest.  Control
characters below U+0020 must be escaped. -/
def parseStringUnits : Nat → List Char → List Nat → Option (List Nat × List Char)
  | 0, _, _ => none
  | _ + 1, [], _ => none
  | fuel + 1, c :: cs, acc =>
    if c.toNat = 34 then some (acc.reverse, cs)
    else if c.toNat = 92 then
      match cs with
      | [] => none
      | e :: rest =>
        if e.toNat = 117 then
          match rest with
          | a :: b :: c2 :: d :: rest2 =>
            match hexVal a, hexVal b, hexVal c2, hexVal d with
            | some x, some y, some z, some w =>
              parseStringUnits fuel rest2 (acc.cons (x * 4096 + y * 256 + z * 16 + w))
            | _, _, _, _ => none
          | _ => none
        else
          match simpleEscape e with
          | some u => parseStringUnits fuel rest (acc.cons u)
          | none => none
    else if c.toNat < 32 then none
    else parseStringUnits fuel cs ((utf16Units c).reverse ++ acc)

/-- Remove a literal from the front of the input. -/
def dropLiteral : List Char → List Char → Option (List Char)
  | [], cs => some cs
  | _ :: _, [] => none
  | p :: ps, c :: cs => if p = c then dropLiteral ps cs else none

mutual
/-- One JSON value, with the rest of the input.  The fuel bounds the number of
nested calls; `2 * length + 2` is enough for every input
(`parseValue_enough_fuel`). -/
def parseValue : Nat → List Char → Option (JsVal × List Char)
  | 0, _ => none
  | fuel + 1, cs =>
    match skipWs cs with
    | [] => none
    | c :: rest =>
      if c.toNat = 123 then
        match skipWs rest with
        | [] => none
        | d :: rest2 =>
          if d.toNat = 125 then some (JsVal.obj [], rest2)
          else parseMembers fuel (d :: rest2) []
      else if c.toNat = 91 then
        match skipWs rest with
        | [] => none
        | d :: rest2 =>
          if d.toNat = 93 then some (JsVal.arr [], rest2)
          else parseElements fuel (d :: rest2) []
      else if c.toNat = 34 then
        match parseStringUnits (rest.length + 1) rest [] with
        | some (units, rest2) => some (JsVal.str (String.mk (utf16Decode units)), rest2)
        | none => none
      else if c.toNat = 116 then
        (dropLiteral "rue".data rest).map fun r => (JsVal.bool true, r)
      else if c.toNat = 102 then
        (dropLiteral "alse".data rest).map fun r => (JsVal.bool false, r)
      else if c.toNat = 110 then
        (dropLiteral "ull".data rest).map fun r => (JsVal.null, r)
      else parseNumber (c :: rest)
/-- The elements of a non-empty array after `[`, up to and including `]`. -/
def parseElements : Nat → List Char → List JsVal → Option (JsVal × List Char)
  | 0, _, _ => none
  | fuel + 1, cs, acc =>
    match parseValue fuel cs with
    | none => none
    | some (v, r) =>
      match skipWs r with
      | [] => none
      | d :: r2 =>
        if d.toNat = 44 then parseElements fuel r2 (acc ++ [v])
        else if d.toNat = 93 then some (JsVal.arr (acc ++ [v]), r2)
        else none
/-- The members of a non-empty object after `{`, up to and including `}`. -/
def parseMembers : Nat → List Char → List (String × JsVal) → Option (JsVal × List Char)
  | 0, _, _ => none
  | fuel + 1, cs, acc =>
    match skipWs cs with
    | [] => none
    | q :: r0 =>
      if q.toNat = 34 then
        match parseStringUnits (r0.length + 1) r0 [] with
        | none => none
        | some (units, r1) =>
          match skipWs r1 with
          | [] => none
          | colon :: r2 =>
            if colon.toNat = 58 then
              match parseValue fuel r2 with
              | none => none
              | some (v, r3) =>
                match skipWs r3 with
                | [] => none
                | d :: r4 =>
                  if d.toNat = 44 then
                    parseMembers fuel r4 (acc ++ [(String.mk (utf16Decode units), v)])
                  else if d.toNat = 125 then
                    some (JsVal.obj (acc ++ [(String.mk (utf16Decode units), v)]), r4)
                  else none
            else none
      else none
end

/-- The value of a JSON text, or `none` where `JSON.parse` throws a
`SyntaxError`: one value, surrounded by whitespace only. -/
def jsonParse (text : String) : Option JsVal :=
  match parseValue (2 * text.data.length + 2) text.data with
  | none => none
  | some (v, rest) => if skipWs rest = [] then some v else none

/-- The call `JSON.parse(text)`. -/
def JSON.parse (text : String) : Except JsError JsVal :=
  match jsonParse text with
  | some v => Except.ok v
  | none => Except.error (JsError.mk "SyntaxError" "Unexpected token in JSON")

/-! ## Strings -/

/-- The decimal text of a natural number, as a template literal prints it. -/
def numberToString (n : Nat) : String := toString n

/-- The call `s.toUpperCase()`, on the ASCII letters; other characters are kept
(the mapping of non-ASCII letters is outside the model). -/
def toUpperCase (s : String) : String := String.mk (s.data.map Char.toUpper)

/-- The segments of `s.split('.')`, as character lists. -/
def splitSegments : List Char → List (List Char)
  | [] => [[]]
  | c :: cs =>
    if c.toNat = 46 then [] :: splitSegments cs
    else match splitSegments cs with
      | [] => [[c]]
      | seg :: more => (c :: seg) :: more

/-- The call `token.split('.')`: only a string has a `split` method; on every
other value the call throws a `TypeError`. -/
def JsVal.split : JsVal → Except JsError (List String)
  | .str s => Except.ok ((splitSegments s.data).map String.mk)
  | .undefined => Except.error (JsError.mk "TypeError" "Cannot read properties of undefined")
  | .null => Except.error (JsError.mk "TypeError" "Cannot read properties of null")
  | _ => Except.error (JsError.mk "TypeError" "token.split is not a function")

/-! ## HTTP responses -/

/-- A fetched response: the status and what reading the body settles to (the
text, or the error the read rejects with). -/
structure Response where
  status : Nat
  body : Except JsError String

/-- The flag `res.ok`: the status is in the range 200-299. -/
def Response.ok (res : Response) : Bool := decide (200 ≤ res.status ∧ res.status ≤ 299)

/-- What a response handler hands back to its caller. -/
inductive ResponseData where
  | value (v : JsVal)
  | bytes (raw : String)
  | text (s : String)
  | response (res : Response)

/-- The value `new Error(message)`. -/
def mkError (message : String) : JsError := JsError.mk "Error" message

/-- The function `toJsonOrThrow` of `src/api/hotelApi.js`. -/
def HotelApi.toJsonOrThrow (res : Response) (defaultMessage : String) : Except JsError JsVal :=
  let text : String := match res.body with
    | Except.ok t => t
    | Except.error _ => ""
  if !res.ok then
    let message :=
      if res.status = 401 ∨ res.status = 403 then "You are not authorized. Please log in."
      else defaultMessage ++ " (" ++ numberToString res.status ++ ")" ++
        (if text ≠ "" then ": " ++ text else "")
    Except.error (mkError message)
  else
    match (if text ≠ "" then JSON.parse text else Except.ok JsVal.null) with
    | Except.ok v => Except.ok v
    | Except.error _ => Except.ok (if text ≠ "" then JsVal.str text else JsVal.null)

/-- The function `toJsonOrThrow` of `src/api/travelPackagesApi.js`. -/
def TravelPackagesApi.toJsonOrThrow (res : Response) (defaultMessage : String) :
    Except JsError JsVal :=
  let text : String := match res.body with
    | Except.ok t => t
    | Except.error _ => ""
  if !res.ok then
    let message :=
      if res.status = 401 ∨ res.status = 403 then "You are not authorized. Please log in."
      else defaultMessage ++ " (" ++ numberToString res.status ++ ")" ++
        (if text ≠ "" then ": " ++ text else "")
    Except.error (mkError message)
  else
    match (if text ≠ "" then JSON.parse text else Except.ok JsVal.null) with
    | Except.ok v => Except.ok v
    | Except.error _ => Except.ok (if text ≠ "" then JsVal.str text else JsVal.null)

/-- The function `toJsonOrThrow` of `src/api/paymentsApi.js`. -/
def PaymentsApi.toJsonOrThrow (res : Response) (defaultMessage : String) : Except JsError JsVal :=
  let text : String := match res.body with
    | Except.ok t => t
    | Except.error _ => ""
  if !res.ok then
    let message :=
      if res.status = 401 ∨ res.status = 403 then "You are not authorized. Please log in."
      else defaultMessage ++ " (" ++ numberToString res.status ++ ")" ++
        (if text ≠ "" then ": " ++ text else "")
    Except.error (mkError message)
  else
    match (if text ≠ "" then JSON.parse text else Except.ok JsVal.null) with
    | Except.ok v => Except.ok v
    | Except.error _ => Except.ok (if text ≠ "" then JsVal.str text else JsVal.null)

/-- The function `handleResponse` of `src/api/hotelApi.js`; `as` is the second
argument, `'json'` when the caller passes none. -/
def HotelApi.handleResponse (res : Response) (as : String) : Except JsError ResponseData :=
  if !res.ok then
    match res.body with
    | Except.error e => Except.error e
    | Except.ok text =>
      Except.error (mkError (if text ≠ "" then text else "HTTP " ++ numberToString res.status))
  else if res.status = 204 then Except.ok (ResponseData.value JsVal.null)
  else if as = "json" then
    match res.body with
    | Except.error e => Except.error e
    | Except.ok text => (JSON.parse text).map ResponseData.value
  else if as = "bytes" then res.body.map ResponseData.bytes
  else if as = "text" then res.body.map ResponseData.text
  else Except.ok (ResponseData.response res)

/-! ### The operations of `HotelApi`

Each operation is given from the point where its `fetch` call has resolved with
the response `res`: what remains is the handling of that response. -/

/-- The operation `HotelApi.search`. -/
def HotelApi.search (res : Response) := HotelApi.handleResponse res "json"
/-- The operation `HotelApi.getById`. -/
def HotelApi.getById (res : Response) := HotelApi.handleResponse res "json"
/-- The operation `HotelApi.create`. -/
def HotelApi.create (res : Response) := HotelApi.handleResponse res "json"
/-- The operation `HotelApi.update`. -/
def HotelApi.update (res : Response) := HotelApi.handleResponse res "json"
/-- The operation `HotelApi.remove`, for the hotel `id`. -/
def HotelApi.remove (id : String) (res : Response) : Except JsError JsVal :=
  match HotelApi.toJsonOrThrow res ("Failed to delete package #" ++ id) with
  | Except.error e => Except.error e
  | Except.ok _ => Except.ok (JsVal.bool true)
/-- The operation `HotelApi.listAmenities`. -/
def HotelApi.listAmenities (res : Response) := HotelApi.handleResponse res "json"
/-- The operation `HotelApi.addAmenity`. -/
def HotelApi.addAmenity (res : Response) := HotelApi.handleResponse res "json"
/-- The operation `HotelApi.removeAmenity`. -/
def HotelApi.removeAmenity (res : Response) : Except JsError ResponseData :=
  match HotelApi.handleResponse res "json" with
  | Except.error e => Except.error e
  | Except.ok _ => Except.ok (ResponseData.value (JsVal.bool true))
/-- The operation `HotelApi.rate`. -/
def HotelApi.rate (res : Response) := HotelApi.handleResponse res "json"
/-- The operation `HotelApi.downloadBanner`. -/
def HotelApi.downloadBanner (res : Response) := HotelApi.handleResponse res "bytes"
/-- The operation `HotelApi.listRooms`. -/
def HotelApi.listRooms (res : Response) := HotelApi.handleResponse res "json"
/-- The operation `HotelApi.getRoom`. -/
def HotelApi.getRoom (res : Response) := HotelApi.handleResponse res "json"
/-- The operation `HotelApi.createRoom`. -/
def HotelApi.createRoom (res : Response) := HotelApi.handleResponse res "json"
/-- The operation `HotelApi.updateRoom`. -/
def HotelApi.updateRoom (res : Response) := HotelApi.handleResponse res "json"
/-- The operation `HotelApi.updateRoomInventory`. -/
def HotelApi.updateRoomInventory (res : Response) := HotelApi.handleResponse res "json"
/-- The operation `HotelApi.deleteRoom`. -/
def HotelApi.deleteRoom (res : Response) := HotelApi.handleResponse res "json"

/-- The message of the error a call fails with, if it fails. -/
def failureMessage {α : Type} : Except JsError α → Option String
  | Except.error e => some e.message
  | Except.ok _ => none

/-! ## Token decoding (`src/util/jwt.js`) -/

/-- ASCII whitespace, which `atob` removes before decoding. -/
def isAsciiWhitespace (c : Char) : Bool :=
  c.toNat = 9 || c.toNat = 10 || c.toNat = 12 || c.toNat = 13 || c.toNat = 32

/-- The value of a character of the base64 alphabet `A-Z a-z 0-9 + /`. -/
def base64Index (c : Char) : Option Nat :=
  if 65 ≤ c.toNat ∧ c.toNat ≤ 90 then some (c.toNat - 65)
  else if 97 ≤ c.toNat ∧ c.toNat ≤ 122 then some (c.toNat - 71)
  else if 48 ≤ c.toNat ∧ c.toNat ≤ 57 then some (c.toNat + 4)
  else if c.toNat = 43 then some 62
  else if c.toNat = 47 then some 63
  else none

/-- The values of all characters, if all are in the base64 alphabet. -/
def base64Indices : List Char → Option (List Nat)
  | [] => some []
  | c :: cs =>
    match base64Index c, base64Indices cs with
    | some i, some is => some (i :: is)
    | _, _ => none

/-- When the length is a multiple of four, one or two trailing `=` are removed. -/
def stripPadding (cs : List Char) : List Char :=
  if cs.length % 4 = 0 then
    if cs.getLast? = some (Char.ofNat 61) then
      if cs.dropLast.getLast? = some (Char.ofNat 61) then cs.dropLast.dropLast else cs.dropLast
    else cs
  else cs

/-- Bytes of a run of 6-bit values: four values give three bytes, a final group
of three gives two bytes and of two gives one byte (spare bits are dropped). -/
def decodeSextets : List Nat → List Nat
  | a :: b :: c :: d :: rest =>
    (a * 4 + b / 16) :: ((b % 16) * 16 + c / 4) :: ((c % 4) * 64 + d) :: decodeSextets rest
  | [a, b, c] => [a * 4 + b / 16, (b % 16) * 16 + c / 4]
  | [a, b] => [a * 4 + b / 16]
  | _ => []

/-- The platform function `atob` (forgiving base64 decoding): the result has
one character per decoded byte; invalid input throws. -/
def atob (data : String) : Except JsError String :=
  let cs := stripPadding (data.data.filter fun c => !isAsciiWhitespace c)
  if cs.length % 4 = 1 then
    Except.error (JsError.mk "InvalidCharacterError" "The string to be decoded is not correctly encoded.")
  else
    match base64Indices cs with
    | none =>
      Except.error (JsError.mk "InvalidCharacterError" "The string to be decoded is not correctly encoded.")
    | some sextets => Except.ok (String.mk ((decodeSextets sextets).map Char.ofNat))

/-- The call `s.replace(/old/g, new)` for a one-character pattern. -/
def replaceAll (old new : Char) (s : String) : String :=
  String.mk (s.data.map fun c => if c = old then new else c)

/-- The body of the `try` block of `decodeJwt`. -/
def decodeJwtBody (token : JsVal) : Except JsError JsVal :=
  match token.split with
  | Except.error e => Except.error e
  | Except.ok parts =>
    match parts.get? 1 with
    | none => Except.error (JsError.mk "TypeError" "Cannot read properties of undefined")
    | some payloadB64 =>
      let base64 := replaceAll (Char.ofNat 95) (Char.ofNat 47)
        (replaceAll (Char.ofNat 45) (Char.ofNat 43) payloadB64)
      match atob base64 with
      | Except.error e => Except.error e
      | Except.ok json => JSON.parse json

/-- The function `decodeJwt`: whatever the body throws is caught (and logged),
and `null` is returned. -/
def decodeJwt (token : JsVal) : Except JsError JsVal :=
  match decodeJwtBody token with
  | Except.ok v => Except.ok v
  | Except.error _ => Except.ok JsVal.null

/-- The own member `key` of an object built by `JSON.parse`: of several members
with the same key the last one counts. -/
def ownMember : List (String × JsVal) → String → Option JsVal
  | [], _ => none
  | (k, v) :: rest, key =>
    match ownMember rest key with
    | some w => some w
    | none => if k = key then some v else none

/-- The read `payload.role`.  No built-in prototype has a member `role`. -/
def JsVal.role : JsVal → Except JsError JsVal
  | .undefined => Except.error (JsError.mk "TypeError" "Cannot read properties of undefined")
  | .null => Except.error (JsError.mk "TypeError" "Cannot read properties of null")
  | .obj members => Except.ok ((ownMember members "role").getD JsVal.undefined)
  | _ => Except.ok JsVal.undefined

/-- The read `payload.sub`.  Of the built-in prototypes, `String.prototype` has
a member `sub` (a function). -/
def JsVal.sub : JsVal → Except JsError JsVal
  | .undefined => Except.error (JsError.mk "TypeError" "Cannot read properties of undefined")
  | .null => Except.error (JsError.mk "TypeError" "Cannot read properties of null")
  | .obj members => Except.ok ((ownMember members "sub").getD JsVal.undefined)
  | .str _ => Except.ok (JsVal.fn "String.prototype.sub")
  | _ => Except.ok JsVal.undefined

/-- The call `role.toUpperCase()`: only a string has the method. -/
def JsVal.toUpperCase : JsVal → Except JsError JsVal
  | .str s => Except.ok (JsVal.str (HotelFrontend.toUpperCase s))
  | .undefined => Except.error (JsError.mk "TypeError" "Cannot read properties of undefined")
  | .null => Except.error (JsError.mk "TypeError" "Cannot read properties of null")
  | _ => Except.error (JsError.mk "TypeError" "role.toUpperCase is not a function")

/-- The function `getRoleFromToken`. -/
def getRoleFromToken (token : JsVal) : Except JsError JsVal :=
  match decodeJwt token with
  | Except.error e => Except.error e
  | Except.ok payload =>
    if !payload.truthy then Except.ok JsVal.null
    else
      match payload.role with
      | Except.error e => Except.error e
      | Except.ok claim =>
        let role := if claim.truthy then claim else JsVal.null
        if role.truthy then role.toUpperCase else Except.ok JsVal.null

/-- The function `getUsernameFromToken`: `payload?.sub ?? null`. -/
def getUsernameFromToken (token : JsVal) : Except JsError JsVal :=
  match decodeJwt token with
  | Except.error e => Except.error e
  | Except.ok payload =>
    match payload with
    | JsVal.undefined => Except.ok JsVal.null
    | JsVal.null => Except.ok JsVal.null
    | _ =>
      match payload.sub with
      | Except.error e => Except.error e
      | Except.ok JsVal.undefined => Except.ok JsVal.null
      | Except.ok JsVal.null => Except.ok JsVal.null
      | Except.ok v => Except.ok v

/-- Strict equality of a value with a string literal. -/
def JsVal.isString (v : JsVal) (s : String) : Bool :=
  match v with
  | .str t => decide (t = s)
  | _ => false

/-! ### Base64url, to state what a token encodes -/

/-- The UTF-8 bytes of a character. -/
def utf8Bytes (c : Char) : List Nat :=
  if c.toNat < 128 then [c.toNat]
  else if c.toNat < 2048 then [192 + c.toNat / 64, 128 + c.toNat % 64]
  else if c.toNat < 65536 then
    [224 + c.toNat / 4096, 128 + c.toNat / 64 % 64, 128 + c.toNat % 64]
  else [240 + c.toNat / 262144, 128 + c.toNat / 4096 % 64, 128 + c.toNat / 64 % 64,
    128 + c.toNat % 64]

/-- The UTF-8 encoding of a text. -/
def utf8Encode (text : String) : List Nat := text.data.flatMap utf8Bytes

/-- The character of a 6-bit value in the URL-safe alphabet `A-Z a-z 0-9 - _`
(RFC 4648, section 5). -/
def base64urlChar (i : Nat) : Char :=
  if i < 26 then Char.ofNat (65 + i)
  else if i < 52 then Char.ofNat (71 + i)
  else if i < 62 then Char.ofNat (i - 4)
  else if i = 62 then Char.ofNat 45
  else Char.ofNat 95

/-- The base64url encoding of a byte sequence, without padding, as a JWT
segment is written. -/
def base64urlEncode : List Nat → List Char
  | x :: y :: z :: rest =>
    base64urlChar (x / 4) :: base64urlChar ((x % 4) * 16 + y / 16) ::
      base64urlChar ((y % 16) * 4 + z / 64) :: base64urlChar (z % 64) :: base64urlEncode rest
  | [x, y] =>
    [base64urlChar (x / 4), base64urlChar ((x % 4) * 16 + y / 16), base64urlChar ((y % 16) * 4)]
  | [x] => [base64urlChar (x / 4), base64urlChar ((x % 4) * 16)]
  | [] => []

/-- A token `header.payload.signature` whose second segment is the base64url
encoding of the UTF-8 bytes of `text`. -/
def tokenOfPayload (header : String) (text : String) (signature : String) : String :=
  header ++ "." ++ String.mk (base64urlEncode (utf8Encode text)) ++ "." ++ signature

/-! ## Login (`src/pages/Login.jsx`) -/

/-- What `handleSubmit` has done when it ends: the token handed to
`onLoginSuccess`, the target of `navigate`, the error shown, the loading flag. -/
structure LoginOutcome where
  loginSuccess : Option String
  navigatedTo : Option String
  error : Option String
  loading : Bool
deriving DecidableEq, Repr

/-- The handler `handleSubmit` of the login page, given what the call
`login(...)` settles to (a token string, as `authApi.login` documents, or an
error). -/
def Login.handleSubmit (loginResult : Except JsError String) : LoginOutcome :=
  match loginResult with
  | Except.error err =>
    { loginSuccess := none, navigatedTo := none,
      error := some (if err.message ≠ "" then err.message else "Login failed"),
      loading := false }
  | Except.ok token =>
    match getRoleFromToken (JsVal.str token) with
    | Except.error err =>
      { loginSuccess := some token, navigatedTo := none,
        error := some (if err.message ≠ "" then err.message else "Login failed"),
        loading := false }
    | Except.ok role =>
      if role.isString "AGENT" then
        { loginSuccess := some token, navigatedTo := some "/hotels", error := none,
          loading := false }
      else
        { loginSuccess := some token, navigatedTo := some "/home", error := none,
          loading := false }

/-! ## Routes and session (`src/App.js`, `src/components/Navbar.jsx`) -/

/-- The page components. -/
inductive Page where
  | Home | AddHotelPackage | Login | Register | TravelPackages | AddTravelPackages | HotelDetails
deriving DecidableEq, Repr

/-- What a route renders: a page, or `<Navigate to=... replace />`. -/
inductive Element where
  | page (p : Page)
  | navigate (target : String)
deriving DecidableEq, Repr

/-- The paths the router matches; `/hotel/:id` carries its parameter. -/
inductive RoutePath where
  | home | hotels | login | register | packages | addTravelPackage
  | hotel (id : String)
deriving DecidableEq, Repr

/-- Truthiness of a token held as `string | null`. -/
def tokenTruthy : Option String → Bool
  | some s => decide (s ≠ "")
  | none => false

/-- The `element` of each `<Route>` of `App`, for the token in App's state. -/
def App.routeElement (token : Option String) : RoutePath → Element
  | .home => if tokenTruthy token then Element.page Page.Home else Element.navigate "/login"
  | .hotels =>
    if tokenTruthy token then Element.page Page.AddHotelPackage else Element.navigate "/login"
  | .login => Element.page Page.Login
  | .register => Element.page Page.Register
  | .packages =>
    if tokenTruthy token then Element.page Page.TravelPackages else Element.navigate "/login"
  | .addTravelPackage =>
    if tokenTruthy token then Element.page Page.AddTravelPackages else Element.navigate "/login"
  | .hotel _ =>
    if tokenTruthy token then Element.page Page.HotelDetails else Element.navigate "/login"

/-- The page a guarded route shows to a logged-in user. -/
def guardedPage : RoutePath → Option Page
  | .home => some Page.Home
  | .hotels => some Page.AddHotelPackage
  | .packages => some Page.TravelPackages
  | .addTravelPackage => some Page.AddTravelPackages
  | .hotel _ => some Page.HotelDetails
  | .login => none
  | .register => none

/-- The session as the browser holds it: the entry `token` of `localStorage`
and the `token` state of the `App` component of this tab. -/
structure Session where
  storage : Option String
  appToken : Option String
deriving DecidableEq, Repr

/-- Mounting `App`: the state starts as `localStorage.getItem('token')`. -/
def App.mount (storage : Option String) : Session :=
  { storage := storage, appToken := storage }

/-- The callback `handleLoginSuccess` of `App`. -/
def App.handleLoginSuccess (newToken : String) (_s : Session) : Session :=
  { storage := some newToken, appToken := some newToken }

/-- A `storage` event: the key changed and its new value. -/
structure StorageEvent where
  key : Option String
  newValue : Option String
deriving DecidableEq, Repr

/-- The `storage` listener of `App`. -/
def App.storageHandler (e : StorageEvent) (s : Session) : Session :=
  if e.key = some "token" then { s with appToken := e.newValue } else s

/-- Another tab sets (or removes) the entry `token`: the shared storage
changes and this tab receives the `storage` event. -/
def otherTabChangesToken (newValue : Option String) (s : Session) : Session :=
  App.storageHandler { key := some "token", newValue := newValue }
    { s with storage := newValue }

/-- The handler `handleLogout` of `Navbar`: removes the entry from
`localStorage` and navigates to `/login`; the second component is the target of
`navigate`. -/
def Navbar.handleLogout (s : Session) : Session × String :=
  ({ s with storage := none }, "/login")

/-! ## List controllers (`src/pages/*.jsx`)

A handler runs in the closure of one render: it reads the state `s` of that
render.  The state setters it calls take effect for the next render only, so a
handler is a function from `s` to the next state and to the requests it issues,
and a request is built from `s`, not from the values just set. -/

/-- White space and line terminators, as `String.prototype.trim` removes them. -/
def isJsWhitespace (c : Char) : Bool :=
  (9 ≤ c.toNat && c.toNat ≤ 13) || c.toNat = 32 || c.toNat = 160 || c.toNat = 5760 ||
  (8192 ≤ c.toNat && c.toNat ≤ 8202) || c.toNat = 8232 || c.toNat = 8233 || c.toNat = 8239 ||
  c.toNat = 8287 || c.toNat = 12288 || c.toNat = 65279

/-- The call `s.trim()`. -/
def jsTrim (s : String) : String :=
  String.mk ((s.data.dropWhile isJsWhitespace).reverse.dropWhile isJsWhitespace).reverse

/-- The value `e.message || fallback`. -/
def messageOr (e : JsError) (fallback : String) : String :=
  if e.message ≠ "" then e.message else fallback

/-- A page of rows with all its metadata, as the backend documents it
(`Page<T>`). -/
structure PageData (α : Type) where
  content : List α
  totalElements : Nat
  totalPages : Nat
  number : Nat
  size : Nat

/-- A held page read defensively (`pageData?.number ?? 0`): the page itself and
each field may be absent. -/
structure LoosePage (α : Type) where
  content : Option (List α)
  number : Option Int
  size : Option Int

namespace Home

/-- The state of the hotel search page, with rows of type `α`. -/
structure State (α : Type) where
  q : String
  country : String
  stateCode : String
  minRating : String
  sortBy : String
  sortDir : String
  page : Nat
  size : Nat
  pageData : PageData α
  loading : Bool
  error : Option String

/-- The argument `params` of `HotelApi.search`; an absent `minRating` is
`undefined`. -/
structure SearchParams (ν : Type) where
  q : String
  country : String
  state : String
  minRating : Option ν
  page : Nat
  size : Nat
  sort : String
deriving DecidableEq, Repr

/-- The object `params` that `fetchData(opts)` builds in the render with state
`s`; `Number` is the conversion of the rating text to a number. -/
def fetchParams {α ν : Type} (Number : String → ν) (s : State α) (pageArg : Option Nat) :
    SearchParams ν :=
  { q := s.q, country := s.country, state := s.stateCode,
    minRating := if jsTrim s.minRating ≠ "" then some (Number s.minRating) else none,
    page := match pageArg with
      | some p => p
      | none => s.page,
    size := s.size,
    sort := s.sortBy ++ "," ++ s.sortDir }

/-- The function `fetchData` up to its `await`: loading is set, the error is
cleared, and the search request is issued. -/
def fetchData {α ν : Type} (Number : String → ν) (s next : State α) (pageArg : Option Nat) :
    State α × SearchParams ν :=
  ({ next with loading := true, error := none }, fetchParams Number s pageArg)

/-- The function `fetchData` after its `await`, when the search has settled. -/
def fetchSettled {α : Type} (result : Except JsError (PageData α)) (s : State α) : State α :=
  match result with
  | Except.ok resPage => { s with pageData := resPage, page := resPage.number, loading := false }
  | Except.error e =>
    { s with error := some (messageOr e "Something went wrong while fetching hotels."),
             loading := false }

/-- The handler `clearFilters`, run in the render with state `s`: the state of
the next render, and the request issued. -/
def clearFilters {α ν : Type} (Number : String → ν) (s : State α) : State α × SearchParams ν :=
  fetchData Number s
    { s with q := "", country := "", stateCode := "", minRating := "", sortBy := "name",
             sortDir := "asc", size := 10, page := 0 }
    (some 0)

end Home

namespace TravelPackages

/-- The filter, sort and page state of the travel-package search page. -/
structure State where
  destination : String
  keyword : String
  minDurationDays : String
  maxDurationDays : String
  minPrice : String
  maxPrice : String
  page : Nat
  size : Nat
  sortBy : String
  sortDir : String
  loading : Bool
  error : Option String
deriving DecidableEq, Repr

/-- The argument of `searchTravelPackages`; an absent field is `undefined`. -/
structure SearchParams (ν : Type) where
  destination : Option String
  keyword : Option String
  minDurationDays : Option ν
  maxDurationDays : Option ν
  minPrice : Option ν
  maxPrice : Option ν
  page : Nat
  size : Nat
  sortBy : String
  sortDir : String
deriving DecidableEq, Repr

/-- The value `text.trim() || undefined`. -/
def trimmedOrUndefined (text : String) : Option String :=
  if jsTrim text ≠ "" then some (jsTrim text) else none

/-- The value `text !== '' ? Number(text) : undefined`. -/
def numberOrUndefined {ν : Type} (Number : String → ν) (text : String) : Option ν :=
  if text ≠ "" then some (Number text) else none

/-- The function `fetchData` up to its `await`, run in the render with state
`s`, where `next` collects the setters already called: loading is set, the
error is cleared, and the search request is issued from the values of `s`. -/
def fetchData {ν : Type} (Number : String → ν) (s next : State) (pageArg : Option Nat) :
    State × SearchParams ν :=
  ({ next with loading := true, error := none },
   { destination := trimmedOrUndefined s.destination,
     keyword := trimmedOrUndefined s.keyword,
     minDurationDays := numberOrUndefined Number s.minDurationDays,
     maxDurationDays := numberOrUndefined Number s.maxDurationDays,
     minPrice := numberOrUndefined Number s.minPrice,
     maxPrice := numberOrUndefined Number s.maxPrice,
     page := match pageArg with
       | some p => p
       | none => s.page,
     size := s.size, sortBy := s.sortBy, sortDir := s.sortDir })

/-- The handler `clearFilters`, run in the render with state `s`. -/
def clearFilters {ν : Type} (Number : String → ν) (s : State) : State × SearchParams ν :=
  fetchData Number s
    { s with destination := "", keyword := "", minDurationDays := "", maxDurationDays := "",
             minPrice := "", maxPrice := "", sortBy := "price", sortDir := "asc", page := 0 }
    (some 0)

end TravelPackages

namespace AddHotelPackage

/-- The arguments of a `HotelApi.listRooms` call. -/
structure ListRoomsArgs where
  hotelId : Nat
  type : String
  page : Nat
  size : Nat
  sortBy : String
  sortDir : String
deriving DecidableEq, Repr

/-- What a rooms handler does besides awaiting its own call. -/
inductive Effect where
  | listRooms (args : ListRoomsArgs)
  | alert (message : String)
deriving DecidableEq, Repr

/-- The state of the rooms manager; a hotel and a room are known by their
numeric `id`, and `0` is a falsy id. -/
structure RoomsState (ρ : Type) where
  roomsHotel : Option Nat
  roomsPage : PageData ρ
  roomsSortBy : String
  roomsSortDir : String
  roomsTypeFilter : String

/-- The value `a || b` on numbers. -/
def orElse (a b : Nat) : Nat := if a ≠ 0 then a else b

/-- The function `loadRooms` up to its `await`: the `listRooms` call it issues,
if any.  An argument that is `none` takes its default. -/
def loadRooms {ρ : Type} (s : RoomsState ρ) (hotelId page size : Option Nat) :
    Option ListRoomsArgs :=
  let id := orElse (hotelId.getD 0) (s.roomsHotel.getD 0)
  if id = 0 then none
  else some
    { hotelId := id, type := s.roomsTypeFilter,
      page := match page with
        | some p => p
        | none => orElse s.roomsPage.number 0,
      size := match size with
        | some n => n
        | none => orElse s.roomsPage.size 10,
      sortBy := s.roomsSortBy, sortDir := s.roomsSortDir }

/-- The handler `deleteRoom`, given the answer to the confirmation dialog and
what the call `HotelApi.deleteRoom(roomId)` settles to. -/
def deleteRoom {ρ : Type} (s : RoomsState ρ) (roomId : Nat) (confirmed : Bool)
    (deleted : Except JsError Unit) : List Effect :=
  if roomId = 0 then []
  else if !confirmed then []
  else
    match deleted with
    | Except.error e => [Effect.alert (messageOr e "Failed to delete room")]
    | Except.ok _ =>
      match loadRooms s none (some s.roomsPage.number) (some s.roomsPage.size) with
      | some args => [Effect.listRooms args]
      | none => []

end AddHotelPackage

namespace AddTravelPackages

/-- The arguments of a `getMyTravelPackages` call. -/
structure MineArgs where
  page : Int
  size : Int
  sortBy : String
  sortDir : String
deriving DecidableEq, Repr

/-- What a list handler does besides awaiting its own call. -/
inductive Effect where
  | getMyTravelPackages (args : MineArgs)
  | alert (message : String)
deriving DecidableEq, Repr

/-- The function `fetchMine` up to its `await`: the call it issues.  An
argument that is `none` takes its default from the held page. -/
def fetchMine {α : Type} (pageData : Option (LoosePage α)) (pageArg sizeArg : Option Int) :
    MineArgs :=
  { page := match pageArg with
      | some p => p
      | none => (pageData.bind fun pd => pd.number).getD 0,
    size := match sizeArg with
      | some n => n
      | none => (pageData.bind fun pd => pd.size).getD 20,
    sortBy := "updatedAt", sortDir := "desc" }

/-- The handler `removePkg`, given the answer to the confirmation dialog and
what the call `deleteTravelPackage(id)` settles to. -/
def removePkg {α : Type} (pageData : Option (LoosePage α)) (confirmed : Bool)
    (deleted : Except JsError Unit) : List Effect :=
  if !confirmed then []
  else
    match deleted with
    | Except.error err => [Effect.alert (messageOr err "Failed to delete package")]
    | Except.ok _ =>
      let currentPage : Int := (pageData.bind fun pd => pd.number).getD 0
      let pageSize : Int := (pageData.bind fun pd => pd.size).getD 20
      let remainingItems : Int :=
        ((pageData.bind fun pd => pd.content).map fun c => (c.length : Int)).getD 1 - 1
      let nextPage : Int :=
        if remainingItems = 0 ∧ currentPage > 0 then currentPage - 1 else currentPage
      [Effect.getMyTravelPackages (fetchMine pageData (some nextPage) (some pageSize))]

end AddTravelPackages

/-! ## Query strings (`buildQuery` of `src/api/hotelApi.js` and `src/api/travelPackagesApi.js`)

A parameter object is the list of its entries in the order of `Object.entries`.
The conversion of a value to a string (`String(v)`, and the same conversion
inside `URLSearchParams.append`) is a platform function, passed as `jsString`;
it may throw. -/

/-- An upper-case hexadecimal digit. -/
def hexDigit (n : Nat) : Char :=
  if n < 10 then Char.ofNat (48 + n) else Char.ofNat (55 + n)

/-- The `application/x-www-form-urlencoded` form of one byte: a space is `+`,
ASCII letters and digits and `*`, `-`, `.`, `_` stand for themselves, every
other byte is `%` and two hexadecimal digits. -/
def urlencodeByte (b : Nat) : List Char :=
  if b = 32 then [Char.ofNat 43]
  else if (48 ≤ b ∧ b ≤ 57) ∨ (65 ≤ b ∧ b ≤ 90) ∨ (97 ≤ b ∧ b ≤ 122) ∨
      b = 42 ∨ b = 45 ∨ b = 46 ∨ b = 95 then [Char.ofNat b]
  else [Char.ofNat 37, hexDigit (b / 16), hexDigit (b % 16)]

/-- The urlencoded form of a text: of each byte of its UTF-8 encoding. -/
def urlencode (text : String) : List Char := (utf8Encode text).flatMap urlencodeByte

/-- The method `URLSearchParams.prototype.toString`: the pairs `name=value`,
urlencoded, joined by `&`. -/
def URLSearchParams.toString (entries : List (String × String)) : String :=
  String.mk (List.intercalate [Char.ofNat 38]
    (entries.map fun kv => urlencode kv.1 ++ Char.ofNat 61 :: urlencode kv.2))

/-- The test `v === null || v === undefined || v === ''`. -/
def isOmitted (v : JsVal) : Bool :=
  match v with
  | JsVal.null => true
  | JsVal.undefined => true
  | _ => v.isString ""

/-- The loop `Object.entries(params).forEach(...)` of the hotel client's
`buildQuery`, on the entries still to visit and the pairs appended to `qs` so
far: an entry whose value is `null`, `undefined` or `''` is skipped, every other
one is appended with `String(v)`. -/
def HotelApi.appendEntries (jsString : JsVal → Except JsError String) :
    List (String × JsVal) → List (String × String) → Except JsError (List (String × String))
  | [], qs => Except.ok qs
  | (k, v) :: rest, qs =>
    if isOmitted v then HotelApi.appendEntries jsString rest qs
    else
      match jsString v with
      | Except.error e => Except.error e
      | Except.ok text => HotelApi.appendEntries jsString rest (qs ++ [(k, text)])

/-- The function `buildQuery` of `src/api/hotelApi.js`. -/
def HotelApi.buildQuery (jsString : JsVal → Except JsError String)
    (params : List (String × JsVal)) : Except JsError String :=
  match HotelApi.appendEntries jsString params [] with
  | Except.error e => Except.error e
  | Except.ok qs =>
    let str := URLSearchParams.toString qs
    Except.ok (if str ≠ "" then "?" ++ str else "")

/-- The loop of the travel-package client's `buildQuery`: an entry is appended
when its value is not `undefined`, not `null` and not `''`; `append` converts
the value to a string. -/
def TravelPackagesApi.appendEntries (jsString : JsVal → Except JsError String) :
    List (String × JsVal) → List (String × String) → Except JsError (List (String × String))
  | [], entries => Except.ok entries
  | (k, v) :: rest, entries =>
    if !isOmitted v then
      match jsString v with
      | Except.error e => Except.error e
      | Except.ok text => TravelPackagesApi.appendEntries jsString rest (entries ++ [(k, text)])
    else TravelPackagesApi.appendEntries jsString rest entries

/-- The function `buildQuery` of `src/api/travelPackagesApi.js`. -/
def TravelPackagesApi.buildQuery (jsString : JsVal → Except JsError String)
    (paramsObj : List (String × JsVal)) : Except JsError String :=
  match TravelPackagesApi.appendEntries jsString paramsObj [] with
  | Except.error e => Except.error e
  | Except.ok entries => Except.ok (URLSearchParams.toString entries)

/-! ## Hotel form helpers (`src/pages/AddHotelPackage.jsx`, `src/api/hotelApi.js`) -/

/-- The segments of `s.split(sep)` for a one-character separator, as character
lists. -/
def splitChar (sep : Nat) : List Char → List (List Char)
  | [] => [[]]
  | c :: cs =>
    if c.toNat = sep then [] :: splitChar sep cs
    else match splitChar sep cs with
      | [] => [[c]]
      | seg :: more => (c :: seg) :: more

/-- A character of the class `[,;\s]`. -/
def isAmenityDelimiter (c : Char) : Bool :=
  c.toNat = 44 || c.toNat = 59 || isJsWhitespace c

/-- The segments of `s.split(/[,;\s]+/)`: the input is cut at every maximal run
of delimiters; `afterDelimiter` tells that the character before was one. -/
def splitRuns : List Char → Bool → List (List Char)
  | [], _ => [[]]
  | c :: cs, afterDelimiter =>
    if isAmenityDelimiter c then
      if afterDelimiter then splitRuns cs true else [] :: splitRuns cs true
    else match splitRuns cs false with
      | [] => [[c]]
      | seg :: more => (c :: seg) :: more

/-- The value `Array.from(new Set(arr))`: the elements in the order in which
they were first added, each once. -/
def setToArray (arr : List String) : List String :=
  arr.foldl (fun set x => if x ∈ set then set else set ++ [x]) []

/-- The value `texts.map(s => s.trim()).filter(Boolean)`. -/
def trimAndFilter (texts : List String) : List String :=
  (texts.map jsTrim).filter fun s => decide (s ≠ "")

/-- The read `o?.key` for one of the keys `name`, `label`, `value`: an object
of parsed JSON has the member or not, and no other JSON value has one. -/
def optionalMember (o : JsVal) (key : String) : JsVal :=
  match o with
  | JsVal.obj members => (ownMember members key).getD JsVal.undefined
  | _ => JsVal.undefined

/-- The value `a ?? b`. -/
def nullish (a b : JsVal) : JsVal :=
  match a with
  | JsVal.undefined => b
  | JsVal.null => b
  | _ => a

/-- The value `o?.name ?? o?.label ?? o?.value ?? ''`. -/
def carriedValue (o : JsVal) : JsVal :=
  nullish (nullish (nullish (optionalMember o "name") (optionalMember o "label"))
    (optionalMember o "value")) (JsVal.str "")

/-- The strings of an array all of whose elements are strings
(`raw.every(x => typeof x === 'string')`). -/
def allStrings : List JsVal → Option (List String)
  | [] => some []
  | JsVal.str s :: rest => (allStrings rest).map fun ss => s :: ss
  | _ :: _ => none

/-- The test `typeof x === 'object'`. -/
def typeofObject : JsVal → Bool
  | JsVal.null => true
  | JsVal.arr _ => true
  | JsVal.obj _ => true
  | _ => false

/-- The texts `raw.map(o => (...).toString())` of the second case of
`normalizeAmenities`, before trimming; `toStringMethod` is the method call
`x.toString()`, which may throw. -/
def carriedTexts (toStringMethod : JsVal → Except JsError String) :
    List JsVal → Except JsError (List String)
  | [] => Except.ok []
  | o :: rest =>
    match toStringMethod (carriedValue o) with
    | Except.error e => Except.error e
    | Except.ok text =>
      match carriedTexts toStringMethod rest with
      | Except.error e => Except.error e
      | Except.ok texts => Except.ok (text :: texts)

/-- The function `normalizeAmenities`. -/
def normalizeAmenities (toStringMethod : JsVal → Except JsError String) (raw : JsVal) :
    Except JsError (List String) :=
  if !raw.truthy then Except.ok []
  else
    match raw with
    | JsVal.arr items =>
      match allStrings items with
      | some strings => Except.ok (setToArray (trimAndFilter strings))
      | none =>
        if !items.isEmpty && typeofObject (items.headD JsVal.undefined) then
          match carriedTexts toStringMethod items with
          | Except.error e => Except.error e
          | Except.ok texts => Except.ok (setToArray (trimAndFilter texts))
        else Except.ok []
    | JsVal.str s =>
      Except.ok (setToArray (trimAndFilter ((splitRuns s.data false).map String.mk)))
    | _ => Except.ok []

/-- The character index `s.indexOf(c)` of the first occurrence, `-1` when there
is none. -/
def indexOfChar (c : Nat) : List Char → Int
  | [] => -1
  | d :: ds =>
    if d.toNat = c then 0
    else if indexOfChar c ds < 0 then -1 else indexOfChar c ds + 1

/-- The value `s.slice(start)`: a negative `start` counts from the end. -/
def sliceFrom (start : Int) (cs : List Char) : List Char :=
  if start < 0 then cs.drop ((cs.length : Int) + start).toNat else cs.drop start.toNat

/-- The function `extractBase64`. -/
def extractBase64 (dataUrlOrB64 : String) : String :=
  if dataUrlOrB64 = "" then ""
  else
    let commaIdx := indexOfChar 44 dataUrlOrB64.data
    if commaIdx ≥ 0 then String.mk (sliceFrom (commaIdx + 1) dataUrlOrB64.data) else dataUrlOrB64

/-- The function `toDataUrl` of `src/api/hotelApi.js`; without a `mime` argument
the type is `image/jpeg`. -/
def toDataUrl (b64 : String) (mime : Option String) : String :=
  if b64 ≠ "" then "data:" ++ mime.getD "image/jpeg" ++ ";base64," ++ b64 else ""

namespace AddHotelPackage

/-- The create form of the hotel page: the text fields, the previews (data
URLs) and the chosen files (known by their MIME type). -/
structure CreateForm where
  name : String
  description : String
  destination : String
  addressLine1 : String
  city : String
  stateCode : String
  country : String
  zip : String
  amenitiesInput : String
  bannerPreview : String
  photo1Preview : String
  photo2Preview : String
  bannerFile : Option String
  photo1File : Option String
  photo2File : Option String
deriving DecidableEq, Repr

/-- The payload `dto` of `HotelApi.create`. -/
structure HotelDto where
  name : String
  description : String
  destination : String
  addressLine1 : String
  city : String
  state : String
  country : String
  zip : String
  amenities : List String
  bannerImage : String
  photo1 : String
  photo2 : String
deriving DecidableEq, Repr

/-- The memoised value `canSubmitCreate`. -/
def canSubmitCreate (form : CreateForm) : Bool :=
  if jsTrim form.name = "" ∨ jsTrim form.destination = "" ∨ jsTrim form.city = "" ∨
      jsTrim form.country = "" then false
  else if form.bannerFile = none ∨ form.photo1File = none then false
  else true

/-- The handler `handleCreate` up to its first `await`: the payload it passes
to `HotelApi.create`, if the form can be submitted. -/
def handleCreate (form : CreateForm) : Option HotelDto :=
  if !canSubmitCreate form then none
  else some
    { name := jsTrim form.name,
      description := jsTrim form.description,
      destination := jsTrim form.destination,
      addressLine1 := jsTrim form.addressLine1,
      city := jsTrim form.city,
      state := jsTrim form.stateCode,
      country := jsTrim form.country,
      zip := jsTrim form.zip,
      amenities := trimAndFilter ((splitChar 44 form.amenitiesInput.data).map String.mk),
      bannerImage := extractBase64 form.bannerPreview,
      photo1 := extractBase64 form.photo1Preview,
      photo2 := extractBase64 form.photo2Preview }

end AddHotelPackage

/-! ## Numbers

Arithmetic is exact: a finite number is a rational, and the rounding of
floating-point operations is not part of the model. -/

/-- The function `Math.round` on a finite number: the nearest integer, and the
upper one of the two when the number lies half-way. -/
def mathRound (x : ℚ) : Int := ⌊x + 1 / 2⌋

/-- A value of type `number`: finite, or one of `NaN`, `Infinity`, `-Infinity`. -/
inductive JsNumber where
  | finite (q : ℚ)
  | nan
  | posInf
  | negInf
deriving DecidableEq

/-- What `compressImageFile` draws and encodes: the size of the canvas, and the
type and quality handed to `canvas.toDataURL`. -/
structure EncodedImage where
  width : Int
  height : Int
  mimeType : String
  quality : ℚ
deriving DecidableEq

/-- The function `compressImageFile` of `src/util/imageCompress.js`, for a
bitmap of the given width (positive) and height; an option that is `none` takes
its default. -/
def ImageCompress.compressImageFile (bitmapWidth bitmapHeight : Nat) (maxWidth : Option ℚ)
    (quality : Option ℚ) (mimeType : Option String) : EncodedImage :=
  let scale : ℚ := min 1 (maxWidth.getD 1280 / bitmapWidth)
  let targetW := mathRound (bitmapWidth * scale)
  let targetH := mathRound (bitmapHeight * scale)
  { width := targetW, height := targetH, mimeType := mimeType.getD "image/jpeg",
    quality := quality.getD (7 / 10) }

/-- The function `compressImageFile` of `src/pages/AddHotelPackage.jsx`. -/
def AddHotelPackage.compressImageFile (bitmapWidth bitmapHeight : Nat) (maxWidth : Option ℚ)
    (quality : Option ℚ) (mimeType : Option String) : EncodedImage :=
  let scale : ℚ := min 1 (maxWidth.getD 1024 / bitmapWidth)
  let width := mathRound (bitmapWidth * scale)
  let height := mathRound (bitmapHeight * scale)
  { width := width, height := height, mimeType := mimeType.getD "image/jpeg",
    quality := quality.getD (18 / 25) }

/-! ## Checkout (`src/pages/TravelPackages.jsx`, `src/api/paymentsApi.js`) -/

namespace TravelPackages

end TravelPackages

/-! ## Paging, page size and row updates of the search pages -/

namespace Home

/-- The handler `nextPage`, run in the render with state `s`: the state of the
next render and the request issued, if any. -/
def nextPage {α ν : Type} (Number : String → ν) (s : State α) :
    State α × Option (SearchParams ν) :=
  if s.page + 1 < s.pageData.totalPages then
    ((fetchData Number s { s with page := s.page + 1 } (some (s.page + 1))).1,
     some (fetchData Number s { s with page := s.page + 1 } (some (s.page + 1))).2)
  else (s, none)

/-- The handler `prevPage`, run in the render with state `s`. -/
def prevPage {α ν : Type} (Number : String → ν) (s : State α) :
    State α × Option (SearchParams ν) :=
  if s.page > 0 then
    ((fetchData Number s { s with page := s.page - 1 } (some (s.page - 1))).1,
     some (fetchData Number s { s with page := s.page - 1 } (some (s.page - 1))).2)
  else (s, none)

/-- The `onChange` handler of the two `Per page` selects, run in the render
with state `s`, for the selected number `val`. -/
def onPerPageChange {α ν : Type} (Number : String → ν) (s : State α) (val : Nat) :
    State α × SearchParams ν :=
  fetchData Number s { s with size := val, page := 0 } (some 0)

/-- A row of the hotel list: the fields the page updates, and all others. -/
structure HotelRow (β : Type) where
  id : Nat
  amenities : JsVal
  rating : JsVal
  rest : β

/-- The handler `fetchAmenities`, given what `HotelApi.listAmenities(id)`
settles to: the next state, and the alert shown on failure. -/
def fetchAmenities {β : Type} (id : Nat) (result : Except JsError JsVal)
    (s : State (HotelRow β)) : State (HotelRow β) × Option String :=
  match result with
  | Except.ok list =>
    ({ s with pageData :=
        { s.pageData with
          content := s.pageData.content.map fun h =>
            if h.id = id then { h with amenities := list } else h } }, none)
  | Except.error _ => (s, some "Could not load amenities.")

/-- The handler `rateHotel`, given what `HotelApi.rate(id, stars)` settles to. -/
def rateHotel {β : Type} (id : Nat) (result : Except JsError JsVal)
    (s : State (HotelRow β)) : State (HotelRow β) × Option String :=
  match result with
  | Except.ok avg =>
    ({ s with pageData :=
        { s.pageData with
          content := s.pageData.content.map fun h =>
            if h.id = id then { h with rating := avg } else h } }, none)
  | Except.error _ =>
    (s, some "Could not submit rating. Are you logged in with USER/HOTELMANAGER/ADMIN role?")

end Home

namespace TravelPackages

/-- The handler `gotoPrev`, run in the render with state `s`. -/
def gotoPrev {ν : Type} (Number : String → ν) (s : State) : State × Option (SearchParams ν) :=
  if s.page > 0 then
    ((fetchData Number s s (some (s.page - 1))).1,
     some (fetchData Number s s (some (s.page - 1))).2)
  else (s, none)

/-- The handler `gotoNext`, run in the render with state `s`; `totalPages` is
the field `pageData.totalPages` of the held page, `none` when it is absent. -/
def gotoNext {ν : Type} (Number : String → ν) (s : State) (totalPages : Option Nat) :
    State × Option (SearchParams ν) :=
  if s.page + 1 < totalPages.getD 0 then
    ((fetchData Number s s (some (s.page + 1))).1,
     some (fetchData Number s s (some (s.page + 1))).2)
  else (s, none)

/-- The `onChange` handler of the `Per page` select, run in the render with
state `s`, for the selected number `val`. -/
def onPerPageChange {ν : Type} (Number : String → ν) (s : State) (val : Nat) :
    State × SearchParams ν :=
  fetchData Number s { s with size := val, page := 0 } (some 0)

end TravelPackages

/-! ## The conversion `Number(text)` and the create predicates
(`src/pages/AddTravelPackages.jsx`, `src/pages/AddHotelPackage.jsx`)

`Number` applied to a string follows the grammar `StringNumericLiteral`: white
space around an optional literal, which is a signed decimal literal,
`Infinity`, or an unsigned binary, octal or hexadecimal integer. -/

/-- A numeric literal read from a string: the decimal `± mant * 10 ^ exp`, or
`± Infinity`. -/
inductive NumericLiteral where
  | decimal (negative : Bool) (mant : Nat) (exp : Int)
  | infinity (negative : Bool)
deriving DecidableEq, Repr

/-- The digits of an integer literal in the given base (2, 8 or 16): every
character must be a digit below the base. -/
def radixDigits (base : Nat) : List Char → Option (List Nat)
  | [] => some []
  | c :: cs =>
    match hexVal c with
    | none => none
    | some d =>
      if d < base then (radixDigits base cs).map fun ds => d :: ds else none

/-- The number a list of digits denotes in the given base, most significant
first. -/
def radixValue (base : Nat) (ds : List Nat) : Nat :=
  ds.foldl (fun acc d => base * acc + d) 0

/-- An unsigned decimal literal other than `Infinity`, which must span the whole
text: digits with an optional fraction, or a fraction alone, then an optional
exponent.  The result is the mantissa and the decimal exponent. -/
def strUnsignedDecimal (cs : List Char) : Option (Nat × Int) :=
  let intDigits := (readDigits cs).1
  let afterInt := (readDigits cs).2
  let fracDigits : List Nat :=
    match afterInt with
    | c :: rest => if c.toNat = 46 then (readDigits rest).1 else []
    | [] => []
  let afterFrac : List Char :=
    match afterInt with
    | c :: rest => if c.toNat = 46 then (readDigits rest).2 else afterInt
    | [] => []
  if intDigits.isEmpty && fracDigits.isEmpty then none
  else
    match readExponent afterFrac with
    | some (e, []) => some (digitsToNat (intDigits ++ fracDigits), e - fracDigits.length)
    | _ => none

/-- An unsigned integer literal with a radix mark (`0x`, `0o`, `0b`, in either
case) and at least one digit; `none` when the text has no radix mark, and
`some none` when it has one and is malformed. -/
def strNonDecimal (cs : List Char) : Option (Option Nat) :=
  match cs with
  | z :: m :: ds =>
    if z.toNat = 48 then
      let base : Nat :=
        if m.toNat = 120 ∨ m.toNat = 88 then 16
        else if m.toNat = 111 ∨ m.toNat = 79 then 8
        else if m.toNat = 98 ∨ m.toNat = 66 then 2
        else 0
      if base = 0 then none
      else if ds.isEmpty then some none
      else some ((radixDigits base ds).map (radixValue base))
    else none
  | _ => none

/-- The literal a string denotes under `StringNumericLiteral`, `none` when the
string does not match the grammar.  The empty and the blank string denote 0. -/
def stringNumericLiteral (text : String) : Option NumericLiteral :=
  let cs := (jsTrim text).data
  match cs with
  | [] => some (NumericLiteral.decimal false 0 0)
  | c :: rest =>
    match strNonDecimal cs with
    | some radixResult => radixResult.map fun n => NumericLiteral.decimal false n 0
    | none =>
      let negative : Bool := c.toNat = 45
      let unsigned : List Char := if c.toNat = 43 ∨ c.toNat = 45 then rest else cs
      if unsigned = "Infinity".data then some (NumericLiteral.infinity negative)
      else (strUnsignedDecimal unsigned).map fun me => NumericLiteral.decimal negative me.1 me.2

/-- The number a literal denotes. -/
def NumericLiteral.value : NumericLiteral → JsNumber
  | .decimal negative mant exp =>
    JsNumber.finite ((if negative then -1 else 1) * (mant : ℚ) * (10 : ℚ) ^ exp)
  | .infinity negative => if negative then JsNumber.negInf else JsNumber.posInf

/-- The call `Number(text)` on a string: the number the text denotes, `NaN` when
it denotes none. -/
def stringToNumber (text : String) : JsNumber :=
  match stringNumericLiteral text with
  | some literal => literal.value
  | none => JsNumber.nan

/-- The test `Number.isNaN(x)`. -/
def JsNumber.isNaN : JsNumber → Bool
  | .nan => true
  | _ => false

/-- The comparison `x < y`: false when either side is `NaN`. -/
def JsNumber.lt : JsNumber → JsNumber → Bool
  | .finite a, .finite b => decide (a < b)
  | .finite _, .posInf => true
  | .negInf, .finite _ => true
  | .negInf, .posInf => true
  | _, _ => false

/-- The comparison `x <= y`: false when either side is `NaN`. -/
def JsNumber.le : JsNumber → JsNumber → Bool
  | .finite a, .finite b => decide (a ≤ b)
  | .finite _, .posInf => true
  | .negInf, .finite _ => true
  | .negInf, .posInf => true
  | .posInf, .posInf => true
  | .negInf, .negInf => true
  | _, _ => false

namespace AddTravelPackages

/-- The create form of the travel-package page: the text fields, the chosen
files (known by their MIME type, `none` for `null`) and the previews. -/
structure CreateForm where
  title : String
  description : String
  destination : String
  durationDays : String
  price : String
  photo1File : Option String
  photo2File : Option String
  photo1Preview : String
  photo2Preview : String
deriving DecidableEq, Repr

/-- The payload `dto` of `createTravelPackage`. -/
structure PackageDto where
  title : String
  description : String
  destination : String
  durationDays : JsNumber
  price : JsNumber
  photo1 : String
  photo2 : String
  photo1contentType : String
  photo2contentType : String
deriving DecidableEq

/-- The memoised value `canSubmitCreate`. -/
def canSubmitCreate (form : CreateForm) : Bool :=
  if jsTrim form.title = "" ∨ jsTrim form.destination = "" ∨ form.durationDays = "" ∨
      form.price = "" then false
  else if form.photo1File = none ∨ form.photo2File = none then false
  else true

/-- The value `file?.type || 'image/jpeg'`. -/
def contentTypeOf (file : Option String) : String :=
  match file with
  | some type => if type ≠ "" then type else "image/jpeg"
  | none => "image/jpeg"

/-- The handler `handleCreate` up to its `await`: the payload it passes to
`createTravelPackage`, if the form can be submitted. -/
def handleCreate (form : CreateForm) : Option PackageDto :=
  if !canSubmitCreate form then none
  else some
    { title := jsTrim form.title,
      description := jsTrim form.description,
      destination := jsTrim form.destination,
      durationDays := stringToNumber form.durationDays,
      price := stringToNumber form.price,
      photo1 := form.photo1Preview,
      photo2 := form.photo2Preview,
      photo1contentType := contentTypeOf form.photo1File,
      photo2contentType := contentTypeOf form.photo2File }

end AddTravelPackages

namespace AddHotelPackage

/-- The state `roomForm` of the rooms manager. -/
structure RoomForm where
  type : String
  description : String
  capacity : String
  price : String
  inventory : String
deriving DecidableEq, Repr

/-- The payload `dto` of `HotelApi.createRoom`. -/
structure RoomDto where
  hotelId : Nat
  type : String
  description : String
  capacity : JsNumber
  price : JsNumber
  inventory : JsNumber
deriving DecidableEq

/-- The function `canSubmitRoom`, as its callers read it (`!canSubmitRoom()`):
whether the value of the `&&` chain is truthy. -/
def canSubmitRoom (roomForm : RoomForm) : Bool :=
  let capacity := stringToNumber roomForm.capacity
  let price := stringToNumber roomForm.price
  let inventory := stringToNumber roomForm.inventory
  decide (jsTrim roomForm.type ≠ "") &&
    !capacity.isNaN && (JsNumber.finite 0).lt capacity &&
    !price.isNaN && (JsNumber.finite 0).lt price &&
    !inventory.isNaN && (JsNumber.finite 0).le inventory

end AddHotelPackage

/-! ## The create flows after the create call has settled
(`src/pages/AddHotelPackage.jsx`, `src/pages/AddTravelPackages.jsx`) -/

namespace AddHotelPackage

/-- The arguments of a `HotelApi.mine` call. -/
structure MineArgs where
  page : Int
  size : Int
  sortBy : String
  sortDir : String
deriving DecidableEq, Repr

/-- The state of the `My Hotels` list that `fetchMine` reads. -/
structure MineState (α : Type) where
  pageData : Option (LoosePage α)
  mineSortBy : String
  mineSortDir : String
  mineSize : Int

/-- The function `fetchMine` up to its `await`: the call it issues.  An
argument that is `none` takes its default. -/
def fetchMine {α : Type} (s : MineState α) (pageArg sizeArg : Option Int) : MineArgs :=
  { page := match pageArg with
      | some p => p
      | none => (s.pageData.bind fun pd => pd.number).getD 0,
    size := match sizeArg with
      | some n => n
      | none => (s.pageData.bind fun pd => pd.size).getD s.mineSize,
    sortBy := s.mineSortBy, sortDir := s.mineSortDir }

/-- The create form as the `useState` calls initialise it. -/
def emptyCreateForm : CreateForm :=
  { name := "", description := "", destination := "", addressLine1 := "", city := "",
    stateCode := "", country := "", zip := "", amenitiesInput := "", bannerPreview := "",
    photo1Preview := "", photo2Preview := "", bannerFile := none, photo1File := none,
    photo2File := none }

/-- The create section of the hotel page. -/
structure CreateState where
  form : CreateForm
  createOk : Option String
  createError : Option String
  creating : Bool
deriving DecidableEq, Repr

/-- The handler `handleCreate` as a whole, given what `HotelApi.create(dto)`
settles to: the create section it leaves, and the list call it issues. -/
def handleCreateSettled {α : Type} (s : MineState α) (st : CreateState)
    (created : Except JsError Unit) : CreateState × Option MineArgs :=
  if !canSubmitCreate st.form then (st, none)
  else
    match created with
    | Except.ok _ =>
      ({ form := emptyCreateForm, createOk := some "Hotel created successfully",
         createError := none, creating := false },
       some (fetchMine s (some 0) none))
    | Except.error err =>
      ({ form := st.form, createOk := none,
         createError := some (messageOr err "Failed to create hotel"), creating := false },
       none)

/-- The room form as `useState` initialises it. -/
def emptyRoomForm : RoomForm :=
  { type := "", description := "", capacity := "", price := "", inventory := "" }

/-- The add-room section of the rooms manager. -/
structure RoomFormState where
  roomForm : RoomForm
  roomFormError : Option String
  roomSaving : Bool
deriving DecidableEq, Repr

/-- The function `createRoom` up to its first `await`: the payload it passes to
`HotelApi.createRoom`, if a hotel is open and the form can be submitted. -/
def createRoomDto {ρ : Type} (s : RoomsState ρ) (roomForm : RoomForm) : Option RoomDto :=
  if s.roomsHotel.getD 0 = 0 || !canSubmitRoom roomForm then none
  else some
    { hotelId := s.roomsHotel.getD 0,
      type := jsTrim roomForm.type,
      description := jsTrim roomForm.description,
      capacity := stringToNumber roomForm.capacity,
      price := stringToNumber roomForm.price,
      inventory := stringToNumber roomForm.inventory }

/-- The function `createRoom` as a whole, given what `HotelApi.createRoom(dto)`
settles to: the add-room section it leaves, and the `listRooms` call that its
`loadRooms` issues. -/
def createRoom {ρ : Type} (s : RoomsState ρ) (st : RoomFormState)
    (created : Except JsError Unit) : RoomFormState × Option ListRoomsArgs :=
  if s.roomsHotel.getD 0 = 0 || !canSubmitRoom st.roomForm then (st, none)
  else
    match created with
    | Except.ok _ =>
      ({ roomForm := emptyRoomForm, roomFormError := none, roomSaving := false },
       loadRooms s none (some s.roomsPage.number) (some s.roomsPage.size))
    | Except.error e =>
      ({ roomForm := st.roomForm, roomFormError := some (messageOr e "Failed to create room"),
         roomSaving := false },
       none)

end AddHotelPackage

namespace AddTravelPackages

/-- The create form as the `useState` calls initialise it. -/
def emptyCreateForm : CreateForm :=
  { title := "", description := "", destination := "", durationDays := "", price := "",
    photo1File := none, photo2File := none, photo1Preview := "", photo2Preview := "" }

/-- The create section of the travel-package page. -/
structure CreateState where
  form : CreateForm
  createOk : Option String
  createError : Option String
  creating : Bool
deriving DecidableEq, Repr

/-- The handler `handleCreate` as a whole, given what
`createTravelPackage(dto)` settles to: the create section it leaves, and the
list call it issues. -/
def handleCreateSettled {α : Type} (pageData : Option (LoosePage α)) (st : CreateState)
    (created : Except JsError Unit) : CreateState × Option MineArgs :=
  if !canSubmitCreate st.form then (st, none)
  else
    match created with
    | Except.ok _ =>
      ({ form := emptyCreateForm, createOk := some "Package created successfully",
         createError := none, creating := false },
       some (fetchMine pageData (some 0) none))
    | Except.error err =>
      ({ form := st.form, createOk := none,
         createError := some (messageOr err "Failed to create package"), creating := false },
       none)

end AddTravelPackages

/-! ## Hotel details (`src/pages/HotelDetails.jsx`)

A check-in or check-out date is the text of a date input.  `new Date(text)`
reads a text of the form `YYYY-MM-DD` that names a day of the calendar as
midnight UTC of that day; what it makes of every other text differs between
engines and is the parameter `otherFormats` (the time value in milliseconds,
`none` for an invalid date). -/

/-- Whether `y` is a leap year of the Gregorian calendar. -/
def isLeapYear (y : Int) : Bool :=
  decide (y % 4 = 0 ∧ y % 100 ≠ 0) || decide (y % 400 = 0)

/-- The day number of the first day of year `y`, counted from 1 January 1970
(`DayFromYear`). -/
def dayFromYear (y : Int) : Int :=
  365 * (y - 1970) + (y - 1969) / 4 - (y - 1901) / 100 + (y - 1601) / 400

/-- The number of days of month `m` (1 to 12) of year `y`. -/
def daysInMonth (y : Int) (m : Nat) : Nat :=
  if m = 2 then (if isLeapYear y then 29 else 28)
  else if m = 4 ∨ m = 6 ∨ m = 9 ∨ m = 11 then 30
  else 31

/-- The number of days of year `y` that precede month `m` (1 to 12). -/
def daysBeforeMonth (y : Int) (m : Nat) : Nat :=
  [0, 31, 59, 90, 120, 151, 181, 212, 243, 273, 304, 334].getD (m - 1) 0 +
    (if isLeapYear y ∧ 2 < m then 1 else 0)

/-- The day number of day `d` of month `m` of year `y` (`MakeDay`). -/
def makeDay (y : Int) (m d : Nat) : Int :=
  dayFromYear y + daysBeforeMonth y m + d - 1

/-- The two-digit number with the given digit characters. -/
def twoDigits (a b : Char) : Option Nat :=
  match digitVal a, digitVal b with
  | some x, some y => some (10 * x + y)
  | _, _ => none

/-- The date a text of the form `YYYY-MM-DD` names: year, month and day, when
the month is 1 to 12 and the day exists in that month. -/
def isoDateOnly (cs : List Char) : Option (Int × Nat × Nat) :=
  match cs with
  | [y1, y2, y3, y4, s1, m1, m2, s2, d1, d2] =>
    match twoDigits y1 y2, twoDigits y3 y4, twoDigits m1 m2, twoDigits d1 d2 with
    | some century, some yy, some month, some day =>
      if s1.toNat = 45 ∧ s2.toNat = 45 ∧ 1 ≤ month ∧ month ≤ 12 ∧ 1 ≤ day ∧
          day ≤ daysInMonth ((100 * century + yy : Nat) : Int) month then
        some (((100 * century + yy : Nat) : Int), month, day)
      else none
    | _, _, _, _ => none
  | _ => none

/-- The time value of `new Date(text)`, in milliseconds since the epoch; `none`
is the invalid date. -/
def Date.parse (otherFormats : String → Option Int) (text : String) : Option Int :=
  match isoDateOnly text.data with
  | some (y, m, d) => some (makeDay y m d * 86400000)
  | none => otherFormats text

namespace HotelDetails

/-- The function `diffNights`.  On texts `new Date` does not throw, so the
`catch` branch is never taken; with an invalid date the difference is `NaN`,
which is not finite. -/
def diffNights (otherFormats : String → Option Int) (checkIn checkOut : String) : Int :=
  if checkIn = "" ∨ checkOut = "" then 1
  else
    match Date.parse otherFormats checkIn, Date.parse otherFormats checkOut with
    | some inDate, some outDate =>
      let ms : Int := outDate - inDate
      let nights : Int := ⌈(ms : ℚ) / (1000 * 60 * 60 * 24)⌉
      if nights > 0 then nights else 1
    | _, _ => 1

/-- A room of the loaded list as the selection reads it: the numbers
`Number(r.price)` and `Number(r.inventory)`, and the rest of the row. -/
structure Room (β : Type) where
  price : JsNumber
  inventory : JsNumber
  rest : β

/-- The value `cheapestAvail` of the auto-select effect, for a list that is not
empty (`none` on the empty list, where the effect does nothing). -/
def cheapestAvail {β : Type} (content : List (Room β)) : Option (Room β) :=
  let available := content.filter fun r => (JsNumber.finite 0).lt r.inventory
  match available with
  | first :: _ =>
    some (available.foldl (fun min r => if r.price.lt min.price then r else min) first)
  | [] => content.head?

/-- The auto-select effect, run with the selected room and the guest count of
the render: the selection and the guest count it leaves. -/
def autoSelect {β : Type} (selectedRoom : Option (Room β)) (guests : Nat)
    (content : List (Room β)) : Option (Room β) × Nat :=
  if selectedRoom.isNone && !content.isEmpty then (cheapestAvail content, 1)
  else (selectedRoom, guests)

end HotelDetails

/-! ## The amenities field of the hotel edit form (`src/pages/AddHotelPackage.jsx`) -/

/-- The value `items.join(sep)` on an array of strings. -/
def joinWith (sep : String) : List String → String
  | [] => ""
  | [x] => x
  | x :: y :: rest => x ++ sep ++ joinWith sep (y :: rest)

/-- The text the amenities input of the edit form shows
(`(editing.amenities || []).join(', ')`). -/
def amenitiesInputValue (amenities : List String) : String := joinWith ", " amenities

/-- The function `updateEditAmenitiesInput`: the list it stores as
`editing.amenities` for the text `value` of the input. -/
def updateEditAmenitiesInput (value : String) : List String :=
  setToArray (trimAndFilter ((splitRuns value.data false).map String.mk))

/-! ## Overlapping searches of the hotel search page (`src/pages/Home.jsx`)

Between two events the page is its state together with the abort controllers
created so far, the ref `abortRef` and the `fetch` calls issued.  An event is
a call of `fetchData`, which runs up to its `await`, or the arrival of the
response to one of the calls, which runs the rest of that `fetchData`. -/

/-- A call of `fetch`: the search it asks for, and the abort signal in its
options, known by the number of its controller (`none`: no `signal` option). -/
structure FetchCall (ν : Type) where
  params : Home.SearchParams ν
  signal : Option Nat
deriving DecidableEq, Repr

/-- The `fetch` call of `HotelApi.search(params)`: its options carry the headers
only. -/
def HotelApi.searchFetch {ν : Type} (params : Home.SearchParams ν) : FetchCall ν :=
  { params := params, signal := none }

/-- What the promise of a `fetch` call settles to when the response arrives: a
call whose signal has been aborted rejects with an `AbortError`, every other
call gives the response. -/
def fetchOutcome {ν ρ : Type} (aborted : List Bool) (call : FetchCall ν)
    (response : Except JsError ρ) : Except JsError ρ :=
  match call.signal with
  | some controller =>
    if aborted.getD controller false then
      Except.error (JsError.mk "AbortError" "The operation was aborted.")
    else response
  | none => response

namespace Home

/-- The search page between two events. -/
structure Controller (α ν : Type) where
  state : State α
  aborted : List Bool
  abortRef : Option Nat
  calls : List (FetchCall ν)

/-- The page after mount, before any search. -/
def Controller.initial {α ν : Type} (s : State α) : Controller α ν :=
  { state := s, aborted := [], abortRef := none, calls := [] }

/-- A call `fetchData(opts)` up to its `await`: the controller in `abortRef`,
if any, is aborted, a new controller takes its place, and the search is
issued. -/
def fetchDataIssue {α ν : Type} (Number : String → ν) (c : Controller α ν)
    (pageArg : Option Nat) : Controller α ν :=
  let aborted : List Bool :=
    match c.abortRef with
    | some current => c.aborted.set current true
    | none => c.aborted
  { state := (fetchData Number c.state c.state pageArg).1,
    aborted := aborted ++ [false],
    abortRef := some aborted.length,
    calls := c.calls ++ [HotelApi.searchFetch (fetchData Number c.state c.state pageArg).2] }

/-- The response to the call number `call` arrives, and the `fetchData` that
awaits it runs to its end. -/
def fetchDataResume {α ν : Type} (c : Controller α ν) (call : Nat)
    (response : Except JsError (PageData α)) : Controller α ν :=
  match c.calls[call]? with
  | some issued => { c with state := fetchSettled (fetchOutcome c.aborted issued response) c.state }
  | none => c

end Home

/-! ## Auxiliary definitions for the statements -/

/-- The role claim of a token: the member `role` of the payload `decodeJwt`
returns, `undefined` when the payload is not an object or has no such member. -/
def roleClaim (token : JsVal) : JsVal :=
  match decodeJwt token with
  | Except.ok (JsVal.obj members) => (ownMember members "role").getD JsVal.undefined
  | _ => JsVal.undefined

/-- The standard-alphabet character that the two `replace` calls of `decodeJwt`
turn a character into. -/
def urlToStd (c : Char) : Char :=
  if (if c = Char.ofNat 45 then Char.ofNat 43 else c) = Char.ofNat 95 then Char.ofNat 47
  else (if c = Char.ofNat 45 then Char.ofNat 43 else c)

/-- The 6-bit values of the base64 encoding of a byte sequence. -/
def sextetsOf : List Nat → List Nat
  | x :: y :: z :: rest =>
    (x / 4) :: ((x % 4) * 16 + y / 16) :: ((y % 16) * 4 + z / 64) :: (z % 64) :: sextetsOf rest
  | [x, y] => [x / 4, (x % 4) * 16 + y / 16, (y % 16) * 4]
  | [x] => [x / 4, (x % 4) * 16]
  | [] => []

/-- The text `atob` returns for bytes that are the UTF-8 encoding of `text`:
one character per byte. -/
def binaryString (text : String) : String := String.mk ((utf8Encode text).map Char.ofNat)

/-- A hotel search state whose keyword filter is `goa`, all else at its default. -/
def Home.filteredState : Home.State Unit :=
  { q := "goa", country := "", stateCode := "", minRating := "", sortBy := "name",
    sortDir := "asc", page := 0, size := 10,
    pageData := { content := [], totalElements := 0, totalPages := 0, number := 0, size := 10 },
    loading := false, error := none }

/-- A travel-package search state whose destination filter is `Goa`, all else
at its default. -/
def TravelPackages.filteredState : TravelPackages.State :=
  { destination := "Goa", keyword := "", minDurationDays := "", maxDurationDays := "",
    minPrice := "", maxPrice := "", page := 0, size := 10, sortBy := "price", sortDir := "asc",
    loading := false, error := none }

/-- The rooms manager showing the second page of two, with one room on it. -/
def AddHotelPackage.lastRoomState : AddHotelPackage.RoomsState Unit :=
  { roomsHotel := some 7,
    roomsPage := { content := [()], totalElements := 11, totalPages := 2, number := 1,
                   size := 10 },
    roomsSortBy := "updatedAt", roomsSortDir := "desc", roomsTypeFilter := "" }

/-- The entries of a parameter object that a query string keeps: those whose
value is not `null`, not `undefined` and not the empty string. -/
def retainedEntries (params : List (String × JsVal)) : List (String × JsVal) :=
  params.filter fun kv => !isOmitted kv.2

/-- Each entry paired with its value converted to a string, in order; the error
of the first conversion that throws. -/
def convertEntries (jsString : JsVal → Except JsError String) :
    List (String × JsVal) → Except JsError (List (String × String))
  | [] => Except.ok []
  | (k, v) :: rest =>
    match jsString v with
    | Except.error e => Except.error e
    | Except.ok text =>
      match convertEntries jsString rest with
      | Except.error e => Except.error e
      | Except.ok pairs => Except.ok ((k, text) :: pairs)

/-- The conversion `String(v)` on the values the examples use: strings,
booleans and integers written without exponent. -/
def exampleString : JsVal → Except JsError String
  | JsVal.str s => Except.ok s
  | JsVal.bool true => Except.ok "true"
  | JsVal.bool false => Except.ok "false"
  | JsVal.num mant 0 => Except.ok (toString mant)
  | JsVal.undefined => Except.ok "undefined"
  | JsVal.null => Except.ok "null"
  | _ => Except.error (JsError.mk "TypeError" "not an example value")

/-- What relates a list built by `setToArray` to the elements added so far:
no element twice, the same elements, in the order of first occurrence. -/
def FirstOccurrences (set processed : List String) : Prop :=
  set.Nodup ∧ (∀ x, x ∈ set ↔ x ∈ processed) ∧
  ∀ x ∈ set, ∀ y ∈ set, (set.indexOf x < set.indexOf y ↔
    processed.indexOf x < processed.indexOf y)

/-- A text whose first and last character, if any, are not white space. -/
def NoOuterWhitespace (s : String) : Prop :=
  (∀ c, s.data.head? = some c → isJsWhitespace c = false) ∧
  (∀ c, s.data.getLast? = some c → isJsWhitespace c = false)

/-- The supported shapes of a raw amenities value, each with the texts it
carries in input order: an array of strings; a non-empty array of objects, each
carrying a string under `name`, `label` or `value` (the first of these that is
neither `null` nor `undefined`); a string, cut at the runs of commas,
semicolons and white space. -/
inductive SupportedShape : JsVal → List String → Prop where
  | strings (texts : List String) : SupportedShape (JsVal.arr (texts.map JsVal.str)) texts
  | objects (items : List JsVal) (texts : List String) (hne : items ≠ [])
      (hobj : ∀ o ∈ items, ∃ members, o = JsVal.obj members)
      (htext : items.map carriedValue = texts.map JsVal.str) :
      SupportedShape (JsVal.arr items) texts
  | delimited (s : String) :
      SupportedShape (JsVal.str s) ((splitRuns s.data false).map String.mk)

/-- The method call `x.toString()` on the values the examples use. -/
def exampleToString : JsVal → Except JsError String
  | JsVal.str s => Except.ok s
  | JsVal.bool true => Except.ok "true"
  | JsVal.bool false => Except.ok "false"
  | JsVal.num mant 0 => Except.ok (toString mant)
  | _ => Except.error (JsError.mk "TypeError" "not an example value")

/-- A hotel create form that can be submitted, with the amenities text
`wifi, pool, wifi`. -/
def AddHotelPackage.repeatedAmenityForm : AddHotelPackage.CreateForm :=
  { name := "Sea House", description := "", destination := "Goa", addressLine1 := "",
    city := "Panaji", stateCode := "", country := "India", zip := "",
    amenitiesInput := "wifi, pool, wifi",
    bannerPreview := "data:image/jpeg;base64,AAAA",
    photo1Preview := "data:image/jpeg;base64,BBBB", photo2Preview := "",
    bannerFile := some "image/jpeg", photo1File := some "image/jpeg", photo2File := none }

/-- A hotel search state whose page index 5 lies beyond the 2 pages of the held
page (the backend reports the requested index also when it is out of range). -/
def Home.beyondLastPageState : Home.State Unit :=
  { q := "", country := "", stateCode := "", minRating := "", sortBy := "name",
    sortDir := "asc", page := 5, size := 10,
    pageData := { content := [], totalElements := 12, totalPages := 2, number := 5, size := 10 },
    loading := false, error := none }

/-- A travel-package search state with page index 5. -/
def TravelPackages.beyondLastPageState : TravelPackages.State :=
  { destination := "", keyword := "", minDurationDays := "", maxDurationDays := "",
    minPrice := "", maxPrice := "", page := 5, size := 10, sortBy := "price", sortDir := "asc",
    loading := false, error := none }

/-- A hotel search state at its defaults (page size 10), with a held page of
three pages. -/
def Home.defaultState : Home.State Unit :=
  { q := "", country := "", stateCode := "", minRating := "", sortBy := "name",
    sortDir := "asc", page := 0, size := 10,
    pageData := { content := [], totalElements := 25, totalPages := 3, number := 0, size := 10 },
    loading := false, error := none }

/-- A travel-package search state at its defaults (page size 10). -/
def TravelPackages.defaultState : TravelPackages.State :=
  { destination := "", keyword := "", minDurationDays := "", maxDurationDays := "",
    minPrice := "", maxPrice := "", page := 0, size := 10, sortBy := "price", sortDir := "asc",
    loading := false, error := none }

/-- A hotel search state holding two rows, with ids 1 and 2. -/
def Home.twoRowState : Home.State (Home.HotelRow String) :=
  { q := "", country := "", stateCode := "", minRating := "", sortBy := "name",
    sortDir := "asc", page := 0, size := 10,
    pageData :=
      { content := [{ id := 1, amenities := JsVal.undefined, rating := JsVal.num 4 0,
                      rest := "Sea House" },
                    { id := 2, amenities := JsVal.undefined, rating := JsVal.null,
                      rest := "Hill House" }],
        totalElements := 2, totalPages := 1, number := 0, size := 10 },
    loading := false, error := none }

/-- The three copies of `toJsonOrThrow` (`src/api/hotelApi.js`,
`src/api/travelPackagesApi.js`, `src/api/paymentsApi.js`). -/
def toJsonOrThrowCopies : List (Response → String → Except JsError JsVal) :=
  [HotelApi.toJsonOrThrow, TravelPackagesApi.toJsonOrThrow, PaymentsApi.toJsonOrThrow]

/-- The body text the handlers work with (`await res.text().catch(() => '')`):
the text read, and the empty text when the read fails. -/
def bodyText (body : Except JsError String) : String :=
  match body with
  | Except.ok t => t
  | Except.error _ => ""

/-- A travel-package draft that is complete except that its duration and its
price are the text `0`. -/
def AddTravelPackages.zeroDraft : AddTravelPackages.CreateForm :=
  { title := "Goa", description := "", destination := "Goa", durationDays := "0", price := "0",
    photo1File := some "image/jpeg", photo2File := some "image/jpeg",
    photo1Preview := "data:image/jpeg;base64,AA==", photo2Preview := "data:image/jpeg;base64,AA==" }

/-- A complete travel-package draft: three days at 8999. -/
def AddTravelPackages.goaDraft : AddTravelPackages.CreateForm :=
  { title := " Goa (2N/3D) ", description := "Beach walks", destination := "Goa",
    durationDays := "3", price := "8999",
    photo1File := some "image/jpeg", photo2File := some "image/jpeg",
    photo1Preview := "data:image/jpeg;base64,AA==", photo2Preview := "data:image/jpeg;base64,AA==" }

/-- A room draft whose inventory field is still empty. -/
def AddHotelPackage.emptyInventoryDraft : AddHotelPackage.RoomForm :=
  { type := "Deluxe", description := "", capacity := "2", price := "4999", inventory := "" }

/-- The rooms manager of hotel 7 showing page 2 of 3, ten rooms per page. -/
def AddHotelPackage.thirdPageState : AddHotelPackage.RoomsState Unit :=
  { roomsHotel := some 7,
    roomsPage := { content := List.replicate 5 (), totalElements := 25, totalPages := 3,
                   number := 2, size := 10 },
    roomsSortBy := "updatedAt", roomsSortDir := "desc", roomsTypeFilter := "" }

/-- A complete room draft. -/
def AddHotelPackage.deluxeDraft : AddHotelPackage.RoomForm :=
  { type := "Deluxe", description := "", capacity := "2", price := "4999", inventory := "10" }

/-- A day of the calendar: year, month (1 to 12) and day of the month. -/
structure CivilDate where
  year : Nat
  month : Nat
  day : Nat
deriving DecidableEq, Repr

/-- The day exists: the month is 1 to 12 and the day is one of that month. -/
def CivilDate.Valid (c : CivilDate) : Prop :=
  1 ≤ c.month ∧ c.month ≤ 12 ∧ 1 ≤ c.day ∧ c.day ≤ daysInMonth c.year c.month

/-- The day after `c`. -/
def CivilDate.next (c : CivilDate) : CivilDate :=
  if c.day < daysInMonth c.year c.month then { c with day := c.day + 1 }
  else if c.month < 12 then { year := c.year, month := c.month + 1, day := 1 }
  else { year := c.year + 1, month := 1, day := 1 }

/-- The character of the last decimal digit of `n`. -/
def digitChar (n : Nat) : Char := Char.ofNat (48 + n % 10)

/-- The text `YYYY-MM-DD` of a day, as a date input gives it. -/
def CivilDate.text (c : CivilDate) : String :=
  String.mk [digitChar (c.year / 1000), digitChar (c.year / 100), digitChar (c.year / 10),
    digitChar c.year, Char.ofNat 45, digitChar (c.month / 10), digitChar c.month, Char.ofNat 45,
    digitChar (c.day / 10), digitChar c.day]

/-- A room list sorted by price as the page loads it: the cheapest room is sold
out, and two of the rooms in stock share the lowest price among those. -/
def HotelDetails.sampleRooms : List (HotelDetails.Room String) :=
  [{ price := JsNumber.finite 3000, inventory := JsNumber.finite 0, rest := "Standard" },
   { price := JsNumber.finite 4000, inventory := JsNumber.finite 2, rest := "Deluxe" },
   { price := JsNumber.finite 4000, inventory := JsNumber.finite 1, rest := "Garden" },
   { price := JsNumber.finite 9000, inventory := JsNumber.finite 3, rest := "Suite" }]

/-- A text without comma, semicolon and white space: a single token of the
amenities input. -/
def SingleToken (s : String) : Prop := ∀ c ∈ s.data, isAmenityDelimiter c = false

/-! ## Theorems -/

/-! ### JSON.parse: the fuel is enough -/

theorem skipWs_length (cs : List Char) : (skipWs cs).length ≤ cs.length := by
  induction cs with
  | nil => simp [skipWs]
  | cons c cs ih =>
    unfold skipWs
    split
    · simp only [List.length_cons]; omega
    · exact Nat.le_refl _

theorem readDigits_length (cs : List Char) : (readDigits cs).2.length ≤ cs.length := by
  induction cs with
  | nil => simp [readDigits]
  | cons c cs ih =>
    unfold readDigits
    split
    · simp only [List.length_cons]; omega
    · exact Nat.le_refl _

theorem readFraction_length (cs : List Char) (ds : List Nat) (r : List Char)
    (h : readFraction cs = some (ds, r)) : r.length ≤ cs.length := by
  cases cs with
  | nil => simp [readFraction] at h; simp [h.2]
  | cons c cs =>
    simp only [readFraction] at h
    split_ifs at h
    · have hl := readDigits_length cs
      split at h
      · exact absurd h (by simp)
      · rename_i ds2 rest2 _ heq
        simp only [Option.some.injEq, Prod.mk.injEq] at h
        rw [heq] at hl
        simp only [List.length_cons]
        rw [← h.2]
        exact Nat.le_succ_of_le hl
    · simp only [Option.some.injEq, Prod.mk.injEq] at h
      rw [← h.2]

theorem readExpDigits_length (neg : Bool) (cs : List Char) (e : Int) (r : List Char)
    (h : readExpDigits neg cs = some (e, r)) : r.length ≤ cs.length := by
  unfold readExpDigits at h
  have hl := readDigits_length cs
  split at h
  · exact absurd h (by simp)
  · rename_i ds2 rest2 _ heq
    simp only [Option.some.injEq, Prod.mk.injEq] at h
    rw [heq] at hl
    rw [← h.2]
    exact hl

theorem readExponent_length (cs : List Char) (e : Int) (r : List Char)
    (h : readExponent cs = some (e, r)) : r.length ≤ cs.length := by
  cases cs with
  | nil => simp [readExponent] at h; simp [h.2]
  | cons c cs =>
    simp only [readExponent] at h
    split_ifs at h
    · cases cs with
      | nil => simp at h
      | cons s ds =>
        simp only at h
        split_ifs at h
        · have := readExpDigits_length _ _ _ _ h
          simp only [List.length_cons]; omega
        · have := readExpDigits_length _ _ _ _ h
          simp only [List.length_cons]; omega
        · have := readExpDigits_length _ _ _ _ h
          simp only [List.length_cons] at this ⊢; omega
    · simp only [Option.some.injEq, Prod.mk.injEq] at h
      rw [← h.2]

theorem readUnsigned_length (neg : Bool) (cs : List Char) (v : JsVal) (r : List Char)
    (h : readUnsigned neg cs = some (v, r)) : r.length ≤ cs.length := by
  unfold readUnsigned at h
  simp only at h
  split at h
  · exact absurd h (by simp)
  · rename_i ids r1 hint
    split at h
    · exact absurd h (by simp)
    · rename_i fds r2 hfrac
      split at h
      · exact absurd h (by simp)
      · rename_i e r3 hexp
        simp only [Option.some.injEq, Prod.mk.injEq] at h
        have h2 := readFraction_length _ _ _ hfrac
        have h3 := readExponent_length _ _ _ hexp
        have h1 : r1.length ≤ cs.length := by
          cases cs with
          | nil => simp at hint
          | cons c rest =>
            simp only at hint
            split_ifs at hint
            · simp only [Option.some.injEq, Prod.mk.injEq] at hint
              rw [← hint.2]; simp
            · have hl := readDigits_length (c :: rest)
              split at hint
              · exact absurd hint (by simp)
              · rename_i ds2 rest2 _ heq
                simp only [Option.some.injEq, Prod.mk.injEq] at hint
                rw [heq] at hl
                rw [← hint.2]
                exact hl
        rw [← h.2]
        omega

theorem parseNumber_length (cs : List Char) (v : JsVal) (r : List Char)
    (h : parseNumber cs = some (v, r)) : r.length ≤ cs.length := by
  cases cs with
  | nil => simp [parseNumber] at h
  | cons c cs =>
    simp only [parseNumber] at h
    split_ifs at h
    · have := readUnsigned_length _ _ _ _ h
      simp only [List.length_cons]; omega
    · exact readUnsigned_length _ _ _ _ h

theorem dropLiteral_length (p cs r : List Char) (h : dropLiteral p cs = some r) :
    r.length ≤ cs.length := by
  induction p generalizing cs with
  | nil => simp [dropLiteral] at h; simp [h]
  | cons a p ih =>
    cases cs with
    | nil => simp [dropLiteral] at h
    | cons c cs =>
      unfold dropLiteral at h
      split_ifs at h
      have := ih cs h
      simp only [List.length_cons]; omega

theorem parseStringUnits_length (f : Nat) (cs : List Char) (acc units : List Nat)
    (r : List Char) (h : parseStringUnits f cs acc = some (units, r)) :
    r.length ≤ cs.length := by
  induction f generalizing cs acc with
  | zero => simp [parseStringUnits] at h
  | succ f ih =>
    cases cs with
    | nil => simp [parseStringUnits] at h
    | cons c cs =>
      unfold parseStringUnits at h
      split_ifs at h
      · simp only [Option.some.injEq, Prod.mk.injEq] at h
        rw [← h.2]; simp
      · split at h
        · exact absurd h (by simp)
        · rename_i e rest
          split_ifs at h
          · split at h
            · split at h
              · have := ih _ _ h
                simp only [List.length_cons] at this ⊢; omega
              · exact absurd h (by simp)
            · exact absurd h (by simp)
          · split at h
            · have := ih _ _ h
              simp only [List.length_cons] at this ⊢; omega
            · exact absurd h (by simp)
      · have := ih _ _ h
        simp only [List.length_cons]; omega

/-- Fuel and length: a successful parse leaves no more input than it was given,
and succeeds with the same result for every fuel above twice the number of
characters it read. -/
theorem parse_fuel (f : Nat) :
    (∀ cs v rest, parseValue f cs = some (v, rest) →
      rest.length ≤ cs.length ∧
      ∀ g, 2 * (cs.length - rest.length) + 1 ≤ g → parseValue g cs = some (v, rest)) ∧
    (∀ cs acc v rest, parseElements f cs acc = some (v, rest) →
      rest.length ≤ cs.length ∧
      ∀ g, 2 * (cs.length - rest.length) + 2 ≤ g → parseElements g cs acc = some (v, rest)) ∧
    (∀ cs acc v rest, parseMembers f cs acc = some (v, rest) →
      rest.length ≤ cs.length ∧
      ∀ g, 2 * (cs.length - rest.length) + 2 ≤ g → parseMembers g cs acc = some (v, rest)) := by
  induction f with
  | zero =>
    refine ⟨?_, ?_, ?_⟩
    · intro cs v rest h; simp [parseValue] at h
    · intro cs acc v rest h; simp [parseElements] at h
    · intro cs acc v rest h; simp [parseMembers] at h
  | succ f ih =>
    obtain ⟨ihV, ihE, ihM⟩ := ih
    refine ⟨?_, ?_, ?_⟩
    · intro cs v final h
      rw [parseValue] at h
      split at h
      · exact absurd h (by simp)
      · rename_i c rest hws
        have hl1 := skipWs_length cs
        rw [hws] at hl1
        simp only [List.length_cons] at hl1
        split_ifs at h with h1 h2 h3 h4 h5 h6
        · -- object
          split at h
          · exact absurd h (by simp)
          · rename_i d rest2 hws2
            have hl2 := skipWs_length rest
            rw [hws2] at hl2
            simp only [List.length_cons] at hl2
            split_ifs at h with h7
            · simp only [Option.some.injEq, Prod.mk.injEq] at h
              obtain ⟨hv, hr⟩ := h
              subst hv hr
              refine ⟨by omega, fun g hg => ?_⟩
              obtain ⟨g', rfl⟩ := Nat.exists_eq_succ_of_ne_zero (by omega : g ≠ 0)
              rw [parseValue]
              simp only [hws, if_pos h1, hws2, if_pos h7]
            · obtain ⟨hlen, hfuel⟩ := ihM _ _ _ _ h
              simp only [List.length_cons] at hlen hfuel
              refine ⟨by omega, fun g hg => ?_⟩
              obtain ⟨g', rfl⟩ := Nat.exists_eq_succ_of_ne_zero (by omega : g ≠ 0)
              rw [parseValue]
              simp only [hws, if_pos h1, hws2, if_neg h7]
              exact hfuel g' (by omega)
        · -- array
          split at h
          · exact absurd h (by simp)
          · rename_i d rest2 hws2
            have hl2 := skipWs_length rest
            rw [hws2] at hl2
            simp only [List.length_cons] at hl2
            split_ifs at h with h7
            · simp only [Option.some.injEq, Prod.mk.injEq] at h
              obtain ⟨hv, hr⟩ := h
              subst hv hr
              refine ⟨by omega, fun g hg => ?_⟩
              obtain ⟨g', rfl⟩ := Nat.exists_eq_succ_of_ne_zero (by omega : g ≠ 0)
              rw [parseValue]
              simp only [hws, if_neg h1, if_pos h2, hws2, if_pos h7]
            · obtain ⟨hlen, hfuel⟩ := ihE _ _ _ _ h
              simp only [List.length_cons] at hlen hfuel
              refine ⟨by omega, fun g hg => ?_⟩
              obtain ⟨g', rfl⟩ := Nat.exists_eq_succ_of_ne_zero (by omega : g ≠ 0)
              rw [parseValue]
              simp only [hws, if_neg h1, if_pos h2, hws2, if_neg h7]
              exact hfuel g' (by omega)
        · -- string
          split at h
          · rename_i units rest2 hstr
            have hl2 := parseStringUnits_length _ _ _ _ _ hstr
            simp only [Option.some.injEq, Prod.mk.injEq] at h
            obtain ⟨hv, hr⟩ := h
            subst hv hr
            refine ⟨by omega, fun g hg => ?_⟩
            obtain ⟨g', rfl⟩ := Nat.exists_eq_succ_of_ne_zero (by omega : g ≠ 0)
            rw [parseValue]
            simp only [hws, if_neg h1, if_neg h2, if_pos h3, hstr]
          · exact absurd h (by simp)
        · -- true
          cases hd : dropLiteral "rue".data rest with
          | none => rw [hd] at h; exact absurd h (by simp)
          | some r =>
            rw [hd] at h
            have hl2 := dropLiteral_length _ _ _ hd
            simp only [Option.map_some', Option.some.injEq, Prod.mk.injEq] at h
            obtain ⟨hv, hr⟩ := h
            subst hv hr
            refine ⟨by omega, fun g hg => ?_⟩
            obtain ⟨g', rfl⟩ := Nat.exists_eq_succ_of_ne_zero (by omega : g ≠ 0)
            rw [parseValue]
            simp only [hws, if_neg h1, if_neg h2, if_neg h3, if_pos h4, hd, Option.map_some']
        · -- false
          cases hd : dropLiteral "alse".data rest with
          | none => rw [hd] at h; exact absurd h (by simp)
          | some r =>
            rw [hd] at h
            have hl2 := dropLiteral_length _ _ _ hd
            simp only [Option.map_some', Option.some.injEq, Prod.mk.injEq] at h
            obtain ⟨hv, hr⟩ := h
            subst hv hr
            refine ⟨by omega, fun g hg => ?_⟩
            obtain ⟨g', rfl⟩ := Nat.exists_eq_succ_of_ne_zero (by omega : g ≠ 0)
            rw [parseValue]
            simp only [hws, if_neg h1, if_neg h2, if_neg h3, if_neg h4, if_pos h5, hd,
              Option.map_some']
        · -- null
          cases hd : dropLiteral "ull".data rest with
          | none => rw [hd] at h; exact absurd h (by simp)
          | some r =>
            rw [hd] at h
            have hl2 := dropLiteral_length _ _ _ hd
            simp only [Option.map_some', Option.some.injEq, Prod.mk.injEq] at h
            obtain ⟨hv, hr⟩ := h
            subst hv hr
            refine ⟨by omega, fun g hg => ?_⟩
            obtain ⟨g', rfl⟩ := Nat.exists_eq_succ_of_ne_zero (by omega : g ≠ 0)
            rw [parseValue]
            simp only [hws, if_neg h1, if_neg h2, if_neg h3, if_neg h4, if_neg h5, if_pos h6, hd,
              Option.map_some']
        · -- number
          have hl2 := parseNumber_length _ _ _ h
          simp only [List.length_cons] at hl2
          refine ⟨by omega, fun g hg => ?_⟩
          obtain ⟨g', rfl⟩ := Nat.exists_eq_succ_of_ne_zero (by omega : g ≠ 0)
          rw [parseValue]
          simp only [hws, if_neg h1, if_neg h2, if_neg h3, if_neg h4, if_neg h5, if_neg h6]
          exact h
    · intro cs acc v final h
      rw [parseElements] at h
      split at h
      · exact absurd h (by simp)
      · rename_i w r hval
        obtain ⟨hlenV, hfuelV⟩ := ihV _ _ _ hval
        split at h
        · exact absurd h (by simp)
        · rename_i d r2 hws
          have hl1 := skipWs_length r
          rw [hws] at hl1
          simp only [List.length_cons] at hl1
          split_ifs at h with h1 h2
          · obtain ⟨hlen, hfuel⟩ := ihE _ _ _ _ h
            refine ⟨by omega, fun g hg => ?_⟩
            obtain ⟨g', rfl⟩ := Nat.exists_eq_succ_of_ne_zero (by omega : g ≠ 0)
            rw [parseElements]
            simp only [hfuelV g' (by omega), hws, if_pos h1]
            exact hfuel g' (by omega)
          · simp only [Option.some.injEq, Prod.mk.injEq] at h
            obtain ⟨hv, hr⟩ := h
            subst hv hr
            refine ⟨by omega, fun g hg => ?_⟩
            obtain ⟨g', rfl⟩ := Nat.exists_eq_succ_of_ne_zero (by omega : g ≠ 0)
            rw [parseElements]
            simp only [hfuelV g' (by omega), hws, if_neg h1, if_pos h2]
    · intro cs acc v final h
      rw [parseMembers] at h
      split at h
      · exact absurd h (by simp)
      · rename_i q r0 hws0
        have hl0 := skipWs_length cs
        rw [hws0] at hl0
        simp only [List.length_cons] at hl0
        split_ifs at h with hq
        split at h
        · exact absurd h (by simp)
        · rename_i units r1 hstr
          have hl1 := parseStringUnits_length _ _ _ _ _ hstr
          split at h
          · exact absurd h (by simp)
          · rename_i colon r2 hws2
            have hl2 := skipWs_length r1
            rw [hws2] at hl2
            simp only [List.length_cons] at hl2
            split_ifs at h with hc
            split at h
            · exact absurd h (by simp)
            · rename_i w r3 hval
              obtain ⟨hlenV, hfuelV⟩ := ihV _ _ _ hval
              split at h
              · exact absurd h (by simp)
              · rename_i d r4 hws4
                have hl4 := skipWs_length r3
                rw [hws4] at hl4
                simp only [List.length_cons] at hl4
                split_ifs at h with h1 h2
                · obtain ⟨hlen, hfuel⟩ := ihM _ _ _ _ h
                  refine ⟨by omega, fun g hg => ?_⟩
                  obtain ⟨g', rfl⟩ := Nat.exists_eq_succ_of_ne_zero (by omega : g ≠ 0)
                  rw [parseMembers]
                  simp only [hws0, if_pos hq, hstr, hws2, if_pos hc, hfuelV g' (by omega), hws4,
                    if_pos h1]
                  exact hfuel g' (by omega)
                · simp only [Option.some.injEq, Prod.mk.injEq] at h
                  obtain ⟨hv, hr⟩ := h
                  subst hv hr
                  refine ⟨by omega, fun g hg => ?_⟩
                  obtain ⟨g', rfl⟩ := Nat.exists_eq_succ_of_ne_zero (by omega : g ≠ 0)
                  rw [parseMembers]
                  simp only [hws0, if_pos hq, hstr, hws2, if_pos hc, hfuelV g' (by omega), hws4,
                    if_neg h1, if_pos h2]

/-- The fuel `jsonParse` gives to `parseValue` is enough: what `parseValue`
parses with any amount of fuel, it parses with `2 * length + 2`. -/
theorem parseValue_enough_fuel (f : Nat) (cs : List Char) (v : JsVal) (rest : List Char)
    (h : parseValue f cs = some (v, rest)) :
    parseValue (2 * cs.length + 2) cs = some (v, rest) :=
  ((parse_fuel f).1 cs v rest h).2 _ (by omega)

/-- The fuel `parseValue` gives to `parseStringUnits` is enough: what it reads
with any amount of fuel, it reads with `length + 1`. -/
theorem parseStringUnits_fuel (f : Nat) (cs : List Char) (acc : List Nat)
    (r : List Nat × List Char) (h : parseStringUnits f cs acc = some r) :
    ∀ g, cs.length + 1 ≤ g → parseStringUnits g cs acc = some r := by
  induction f generalizing cs acc with
  | zero => simp [parseStringUnits] at h
  | succ f ih =>
    intro g hg
    obtain ⟨g', rfl⟩ := Nat.exists_eq_succ_of_ne_zero (by omega : g ≠ 0)
    cases cs with
    | nil => simp [parseStringUnits] at h
    | cons c cs =>
      simp only [List.length_cons] at hg
      simp only [parseStringUnits] at h ⊢
      split_ifs at h ⊢ with h1 h2 h3
      · exact h
      · split at h
        · exact absurd h (by simp)
        · rename_i e rest
          simp only [List.length_cons] at hg
          split_ifs at h ⊢ with h4
          · split at h
            · rename_i a b c2 d rest2
              simp only [List.length_cons] at hg
              split at h
              · exact ih _ _ h g' (by omega)
              · exact absurd h (by simp)
            · exact absurd h (by simp)
          · split at h
            · exact ih _ _ h g' (by omega)
            · exact absurd h (by simp)
      · exact ih _ _ h g' (by omega)

/-- C1: on a response with status 401 or 403, whatever its body (also a body
that cannot be read) and whatever the default message, each of the three copies
of `toJsonOrThrow` fails, and the error message is exactly the fixed text. -/
theorem toJsonOrThrow_unauthorized (status : Nat) (body : Except JsError String)
    (defaultMessage : String) (h : status = 401 ∨ status = 403) :
    HotelApi.toJsonOrThrow ⟨status, body⟩ defaultMessage
        = Except.error (mkError "You are not authorized. Please log in.") ∧
    TravelPackagesApi.toJsonOrThrow ⟨status, body⟩ defaultMessage
        = Except.error (mkError "You are not authorized. Please log in.") ∧
    PaymentsApi.toJsonOrThrow ⟨status, body⟩ defaultMessage
        = Except.error (mkError "You are not authorized. Please log in.") := by
  rcases h with h | h <;> subst h <;>
    simp [HotelApi.toJsonOrThrow, TravelPackagesApi.toJsonOrThrow, PaymentsApi.toJsonOrThrow,
      Response.ok]

/-- C1 at status 403 with body `Forbidden`. -/
theorem toJsonOrThrow_unauthorized_witness :
    HotelApi.toJsonOrThrow ⟨403, Except.ok "Forbidden"⟩ "Failed to load packages"
        = Except.error (mkError "You are not authorized. Please log in.") ∧
    TravelPackagesApi.toJsonOrThrow ⟨403, Except.ok "Forbidden"⟩ "Failed to load packages"
        = Except.error (mkError "You are not authorized. Please log in.") ∧
    PaymentsApi.toJsonOrThrow ⟨403, Except.ok "Forbidden"⟩ "Failed to load packages"
        = Except.error (mkError "You are not authorized. Please log in.") :=
  toJsonOrThrow_unauthorized 403 (Except.ok "Forbidden") "Failed to load packages" (Or.inr rfl)

/-- C2 (the code differs): on the response with status 403 and body
`Forbidden`, every `HotelApi` operation that goes through `handleResponse`
fails with the body text `Forbidden` as its message, and with `HTTP 403` when
the body is empty, whereas `toJsonOrThrow` gives the fixed text for the same
responses; in general, on status 401 or 403 `handleResponse` fails with the body
text, or with `HTTP` and the status when the body is empty. -/
theorem handleResponse_forbidden_message :
    failureMessage (HotelApi.search ⟨403, Except.ok "Forbidden"⟩) = some "Forbidden" ∧
    failureMessage (HotelApi.getById ⟨403, Except.ok "Forbidden"⟩) = some "Forbidden" ∧
    failureMessage (HotelApi.create ⟨403, Except.ok "Forbidden"⟩) = some "Forbidden" ∧
    failureMessage (HotelApi.update ⟨403, Except.ok "Forbidden"⟩) = some "Forbidden" ∧
    failureMessage (HotelApi.listAmenities ⟨403, Except.ok "Forbidden"⟩) = some "Forbidden" ∧
    failureMessage (HotelApi.rate ⟨403, Except.ok "Forbidden"⟩) = some "Forbidden" ∧
    failureMessage (HotelApi.listRooms ⟨403, Except.ok "Forbidden"⟩) = some "Forbidden" ∧
    failureMessage (HotelApi.createRoom ⟨403, Except.ok "Forbidden"⟩) = some "Forbidden" ∧
    failureMessage (HotelApi.updateRoom ⟨403, Except.ok "Forbidden"⟩) = some "Forbidden" ∧
    failureMessage (HotelApi.updateRoomInventory ⟨403, Except.ok "Forbidden"⟩)
        = some "Forbidden" ∧
    failureMessage (HotelApi.deleteRoom ⟨403, Except.ok "Forbidden"⟩) = some "Forbidden" ∧
    failureMessage (HotelApi.search ⟨403, Except.ok ""⟩) = some "HTTP 403" ∧
    failureMessage (HotelApi.search ⟨401, Except.ok ""⟩) = some "HTTP 401" ∧
    failureMessage (HotelApi.toJsonOrThrow ⟨403, Except.ok "Forbidden"⟩ "Failed")
        = some "You are not authorized. Please log in." ∧
    failureMessage (HotelApi.toJsonOrThrow ⟨403, Except.ok ""⟩ "Failed")
        = some "You are not authorized. Please log in." ∧
    (∀ text as : String,
      failureMessage (HotelApi.handleResponse ⟨403, Except.ok text⟩ as)
        = some (if text ≠ "" then text else "HTTP 403")) ∧
    (∀ text as : String,
      failureMessage (HotelApi.handleResponse ⟨401, Except.ok text⟩ as)
        = some (if text ≠ "" then text else "HTTP 401")) := by
  have general : ∀ (status : Nat) (text as : String), status = 401 ∨ status = 403 →
      failureMessage (HotelApi.handleResponse ⟨status, Except.ok text⟩ as)
        = some (if text ≠ "" then text else "HTTP " ++ numberToString status) := by
    intro status text as hs
    rcases hs with hs | hs <;> subst hs <;>
      simp [HotelApi.handleResponse, Response.ok, failureMessage, mkError]
  repeat' apply And.intro
  all_goals first
    | decide
    | exact fun text as => general 403 text as (Or.inr rfl)
    | exact fun text as => general 401 text as (Or.inl rfl)

/-- C3 (the code differs): for every state, a second `clearFilters` leaves the
state the first one produced; but the request of the first invocation is built
from the filters of the render it ran in.  From a state with keyword `goa`
(destination `Goa`) the first request still carries that filter and the second
one does not (whether or not the first search has settled in between), so the
two requests differ. -/
theorem clearFilters_requests_differ :
    (∀ (α ν : Type) (Number : String → ν) (s : Home.State α),
      (Home.clearFilters Number (Home.clearFilters Number s).1).1
        = (Home.clearFilters Number s).1) ∧
    (∀ (ν : Type) (Number : String → ν) (s : TravelPackages.State),
      (TravelPackages.clearFilters Number (TravelPackages.clearFilters Number s).1).1
        = (TravelPackages.clearFilters Number s).1) ∧
    (∀ (ν : Type) (Number : String → ν),
      (Home.clearFilters Number Home.filteredState).2.q = "goa" ∧
      (Home.clearFilters Number (Home.clearFilters Number Home.filteredState).1).2.q = "" ∧
      (Home.clearFilters Number (Home.clearFilters Number Home.filteredState).1).2
        ≠ (Home.clearFilters Number Home.filteredState).2 ∧
      (∀ result : Except JsError (PageData Unit),
        (Home.clearFilters Number
          (Home.fetchSettled result (Home.clearFilters Number Home.filteredState).1)).2.q
          = "")) ∧
    (∀ (ν : Type) (Number : String → ν),
      (TravelPackages.clearFilters Number TravelPackages.filteredState).2.destination
        = some "Goa" ∧
      (TravelPackages.clearFilters Number
        (TravelPackages.clearFilters Number TravelPackages.filteredState).1).2.destination
        = none ∧
      (TravelPackages.clearFilters Number
        (TravelPackages.clearFilters Number TravelPackages.filteredState).1).2
        ≠ (TravelPackages.clearFilters Number TravelPackages.filteredState).2) := by
  refine ⟨fun α ν Number s => rfl, fun ν Number s => rfl, fun ν Number => ?_, fun ν Number => ?_⟩
  · refine ⟨rfl, rfl, fun h => ?_, fun result => ?_⟩
    · have hq : ("" : String) = "goa" := congrArg Home.SearchParams.q h
      exact absurd hq (by decide)
    · cases result <;> rfl
  · have h1 : (TravelPackages.clearFilters Number TravelPackages.filteredState).2.destination
        = some "Goa" := rfl
    have h2 : (TravelPackages.clearFilters Number
        (TravelPackages.clearFilters Number TravelPackages.filteredState).1).2.destination
        = none := rfl
    refine ⟨h1, h2, fun h => ?_⟩
    have hd : (none : Option String) = some "Goa" :=
      congrArg TravelPackages.SearchParams.destination h
    exact absurd hd (by decide)

/-- C4 (the code differs): when the only room on page 1 of a two-page room list
is deleted (confirmed, and the call succeeds), `deleteRoom` refetches page 1
again, not page 0; in general, with a hotel open and whatever the held page, its
refetch asks for the held page number. -/
theorem deleteRoom_refetches_same_page :
    AddHotelPackage.deleteRoom AddHotelPackage.lastRoomState 42 true (Except.ok ())
      = [AddHotelPackage.Effect.listRooms
          { hotelId := 7, type := "", page := 1, size := 10, sortBy := "updatedAt",
            sortDir := "desc" }] ∧
    (∀ (ρ : Type) (hotel roomId : Nat) (held : PageData ρ) (sortBy sortDir filter : String),
      AddHotelPackage.deleteRoom
          { roomsHotel := some (hotel + 1), roomsPage := held, roomsSortBy := sortBy,
            roomsSortDir := sortDir, roomsTypeFilter := filter }
          (roomId + 1) true (Except.ok ())
        = [AddHotelPackage.Effect.listRooms
            { hotelId := hotel + 1, type := filter, page := held.number, size := held.size,
              sortBy := sortBy, sortDir := sortDir }]) := by
  refine ⟨by decide, fun ρ hotel roomId held sortBy sortDir filter => ?_⟩
  simp [AddHotelPackage.deleteRoom, AddHotelPackage.loadRooms, AddHotelPackage.orElse]

/-- C5: with a held page number `n ≥ 0`, held size `s` and `k` held rows (the
claim has `k ≥ 1`; the statement holds for `k = 0` as well), a confirmed and
successful `removePkg` issues exactly one refetch, with size `s`, at page
`n - 1` when `k = 1` and `n > 0` and at page `n` otherwise; the page requested
is not negative. -/
theorem removePkg_refetch_page {α : Type} (n s : Int) (content : List α) (hn : 0 ≤ n) :
    AddTravelPackages.removePkg
        (some { content := some content, number := some n, size := some s }) true
        (Except.ok ())
      = [AddTravelPackages.Effect.getMyTravelPackages
          { page := if content.length = 1 ∧ n > 0 then n - 1 else n, size := s,
            sortBy := "updatedAt", sortDir := "desc" }] ∧
    0 ≤ (if content.length = 1 ∧ n > 0 then n - 1 else n) := by
  constructor
  · have hlen : ((content.length : Int) - 1 = 0) ↔ content.length = 1 := by omega
    simp [AddTravelPackages.removePkg, AddTravelPackages.fetchMine, hlen]
  · split <;> omega

/-- C5 on page 1 with one row left and size 10: the refetch asks for page 0. -/
theorem removePkg_refetch_page_witness :
    AddTravelPackages.removePkg
        (some { content := some [()], number := some 1, size := some 10 }) true
        (Except.ok ())
      = [AddTravelPackages.Effect.getMyTravelPackages
          { page := if [()].length = 1 ∧ (1 : Int) > 0 then 1 - 1 else 1, size := 10,
            sortBy := "updatedAt", sortDir := "desc" }] ∧
    0 ≤ (if [()].length = 1 ∧ (1 : Int) > 0 then (1 : Int) - 1 else 1) :=
  removePkg_refetch_page 1 10 [()] (by decide)

/-! ### Base64: decoding an encoding -/

theorem base64Index_urlChar : ∀ i < 64, base64Index (urlToStd (base64urlChar i)) = some i := by
  decide

theorem urlChar_props : ∀ i < 64, isAsciiWhitespace (urlToStd (base64urlChar i)) = false ∧
    urlToStd (base64urlChar i) ≠ Char.ofNat 61 ∧ (base64urlChar i).toNat ≠ 46 := by
  decide

theorem base64urlEncode_eq_map (bs : List Nat) :
    base64urlEncode bs = (sextetsOf bs).map base64urlChar := by
  induction bs using base64urlEncode.induct with
  | case1 x y z rest ih => simp [base64urlEncode, sextetsOf, ih]
  | case2 x y => simp [base64urlEncode, sextetsOf]
  | case3 x => simp [base64urlEncode, sextetsOf]
  | case4 => simp [base64urlEncode, sextetsOf]

theorem sextetsOf_lt (bs : List Nat) (h : ∀ b ∈ bs, b < 256) : ∀ i ∈ sextetsOf bs, i < 64 := by
  induction bs using base64urlEncode.induct with
  | case1 x y z rest ih =>
    have hx := h x (by simp)
    have hy := h y (by simp)
    have hz := h z (by simp)
    have hr := ih (fun b hb => h b (by simp [hb]))
    intro i hi
    simp only [sextetsOf, List.mem_cons] at hi
    rcases hi with hi | hi | hi | hi | hi
    · omega
    · omega
    · omega
    · omega
    · exact hr i hi
  | case2 x y =>
    have hx := h x (by simp)
    have hy := h y (by simp)
    intro i hi
    simp only [sextetsOf, List.mem_cons, List.mem_singleton, List.not_mem_nil, or_false] at hi
    rcases hi with hi | hi | hi <;> omega
  | case3 x =>
    have hx := h x (by simp)
    intro i hi
    simp only [sextetsOf, List.mem_cons, List.mem_singleton, List.not_mem_nil, or_false] at hi
    rcases hi with hi | hi <;> omega
  | case4 => simp [sextetsOf]

theorem sextetsOf_length (bs : List Nat) : (sextetsOf bs).length % 4 ≠ 1 := by
  induction bs using base64urlEncode.induct with
  | case1 x y z rest ih => simp only [sextetsOf, List.length_cons]; omega
  | case2 x y => simp [sextetsOf]
  | case3 x => simp [sextetsOf]
  | case4 => simp [sextetsOf]

theorem decodeSextets_sextetsOf (bs : List Nat) (h : ∀ b ∈ bs, b < 256) :
    decodeSextets (sextetsOf bs) = bs := by
  induction bs using base64urlEncode.induct with
  | case1 x y z rest ih =>
    have hx := h x (by simp)
    have hy := h y (by simp)
    have hz := h z (by simp)
    have hr := ih (fun b hb => h b (by simp [hb]))
    simp only [sextetsOf, decodeSextets, hr]
    congr 1
    · omega
    congr 1
    · omega
    congr 1
    omega
  | case2 x y =>
    have hx := h x (by simp)
    have hy := h y (by simp)
    simp only [sextetsOf, decodeSextets]
    congr 1
    · omega
    congr 1
    omega
  | case3 x =>
    have hx := h x (by simp)
    simp only [sextetsOf, decodeSextets]
    congr 1
    omega
  | case4 => simp [sextetsOf, decodeSextets]

theorem base64Indices_map (l : List Nat) (h : ∀ i ∈ l, i < 64) :
    base64Indices (l.map fun i => urlToStd (base64urlChar i)) = some l := by
  induction l with
  | nil => rfl
  | cons i l ih =>
    have hi := base64Index_urlChar i (h i (by simp))
    have hl := ih (fun j hj => h j (by simp [hj]))
    simp only [List.map_cons, base64Indices, hi, hl]

theorem stripPadding_eq_self (cs : List Char) (h : Char.ofNat 61 ∉ cs) :
    stripPadding cs = cs := by
  unfold stripPadding
  have : cs.getLast? ≠ some (Char.ofNat 61) := fun hl => h (List.mem_of_getLast?_eq_some hl)
  simp [this]

/-- What `decodeJwt` hands to `JSON.parse` for the base64url encoding of a byte
sequence: the text with one character per byte. -/
theorem atob_base64urlEncode (bs : List Nat) (h : ∀ b ∈ bs, b < 256) :
    atob (replaceAll (Char.ofNat 95) (Char.ofNat 47)
        (replaceAll (Char.ofNat 45) (Char.ofNat 43) (String.mk (base64urlEncode bs))))
      = Except.ok (String.mk (bs.map Char.ofNat)) := by
  have hlt := sextetsOf_lt bs h
  have hdata : (replaceAll (Char.ofNat 95) (Char.ofNat 47)
        (replaceAll (Char.ofNat 45) (Char.ofNat 43) (String.mk (base64urlEncode bs)))).data
      = (sextetsOf bs).map fun i => urlToStd (base64urlChar i) := by
    simp [replaceAll, base64urlEncode_eq_map, urlToStd, Function.comp_def]
  have hfilter : ((sextetsOf bs).map fun i => urlToStd (base64urlChar i)).filter
      (fun c => !isAsciiWhitespace c) = (sextetsOf bs).map fun i => urlToStd (base64urlChar i) := by
    rw [List.filter_eq_self]
    intro c hc
    obtain ⟨i, hi, rfl⟩ := List.mem_map.1 hc
    simp [(urlChar_props i (hlt i hi)).1]
  have hpad : Char.ofNat 61 ∉ (sextetsOf bs).map fun i => urlToStd (base64urlChar i) := by
    intro hc
    obtain ⟨i, hi, he⟩ := List.mem_map.1 hc
    exact (urlChar_props i (hlt i hi)).2.1 he
  have hlen : ((sextetsOf bs).map fun i => urlToStd (base64urlChar i)).length % 4 ≠ 1 := by
    simpa using sextetsOf_length bs
  unfold atob
  simp only [hdata, hfilter, stripPadding_eq_self _ hpad, if_neg hlen,
    base64Indices_map _ hlt, decodeSextets_sextetsOf bs h]

theorem utf8Bytes_lt (c : Char) : ∀ b ∈ utf8Bytes c, b < 256 := by
  have hc : c.toNat < 1114112 := by
    have := c.valid
    simp only [Char.toNat, UInt32.isValidChar, Nat.isValidChar] at *
    omega
  intro b hb
  unfold utf8Bytes at hb
  split_ifs at hb <;> simp only [List.mem_cons, List.mem_singleton, List.not_mem_nil, or_false] at hb
  · omega
  · rcases hb with hb | hb <;> omega
  · rcases hb with hb | hb | hb <;> omega
  · rcases hb with hb | hb | hb | hb <;> omega

theorem utf8Encode_lt (text : String) : ∀ b ∈ utf8Encode text, b < 256 := by
  intro b hb
  obtain ⟨c, _, hbc⟩ := List.mem_flatMap.1 hb
  exact utf8Bytes_lt c b hbc

theorem binaryString_ascii (text : String) (h : ∀ c ∈ text.data, c.toNat < 128) :
    binaryString text = text := by
  have key : ∀ l : List Char, (∀ c ∈ l, c.toNat < 128) →
      (l.flatMap utf8Bytes).map Char.ofNat = l := by
    intro l
    induction l with
    | nil => intro _; rfl
    | cons c l ih =>
      intro hl
      have hc := hl c (by simp)
      have hr := ih (fun d hd => hl d (by simp [hd]))
      simp [List.flatMap_cons, utf8Bytes, hc, hr]
  unfold binaryString utf8Encode
  rw [key text.data h]

/-! ### Splitting a token -/

theorem splitSegments_no_dot (cs : List Char) (h : ∀ c ∈ cs, c.toNat ≠ 46) :
    splitSegments cs = [cs] := by
  induction cs with
  | nil => rfl
  | cons c cs ih =>
    have hc := h c (by simp)
    have hr := ih (fun d hd => h d (by simp [hd]))
    simp [splitSegments, hc, hr]

theorem splitSegments_append (cs rest : List Char) (h : ∀ c ∈ cs, c.toNat ≠ 46) :
    splitSegments (cs ++ Char.ofNat 46 :: rest) = cs :: splitSegments rest := by
  induction cs with
  | nil => simp [splitSegments]
  | cons c cs ih =>
    have hc := h c (by simp)
    have hr := ih (fun d hd => h d (by simp [hd]))
    simp [splitSegments, hc, hr]

theorem base64urlEncode_no_dot (bs : List Nat) (h : ∀ b ∈ bs, b < 256) :
    ∀ c ∈ base64urlEncode bs, c.toNat ≠ 46 := by
  intro c hc
  rw [base64urlEncode_eq_map] at hc
  obtain ⟨i, hi, rfl⟩ := List.mem_map.1 hc
  exact (urlChar_props i (sextetsOf_lt bs h i hi)).2.2

/-- The second segment of a token built by `tokenOfPayload`. -/
theorem split_tokenOfPayload (header text signature : String)
    (hh : ∀ c ∈ header.data, c.toNat ≠ 46) :
    ∃ parts, (JsVal.str (tokenOfPayload header text signature)).split = Except.ok parts ∧
      parts.get? 1 = some (String.mk (base64urlEncode (utf8Encode text))) := by
  refine ⟨_, rfl, ?_⟩
  have hdata : (tokenOfPayload header text signature).data
      = header.data ++ Char.ofNat 46 ::
          (base64urlEncode (utf8Encode text) ++ Char.ofNat 46 :: signature.data) := by
    simp [tokenOfPayload, String.data_append]
  rw [hdata, splitSegments_append _ _ hh,
    splitSegments_append _ _ (base64urlEncode_no_dot _ (utf8Encode_lt text))]
  rfl

/-- What `decodeJwt` returns for a token whose second segment encodes `text`:
the value of the text `atob` yields, one character per UTF-8 byte of `text`. -/
theorem decodeJwt_tokenOfPayload (header text signature : String)
    (hh : ∀ c ∈ header.data, c.toNat ≠ 46) :
    decodeJwt (JsVal.str (tokenOfPayload header text signature))
      = Except.ok ((jsonParse (binaryString text)).getD JsVal.null) := by
  obtain ⟨parts, hsplit, hget⟩ := split_tokenOfPayload header text signature hh
  unfold decodeJwt decodeJwtBody
  rw [hsplit]
  simp only [hget, atob_base64urlEncode _ (utf8Encode_lt text), JSON.parse]
  unfold binaryString
  cases jsonParse (String.mk ((utf8Encode text).map Char.ofNat)) <;> rfl

theorem decodeJwt_total (token : JsVal) : ∃ v, decodeJwt token = Except.ok v := by
  unfold decodeJwt
  cases decodeJwtBody token with
  | error e => exact ⟨_, rfl⟩
  | ok v => exact ⟨_, rfl⟩

/-! ### Claims C6 to C10 -/

/-- C6, as stated, fails: the token `h.eyJzdWIiOiJKb3PDqSJ9.s` has as second
segment the base64url encoding of the JSON text with subject `José`, whose
parsed value has the subject `José`; `decodeJwt` returns an object whose
subject is `JosÃ©`, because `atob` yields one character per UTF-8 byte and the
result goes to `JSON.parse` as it is. -/
theorem decodeJwt_non_ascii_payload :
    tokenOfPayload "h" "\x7b\"sub\":\"José\"\x7d" "s" = "h.eyJzdWIiOiJKb3PDqSJ9.s" ∧
    jsonParse "\x7b\"sub\":\"José\"\x7d"
      = some (JsVal.obj [("sub", JsVal.str "José")]) ∧
    decodeJwt (JsVal.str "h.eyJzdWIiOiJKb3PDqSJ9.s")
      = Except.ok (JsVal.obj [("sub", JsVal.str "JosÃ©")]) ∧
    decodeJwt (JsVal.str "h.eyJzdWIiOiJKb3PDqSJ9.s")
      ≠ Except.ok (JsVal.obj [("sub", JsVal.str "José")]) := by
  refine ⟨by decide, rfl, rfl, ?_⟩
  have h : decodeJwt (JsVal.str "h.eyJzdWIiOiJKb3PDqSJ9.s")
      = Except.ok (JsVal.obj [("sub", JsVal.str "JosÃ©")]) := rfl
  rw [h]
  intro hne
  simp only [Except.ok.injEq, JsVal.obj.injEq, List.cons.injEq, Prod.mk.injEq, JsVal.str.injEq,
    true_and, and_true] at hne
  exact absurd hne (by decide)

/-- C6, amended: `decodeJwt` never throws; it returns `null` for a token that
is not a string, for a string without `.`, for a string whose second segment
`atob` rejects after the two replacements, and for one whose decoded second
segment is not a JSON text; it returns the parsed value of the decoded second
segment when that is a JSON text; and for a token whose second segment is the
base64url encoding of a JSON text made of ASCII characters, it returns the
parsed value of that text. -/
theorem decodeJwt_fails_soft :
    (∀ token : JsVal, ∃ v, decodeJwt token = Except.ok v) ∧
    (∀ token : JsVal, (∀ s, token ≠ JsVal.str s) → decodeJwt token = Except.ok JsVal.null) ∧
    (∀ s : String, (∀ c ∈ s.data, c.toNat ≠ 46) →
      decodeJwt (JsVal.str s) = Except.ok JsVal.null) ∧
    (∀ (s : String) (parts : List String) (seg : String) (e : JsError),
      (JsVal.str s).split = Except.ok parts → parts.get? 1 = some seg →
      atob (replaceAll (Char.ofNat 95) (Char.ofNat 47)
        (replaceAll (Char.ofNat 45) (Char.ofNat 43) seg)) = Except.error e →
      decodeJwt (JsVal.str s) = Except.ok JsVal.null) ∧
    (∀ (s : String) (parts : List String) (seg json : String),
      (JsVal.str s).split = Except.ok parts → parts.get? 1 = some seg →
      atob (replaceAll (Char.ofNat 95) (Char.ofNat 47)
        (replaceAll (Char.ofNat 45) (Char.ofNat 43) seg)) = Except.ok json →
      jsonParse json = none →
      decodeJwt (JsVal.str s) = Except.ok JsVal.null) ∧
    (∀ (s : String) (parts : List String) (seg json : String) (v : JsVal),
      (JsVal.str s).split = Except.ok parts → parts.get? 1 = some seg →
      atob (replaceAll (Char.ofNat 95) (Char.ofNat 47)
        (replaceAll (Char.ofNat 45) (Char.ofNat 43) seg)) = Except.ok json →
      jsonParse json = some v →
      decodeJwt (JsVal.str s) = Except.ok v) ∧
    (∀ (header text signature : String) (v : JsVal),
      (∀ c ∈ header.data, c.toNat ≠ 46) → (∀ c ∈ text.data, c.toNat < 128) →
      jsonParse text = some v →
      decodeJwt (JsVal.str (tokenOfPayload header text signature)) = Except.ok v) := by
  refine ⟨decodeJwt_total, ?_, ?_, ?_, ?_, ?_, ?_⟩
  · intro token hns
    cases token with
    | str s => exact absurd rfl (hns s)
    | undefined => rfl
    | null => rfl
    | bool b => rfl
    | num m e => rfl
    | arr items => rfl
    | obj members => rfl
    | fn name => rfl
  · intro s hs
    simp [decodeJwt, decodeJwtBody, JsVal.split, splitSegments_no_dot s.data hs]
  · intro s parts seg e hsplit hget hatob
    simp only [decodeJwt, decodeJwtBody, hsplit, hget, hatob]
  · intro s parts seg json hsplit hget hatob hparse
    simp only [decodeJwt, decodeJwtBody, hsplit, hget, hatob, JSON.parse, hparse]
  · intro s parts seg json v hsplit hget hatob hparse
    simp only [decodeJwt, decodeJwtBody, hsplit, hget, hatob, JSON.parse, hparse]
  · intro header text signature v hh ht hv
    rw [decodeJwt_tokenOfPayload header text signature hh, binaryString_ascii text ht, hv]
    rfl

/-- C6, amended, on the token whose second segment encodes the JSON text with
subject `alice`. -/
theorem decodeJwt_fails_soft_witness :
    decodeJwt (JsVal.str (tokenOfPayload "h" "\x7b\"sub\":\"alice\"\x7d" "s"))
      = Except.ok (JsVal.obj [("sub", JsVal.str "alice")]) :=
  decodeJwt_fails_soft.2.2.2.2.2.2 "h" "\x7b\"sub\":\"alice\"\x7d" "s"
    (JsVal.obj [("sub", JsVal.str "alice")]) (by decide) (by decide) rfl

/-- C7, as stated, fails: the second segment of `h.eyJyb2xlIjo1fQ.s` decodes to
the object whose `role` is the number 5, and `getRoleFromToken` throws a
`TypeError` on this token; likewise when the role claim is `true`, an object or
an array. -/
theorem getRoleFromToken_throws_on_non_string_role :
    decodeJwt (JsVal.str "h.eyJyb2xlIjo1fQ.s")
      = Except.ok (JsVal.obj [("role", JsVal.num 5 0)]) ∧
    getRoleFromToken (JsVal.str "h.eyJyb2xlIjo1fQ.s")
      = Except.error (JsError.mk "TypeError" "role.toUpperCase is not a function") ∧
    getRoleFromToken (JsVal.str "h.eyJyb2xlIjp0cnVlfQ.s")
      = Except.error (JsError.mk "TypeError" "role.toUpperCase is not a function") ∧
    getRoleFromToken (JsVal.str "h.eyJyb2xlIjp7fX0.s")
      = Except.error (JsError.mk "TypeError" "role.toUpperCase is not a function") ∧
    getRoleFromToken (JsVal.str "h.eyJyb2xlIjpbXX0.s")
      = Except.error (JsError.mk "TypeError" "role.toUpperCase is not a function") :=
  ⟨rfl, rfl, rfl, rfl, rfl⟩

theorem getUsernameFromToken_total (token : JsVal) :
    ∃ v, getUsernameFromToken token = Except.ok v := by
  obtain ⟨payload, hp⟩ := decodeJwt_total token
  unfold getUsernameFromToken
  rw [hp]
  cases payload with
  | undefined => exact ⟨_, rfl⟩
  | null => exact ⟨_, rfl⟩
  | bool b => exact ⟨_, rfl⟩
  | num m e => exact ⟨_, rfl⟩
  | str s => exact ⟨_, rfl⟩
  | arr items => exact ⟨_, rfl⟩
  | fn name => exact ⟨_, rfl⟩
  | obj members =>
    simp only [JsVal.sub]
    cases (ownMember members "sub").getD JsVal.undefined <;> exact ⟨_, rfl⟩

theorem getRoleFromToken_falsy_claim (token : JsVal) (hfalsy : (roleClaim token).truthy = false) :
    getRoleFromToken token = Except.ok JsVal.null := by
  obtain ⟨payload, hp⟩ := decodeJwt_total token
  unfold getRoleFromToken
  unfold roleClaim at hfalsy
  rw [hp] at hfalsy ⊢
  have hnull : JsVal.null.truthy = false := rfl
  have hundef : JsVal.undefined.truthy = false := rfl
  cases payload with
  | obj members =>
    have hobj : (JsVal.obj members).truthy = true := rfl
    simp only at hfalsy
    simp only [hobj, JsVal.role, hfalsy, hnull, Bool.not_true, Bool.false_eq_true, if_false]
  | undefined => simp only [hundef, Bool.not_false, if_true]
  | null => simp only [hnull, Bool.not_false, if_true]
  | bool b =>
    cases b
    · have hb : (JsVal.bool false).truthy = false := rfl
      simp only [hb, Bool.not_false, if_true]
    · have hb : (JsVal.bool true).truthy = true := rfl
      simp only [hb, JsVal.role, hundef, hnull, Bool.not_true, Bool.false_eq_true, if_false]
  | num m e =>
    simp only [JsVal.role, hundef, hnull, Bool.false_eq_true, if_false]
    split <;> rfl
  | str s =>
    simp only [JsVal.role, hundef, hnull, Bool.false_eq_true, if_false]
    split <;> rfl
  | arr items =>
    have ha : (JsVal.arr items).truthy = true := rfl
    simp only [ha, JsVal.role, hundef, hnull, Bool.not_true, Bool.false_eq_true, if_false]
  | fn name =>
    have hf : (JsVal.fn name).truthy = true := rfl
    simp only [hf, JsVal.role, hundef, hnull, Bool.not_true, Bool.false_eq_true, if_false]

theorem getRoleFromToken_string_claim (token : JsVal) (r : String)
    (hr : roleClaim token = JsVal.str r) :
    getRoleFromToken token
      = Except.ok (if r = "" then JsVal.null else JsVal.str (toUpperCase r)) := by
  obtain ⟨payload, hp⟩ := decodeJwt_total token
  unfold getRoleFromToken
  unfold roleClaim at hr
  rw [hp] at hr ⊢
  have hnull : JsVal.null.truthy = false := rfl
  cases payload with
  | obj members =>
    have hobj : (JsVal.obj members).truthy = true := rfl
    simp only at hr
    simp only [hobj, JsVal.role, hr, Bool.not_true, Bool.false_eq_true, if_false]
    by_cases hre : r = ""
    · subst hre
      rfl
    · have ht : (JsVal.str r).truthy = true := by simp [JsVal.truthy, hre]
      simp only [ht, hre, if_true, if_false, JsVal.toUpperCase]
  | undefined => simp at hr
  | null => simp at hr
  | bool b => simp at hr
  | num m e => simp at hr
  | str s => simp at hr
  | arr items => simp at hr
  | fn name => simp at hr

/-- C7, amended: `getUsernameFromToken` returns a value for every token, and
`getRoleFromToken` returns a value for every token whose role claim is falsy
or a string (a malformed token, a payload that is not an object and a payload
without a role claim among them): `null` when the claim is falsy, the
upper-cased claim when it is a non-empty string. -/
theorem token_readers_total (token : JsVal) :
    (∃ v, getUsernameFromToken token = Except.ok v) ∧
    ((roleClaim token).truthy = false → getRoleFromToken token = Except.ok JsVal.null) ∧
    (∀ r : String, roleClaim token = JsVal.str r →
      getRoleFromToken token
        = Except.ok (if r = "" then JsVal.null else JsVal.str (toUpperCase r))) :=
  ⟨getUsernameFromToken_total token, getRoleFromToken_falsy_claim token,
   getRoleFromToken_string_claim token⟩

/-- C7, amended, on tokens with role claim `agent`, with no role claim, and on
a text that is no token. -/
theorem token_readers_total_witness :
    getRoleFromToken (JsVal.str "h.eyJyb2xlIjoiYWdlbnQifQ.s")
      = Except.ok (if "agent" = "" then JsVal.null else JsVal.str (toUpperCase "agent")) ∧
    getRoleFromToken (JsVal.str "h.eyJzdWIiOiJhbGljZSJ9.s") = Except.ok JsVal.null ∧
    getRoleFromToken (JsVal.str "not-a-token") = Except.ok JsVal.null ∧
    getRoleFromToken JsVal.null = Except.ok JsVal.null :=
  ⟨(token_readers_total (JsVal.str "h.eyJyb2xlIjoiYWdlbnQifQ.s")).2.2 "agent" rfl,
   (token_readers_total (JsVal.str "h.eyJzdWIiOiJhbGljZSJ9.s")).2.1 rfl,
   (token_readers_total (JsVal.str "not-a-token")).2.1 rfl,
   (token_readers_total JsVal.null).2.1 rfl⟩

/-- C8, as stated, fails: after a successful login with the token
`h.eyJyb2xlIjo1fQ.s`, whose role claim is the number 5, `handleSubmit` hands
the token to `onLoginSuccess`, shows an error and navigates nowhere. -/
theorem handleSubmit_no_navigation_on_number_role :
    Login.handleSubmit (Except.ok "h.eyJyb2xlIjo1fQ.s")
      = { loginSuccess := some "h.eyJyb2xlIjo1fQ.s", navigatedTo := none,
          error := some "role.toUpperCase is not a function", loading := false } := by
  decide

/-- C8, amended: after a successful login with a token whose role claim is
falsy or a string (a token that cannot be decoded and a payload without a role
claim among them), `handleSubmit` navigates to `/hotels` exactly when the role
claim is a string whose upper-cased form is `AGENT`, and to `/home` otherwise. -/
theorem handleSubmit_navigation (token : String) :
    ((roleClaim (JsVal.str token)).truthy = false →
      (Login.handleSubmit (Except.ok token)).navigatedTo = some "/home") ∧
    (∀ r : String, roleClaim (JsVal.str token) = JsVal.str r →
      (Login.handleSubmit (Except.ok token)).navigatedTo
        = some (if toUpperCase r = "AGENT" then "/hotels" else "/home")) := by
  constructor
  · intro hfalsy
    simp only [Login.handleSubmit, getRoleFromToken_falsy_claim _ hfalsy]
    rfl
  · intro r hr
    simp only [Login.handleSubmit, getRoleFromToken_string_claim _ r hr]
    by_cases hre : r = ""
    · subst hre
      rfl
    · simp only [hre, if_false, JsVal.isString]
      by_cases hu : toUpperCase r = "AGENT"
      · simp [hu]
      · simp [hu]

/-- C8, amended, on tokens with role claims `AGENT`, `agent`, `Agent`, `USER`
and `ADMIN`, on a token without role claim and on a text that is no token. -/
theorem handleSubmit_navigation_witness :
    (Login.handleSubmit (Except.ok "h.eyJyb2xlIjoiQUdFTlQifQ.s")).navigatedTo = some "/hotels" ∧
    (Login.handleSubmit (Except.ok "h.eyJyb2xlIjoiYWdlbnQifQ.s")).navigatedTo = some "/hotels" ∧
    (Login.handleSubmit (Except.ok "h.eyJyb2xlIjoiQWdlbnQifQ.s")).navigatedTo = some "/hotels" ∧
    (Login.handleSubmit (Except.ok "h.eyJyb2xlIjoiVVNFUiJ9.s")).navigatedTo = some "/home" ∧
    (Login.handleSubmit (Except.ok "h.eyJyb2xlIjoiQURNSU4ifQ.s")).navigatedTo = some "/home" ∧
    (Login.handleSubmit (Except.ok "h.eyJzdWIiOiJhbGljZSJ9.s")).navigatedTo = some "/home" ∧
    (Login.handleSubmit (Except.ok "not-a-token")).navigatedTo = some "/home" :=
  ⟨(handleSubmit_navigation "h.eyJyb2xlIjoiQUdFTlQifQ.s").2 "AGENT" rfl,
   (handleSubmit_navigation "h.eyJyb2xlIjoiYWdlbnQifQ.s").2 "agent" rfl,
   (handleSubmit_navigation "h.eyJyb2xlIjoiQWdlbnQifQ.s").2 "Agent" rfl,
   (handleSubmit_navigation "h.eyJyb2xlIjoiVVNFUiJ9.s").2 "USER" rfl,
   (handleSubmit_navigation "h.eyJyb2xlIjoiQURNSU4ifQ.s").2 "ADMIN" rfl,
   (handleSubmit_navigation "h.eyJzdWIiOiJhbGljZSJ9.s").1 rfl,
   (handleSubmit_navigation "not-a-token").1 rfl⟩

/-- C9: for every token value in App's state, each guarded route (`/home`,
`/hotels`, `/packages`, `/addTravelPackage`, `/hotel/:id`) renders its page if
and only if the token is neither `null` nor the empty string, and otherwise
renders the redirect to `/login`; `/login` and `/register` always render their
page. -/
theorem route_guard (token : Option String) (route : RoutePath) :
    (∀ p : Page, guardedPage route = some p →
      (App.routeElement token route = Element.page p ↔ (token ≠ none ∧ token ≠ some "")) ∧
      (¬ (token ≠ none ∧ token ≠ some "") →
        App.routeElement token route = Element.navigate "/login")) ∧
    App.routeElement token RoutePath.login = Element.page Page.Login ∧
    App.routeElement token RoutePath.register = Element.page Page.Register := by
  refine ⟨?_, rfl, rfl⟩
  intro p hp
  cases token with
  | none => cases route <;> simp_all [guardedPage, App.routeElement, tokenTruthy]
  | some t =>
    by_cases ht : t = ""
    · cases route <;> simp_all [guardedPage, App.routeElement, tokenTruthy]
    · cases route <;> simp_all [guardedPage, App.routeElement, tokenTruthy]

/-- C9 on the route `/hotel/12`: with the token `t` it renders the hotel page,
and with no token it redirects to `/login`. -/
theorem route_guard_witness :
    (App.routeElement (some "t") (RoutePath.hotel "12") = Element.page Page.HotelDetails ↔
      ((some "t" : Option String) ≠ none ∧ (some "t" : Option String) ≠ some "")) ∧
    App.routeElement none (RoutePath.hotel "12") = Element.navigate "/login" :=
  ⟨((route_guard (some "t") (RoutePath.hotel "12")).1 Page.HotelDetails rfl).1,
   ((route_guard none (RoutePath.hotel "12")).1 Page.HotelDetails rfl).2 (by decide)⟩

/-- C10 (the code differs): login and a `storage` event for the key `token`
leave App's token equal to the stored one; `handleLogout` removes the stored
token and leaves App's token as it was, so that after login with `t` and
logout the guarded routes still render their pages. -/
theorem logout_keeps_app_token :
    (∀ (newToken : String) (s : Session),
      (App.handleLoginSuccess newToken s).appToken
        = (App.handleLoginSuccess newToken s).storage) ∧
    (∀ (newValue : Option String) (s : Session),
      (otherTabChangesToken newValue s).appToken = (otherTabChangesToken newValue s).storage) ∧
    Navbar.handleLogout (App.handleLoginSuccess "t" (App.mount none))
      = ({ storage := none, appToken := some "t" }, "/login") ∧
    App.routeElement (Navbar.handleLogout (App.handleLoginSuccess "t" (App.mount none))).1.appToken
      RoutePath.home = Element.page Page.Home ∧
    App.routeElement (Navbar.handleLogout (App.handleLoginSuccess "t" (App.mount none))).1.appToken
      RoutePath.hotels = Element.page Page.AddHotelPackage ∧
    App.routeElement (Navbar.handleLogout (App.handleLoginSuccess "t" (App.mount none))).1.appToken
      RoutePath.packages = Element.page Page.TravelPackages ∧
    App.routeElement (Navbar.handleLogout (App.handleLoginSuccess "t" (App.mount none))).1.appToken
      RoutePath.addTravelPackage = Element.page Page.AddTravelPackages ∧
    App.routeElement (Navbar.handleLogout (App.handleLoginSuccess "t" (App.mount none))).1.appToken
      (RoutePath.hotel "1") = Element.page Page.HotelDetails := by
  refine ⟨fun _ _ => rfl, fun _ _ => ?_, by decide, by decide, by decide, by decide, by decide,
    by decide⟩
  simp [otherTabChangesToken, App.storageHandler]

/-! ### Claims C11 to C20 -/

theorem isOmitted_iff (v : JsVal) :
    isOmitted v = true ↔ (v = JsVal.null ∨ v = JsVal.undefined ∨ v = JsVal.str "") := by
  cases v <;> simp [isOmitted, JsVal.isString]

theorem hotelAppendEntries_eq (jsString : JsVal → Except JsError String)
    (params : List (String × JsVal)) (qs : List (String × String)) :
    HotelApi.appendEntries jsString params qs
      = (convertEntries jsString (retainedEntries params)).map fun pairs => qs ++ pairs := by
  induction params generalizing qs with
  | nil => simp [HotelApi.appendEntries, retainedEntries, convertEntries, Except.map]
  | cons kv rest ih =>
    obtain ⟨k, v⟩ := kv
    by_cases ho : isOmitted v = true
    · simp only [HotelApi.appendEntries, ho, if_true, ih]
      simp [retainedEntries, ho]
    · have hr : retainedEntries ((k, v) :: rest) = (k, v) :: retainedEntries rest := by
        simp [retainedEntries, ho]
      simp only [HotelApi.appendEntries, ho, Bool.false_eq_true, if_false, hr, convertEntries]
      cases jsString v with
      | error e => rfl
      | ok text =>
        simp only [ih]
        cases convertEntries jsString (retainedEntries rest) with
        | error e => rfl
        | ok pairs => simp [Except.map]

theorem travelAppendEntries_eq (jsString : JsVal → Except JsError String)
    (params : List (String × JsVal)) (qs : List (String × String)) :
    TravelPackagesApi.appendEntries jsString params qs
      = (convertEntries jsString (retainedEntries params)).map fun pairs => qs ++ pairs := by
  induction params generalizing qs with
  | nil => simp [TravelPackagesApi.appendEntries, retainedEntries, convertEntries, Except.map]
  | cons kv rest ih =>
    obtain ⟨k, v⟩ := kv
    by_cases ho : isOmitted v = true
    · simp only [TravelPackagesApi.appendEntries, ho, Bool.not_true, Bool.false_eq_true,
        if_false, ih]
      simp [retainedEntries, ho]
    · have hr : retainedEntries ((k, v) :: rest) = (k, v) :: retainedEntries rest := by
        simp [retainedEntries, ho]
      have ho2 : isOmitted v = false := by simpa using ho
      simp only [TravelPackagesApi.appendEntries, ho2, Bool.not_false, if_true, hr,
        convertEntries]
      cases jsString v with
      | error e => rfl
      | ok text =>
        simp only [ih]
        cases convertEntries jsString (retainedEntries rest) with
        | error e => rfl
        | ok pairs => simp [Except.map]

theorem URLSearchParams.toString_eq_empty (entries : List (String × String)) :
    URLSearchParams.toString entries = "" ↔ entries = [] := by
  cases entries with
  | nil => simp [URLSearchParams.toString]; rfl
  | cons kv rest =>
    simp only [reduceCtorEq, iff_false]
    intro h
    have hd := congrArg String.data h
    cases rest with
    | nil => simp [URLSearchParams.toString, List.intercalate] at hd
    | cons kv2 rest2 => simp [URLSearchParams.toString, List.intercalate] at hd

/-- C11: for every parameter object and every conversion of values to strings,
both `buildQuery` functions keep exactly the entries whose value is not `null`,
not `undefined` and not the empty string (so `0` and `false` are kept), in the
order of the entries, each key paired with its converted value; the hotel
client's builder returns the empty string when nothing is kept and otherwise
`?` followed by the urlencoded pairs, the travel-package client's builder the
same pairs without `?`.  A conversion that throws makes both throw. -/
theorem buildQuery_spec (jsString : JsVal → Except JsError String)
    (params : List (String × JsVal)) :
    (∀ kv : String × JsVal, kv ∈ retainedEntries params ↔
      (kv ∈ params ∧ kv.2 ≠ JsVal.null ∧ kv.2 ≠ JsVal.undefined ∧ kv.2 ≠ JsVal.str "")) ∧
    List.Sublist (retainedEntries params) params ∧
    isOmitted (JsVal.num 0 0) = false ∧ isOmitted (JsVal.bool false) = false ∧
    HotelApi.buildQuery jsString params
      = (convertEntries jsString (retainedEntries params)).map
          (fun pairs => if pairs = [] then "" else "?" ++ URLSearchParams.toString pairs) ∧
    TravelPackagesApi.buildQuery jsString params
      = (convertEntries jsString (retainedEntries params)).map URLSearchParams.toString := by
  refine ⟨?_, List.filter_sublist _, rfl, rfl, ?_, ?_⟩
  · intro kv
    have := isOmitted_iff kv.2
    simp only [retainedEntries, List.mem_filter, Bool.not_eq_true', ← Bool.not_eq_true, this]
    tauto
  · simp only [HotelApi.buildQuery, hotelAppendEntries_eq]
    cases convertEntries jsString (retainedEntries params) with
    | error e => rfl
    | ok pairs =>
      simp only [Except.map, List.nil_append, ne_eq, URLSearchParams.toString_eq_empty]
      by_cases hp : pairs = [] <;> simp [hp]
  · simp only [TravelPackagesApi.buildQuery, travelAppendEntries_eq]
    cases convertEntries jsString (retainedEntries params) with
    | error e => rfl
    | ok pairs => simp [Except.map]

/-- C11 on the parameters of a hotel search with keyword `sea view`, an empty
country, no rating, page 0, size 10 and a flag `false`. -/
theorem buildQuery_spec_witness :
    HotelApi.buildQuery exampleString
        [("q", JsVal.str "sea view"), ("country", JsVal.str ""), ("minRating", JsVal.undefined),
         ("page", JsVal.num 0 0), ("size", JsVal.num 10 0), ("open", JsVal.bool false)]
      = Except.ok "?q=sea+view&page=0&size=10&open=false" ∧
    TravelPackagesApi.buildQuery exampleString
        [("q", JsVal.str "sea view"), ("country", JsVal.str ""), ("minRating", JsVal.undefined),
         ("page", JsVal.num 0 0), ("size", JsVal.num 10 0), ("open", JsVal.bool false)]
      = Except.ok "q=sea+view&page=0&size=10&open=false" ∧
    HotelApi.buildQuery exampleString [("country", JsVal.str ""), ("state", JsVal.null)]
      = Except.ok "" :=
  ⟨(buildQuery_spec exampleString _).2.2.2.2.1.trans (by rfl),
   (buildQuery_spec exampleString _).2.2.2.2.2.trans (by rfl),
   (buildQuery_spec exampleString _).2.2.2.2.1.trans (by rfl)⟩

theorem firstOccurrences_step (set processed : List String) (z : String)
    (h : FirstOccurrences set processed) :
    FirstOccurrences (if z ∈ set then set else set ++ [z]) (processed ++ [z]) := by
  obtain ⟨hnd, hmem, hord⟩ := h
  by_cases hz : z ∈ set
  · rw [if_pos hz]
    refine ⟨hnd, ?_, ?_⟩
    · intro x
      rw [hmem x, List.mem_append, List.mem_singleton]
      constructor
      · exact Or.inl
      · rintro (hx | hx)
        · exact hx
        · rw [hx]; exact (hmem z).1 hz
    · intro x hx y hy
      rw [List.indexOf_append_of_mem ((hmem x).1 hx), List.indexOf_append_of_mem ((hmem y).1 hy)]
      exact hord x hx y hy
  · rw [if_neg hz]
    have hzp : z ∉ processed := fun hp => hz ((hmem z).2 hp)
    refine ⟨?_, ?_, ?_⟩
    · rw [List.nodup_append]
      refine ⟨hnd, List.nodup_singleton z, ?_⟩
      intro a ha hb
      rw [List.mem_singleton] at hb
      exact hz (hb ▸ ha)
    · intro x
      simp only [List.mem_append, List.mem_singleton, hmem x]
    · intro x hx y hy
      rw [List.mem_append, List.mem_singleton] at hx hy
      have key : ∀ (l : List String) (a : String), z ∉ l → (a ∈ l ∨ a = z) →
          (a ∈ l ∧ (l ++ [z]).indexOf a = l.indexOf a ∧ l.indexOf a < l.length) ∨
          (a = z ∧ (l ++ [z]).indexOf a = l.length) := by
        intro l a hzl ha
        by_cases hal : a ∈ l
        · exact Or.inl ⟨hal, List.indexOf_append_of_mem hal, List.indexOf_lt_length.2 hal⟩
        · have haz : a = z := ha.resolve_left hal
          refine Or.inr ⟨haz, ?_⟩
          rw [List.indexOf_append_of_not_mem hal, haz]
          simp
      rcases key set x hz hx with ⟨hxs, hx1, hx2⟩ | ⟨hxz, hx1⟩ <;>
      rcases key set y hz hy with ⟨hys, hy1, hy2⟩ | ⟨hyz, hy1⟩
      · have hxp := (hmem x).1 hxs
        have hyp := (hmem y).1 hys
        rw [hx1, hy1, List.indexOf_append_of_mem hxp, List.indexOf_append_of_mem hyp]
        exact hord x hxs y hys
      · have hxp := (hmem x).1 hxs
        rw [hx1, hy1, List.indexOf_append_of_mem hxp, hyz,
          List.indexOf_append_of_not_mem hzp]
        have := List.indexOf_lt_length.2 hxp
        simp only [List.indexOf_cons_self, Nat.add_zero]
        constructor <;> intro _ <;> assumption
      · have hyp := (hmem y).1 hys
        rw [hx1, hy1, List.indexOf_append_of_mem hyp, hxz,
          List.indexOf_append_of_not_mem hzp]
        have := List.indexOf_lt_length.2 hyp
        simp only [List.indexOf_cons_self, Nat.add_zero]
        constructor <;> intro h' <;> omega
      · rw [hxz, hyz]
        simp only [Nat.lt_irrefl]

theorem firstOccurrences_foldl (l set processed : List String)
    (h : FirstOccurrences set processed) :
    FirstOccurrences (l.foldl (fun set x => if x ∈ set then set else set ++ [x]) set)
      (processed ++ l) := by
  induction l generalizing set processed with
  | nil => simpa using h
  | cons z l ih =>
    have := ih _ _ (firstOccurrences_step set processed z h)
    simpa [List.foldl_cons, List.append_assoc] using this

theorem setToArray_firstOccurrences (arr : List String) :
    FirstOccurrences (setToArray arr) arr := by
  have h0 : FirstOccurrences [] [] := ⟨List.nodup_nil, fun _ => Iff.rfl, fun _ hx => by simp at hx⟩
  simpa [setToArray] using firstOccurrences_foldl arr [] [] h0

theorem jsTrim_data (s : String) :
    (jsTrim s).data = List.rdropWhile isJsWhitespace (s.data.dropWhile isJsWhitespace) := rfl

theorem jsTrim_noOuterWhitespace (s : String) : NoOuterWhitespace (jsTrim s) := by
  constructor
  · intro c hc
    rw [jsTrim_data] at hc
    have hpre : List.rdropWhile isJsWhitespace (s.data.dropWhile isJsWhitespace)
        <+: s.data.dropWhile isJsWhitespace := List.rdropWhile_prefix _ _
    obtain ⟨t, ht⟩ := hpre
    have hhead : (s.data.dropWhile isJsWhitespace).head? = some c := by
      rw [← ht]
      cases hl : List.rdropWhile isJsWhitespace (s.data.dropWhile isJsWhitespace) with
      | nil => rw [hl] at hc; simp at hc
      | cons a l => rw [hl] at hc; simpa using hc
    have := List.head?_dropWhile_not isJsWhitespace s.data
    rw [hhead] at this
    exact this
  · intro c hc
    rw [jsTrim_data] at hc
    have hne : List.rdropWhile isJsWhitespace (s.data.dropWhile isJsWhitespace) ≠ [] := by
      intro h
      rw [h] at hc
      simp at hc
    rw [List.getLast?_eq_getLast _ hne] at hc
    have := List.rdropWhile_last_not isJsWhitespace _ hne
    simp only [Option.some.injEq] at hc
    rw [hc] at this
    simpa using this

theorem jsTrim_of_noOuterWhitespace (s : String) (h : NoOuterWhitespace s) : jsTrim s = s := by
  obtain ⟨hhead, hlast⟩ := h
  have h1 : s.data.dropWhile isJsWhitespace = s.data := by
    rw [List.dropWhile_eq_self_iff]
    intro hl
    have hget : ∀ (l : List Char) (h0 : 0 < l.length), l.head? = some (l.get ⟨0, h0⟩) := by
      intro l h0
      cases l with
      | nil => simp at h0
      | cons a l => rfl
    simpa using hhead _ (hget s.data hl)
  have h2 : List.rdropWhile isJsWhitespace s.data = s.data := by
    rw [List.rdropWhile_eq_self_iff]
    intro hl
    have := hlast _ (List.getLast?_eq_getLast _ hl)
    simpa using this
  have hdata : (jsTrim s).data = s.data := by rw [jsTrim_data, h1, h2]
  exact String.ext hdata

theorem mem_trimAndFilter (texts : List String) (x : String) :
    x ∈ trimAndFilter texts ↔ x ≠ "" ∧ ∃ t ∈ texts, jsTrim t = x := by
  simp only [trimAndFilter, List.mem_filter, List.mem_map, decide_eq_true_eq]
  tauto

theorem allStrings_map_str (texts : List String) :
    allStrings (texts.map JsVal.str) = some texts := by
  induction texts with
  | nil => rfl
  | cons t texts ih => simp [allStrings, ih]

theorem carriedTexts_of_strings (toStringMethod : JsVal → Except JsError String)
    (hstr : ∀ s, toStringMethod (JsVal.str s) = Except.ok s) (items : List JsVal)
    (texts : List String) (h : items.map carriedValue = texts.map JsVal.str) :
    carriedTexts toStringMethod items = Except.ok texts := by
  induction items generalizing texts with
  | nil =>
    cases texts with
    | nil => rfl
    | cons t texts => simp at h
  | cons o items ih =>
    cases texts with
    | nil => simp at h
    | cons t texts =>
      simp only [List.map_cons, List.cons.injEq] at h
      simp only [carriedTexts, h.1, hstr, ih texts h.2]

theorem normalizeAmenities_of_shape (toStringMethod : JsVal → Except JsError String)
    (hstr : ∀ s, toStringMethod (JsVal.str s) = Except.ok s) (raw : JsVal)
    (texts : List String) (h : SupportedShape raw texts) :
    normalizeAmenities toStringMethod raw = Except.ok (setToArray (trimAndFilter texts)) := by
  cases h with
  | strings =>
    have ht : (JsVal.arr (texts.map JsVal.str)).truthy = true := rfl
    simp only [normalizeAmenities, ht, Bool.not_true, Bool.false_eq_true, if_false,
      allStrings_map_str]
  | objects items _ hne hobj htext =>
    have ht : (JsVal.arr items).truthy = true := rfl
    cases items with
    | nil => exact absurd rfl hne
    | cons o rest =>
      obtain ⟨members, ho⟩ := hobj o (by simp)
      subst ho
      have hall : allStrings (JsVal.obj members :: rest) = none := rfl
      simp only [normalizeAmenities, ht, Bool.not_true, Bool.false_eq_true, if_false, hall,
        carriedTexts_of_strings toStringMethod hstr _ texts htext]
      rfl
  | delimited s =>
    by_cases hs : s = ""
    · subst hs
      rfl
    · have ht : (JsVal.str s).truthy = true := by simp [JsVal.truthy, hs]
      simp only [normalizeAmenities, ht, Bool.not_true, Bool.false_eq_true, if_false]

/-- C12: for every raw amenities value of a supported shape, `normalizeAmenities`
returns a list of strings in which every element is non-empty and has no
leading or trailing white space, no element occurs twice, the elements are
exactly the non-empty trimmed texts of the input (compared as they are, so
`WiFi` and `wifi` are different), and they stand in the order of their first
occurrence among these. -/
theorem normalizeAmenities_supported (toStringMethod : JsVal → Except JsError String)
    (hstr : ∀ s, toStringMethod (JsVal.str s) = Except.ok s) (raw : JsVal)
    (texts : List String) (h : SupportedShape raw texts) :
    ∃ result : List String,
      normalizeAmenities toStringMethod raw = Except.ok result ∧
      (∀ x ∈ result, x ≠ "" ∧ NoOuterWhitespace x ∧ jsTrim x = x) ∧
      result.Nodup ∧
      (∀ x, x ∈ result ↔ (x ≠ "" ∧ ∃ t ∈ texts, jsTrim t = x)) ∧
      (∀ x ∈ result, ∀ y ∈ result,
        (result.indexOf x < result.indexOf y ↔
          (trimAndFilter texts).indexOf x < (trimAndFilter texts).indexOf y)) := by
  refine ⟨_, normalizeAmenities_of_shape toStringMethod hstr raw texts h, ?_, ?_, ?_, ?_⟩
  · intro x hx
    have hmem := ((setToArray_firstOccurrences (trimAndFilter texts)).2.1 x).1 hx
    obtain ⟨hne, t, _, ht⟩ := (mem_trimAndFilter texts x).1 hmem
    have hno : NoOuterWhitespace x := ht ▸ jsTrim_noOuterWhitespace t
    exact ⟨hne, hno, jsTrim_of_noOuterWhitespace x hno⟩
  · exact (setToArray_firstOccurrences (trimAndFilter texts)).1
  · intro x
    rw [(setToArray_firstOccurrences (trimAndFilter texts)).2.1 x, mem_trimAndFilter]
  · exact (setToArray_firstOccurrences (trimAndFilter texts)).2.2

/-- C12 on an array of strings, an array of objects and a delimited string. -/
theorem normalizeAmenities_supported_witness :
    (∃ result : List String,
      normalizeAmenities exampleToString
          (JsVal.arr [JsVal.str " WiFi ", JsVal.str "wifi", JsVal.str "WiFi", JsVal.str " "])
        = Except.ok result ∧
      (∀ x ∈ result, x ≠ "" ∧ NoOuterWhitespace x ∧ jsTrim x = x) ∧
      result.Nodup ∧
      (∀ x, x ∈ result ↔ (x ≠ "" ∧ ∃ t ∈ [" WiFi ", "wifi", "WiFi", " "], jsTrim t = x)) ∧
      (∀ x ∈ result, ∀ y ∈ result,
        (result.indexOf x < result.indexOf y ↔
          (trimAndFilter [" WiFi ", "wifi", "WiFi", " "]).indexOf x
            < (trimAndFilter [" WiFi ", "wifi", "WiFi", " "]).indexOf y))) ∧
    normalizeAmenities exampleToString
        (JsVal.arr [JsVal.str " WiFi ", JsVal.str "wifi", JsVal.str "WiFi", JsVal.str " "])
      = Except.ok ["WiFi", "wifi"] ∧
    normalizeAmenities exampleToString
        (JsVal.arr [JsVal.obj [("name", JsVal.str "pool")],
          JsVal.obj [("label", JsVal.str " spa "), ("value", JsVal.str "x")],
          JsVal.obj [("value", JsVal.str "pool")]])
      = Except.ok ["pool", "spa"] ∧
    normalizeAmenities exampleToString (JsVal.str "gym, pool;  gym\tbar ")
      = Except.ok ["gym", "pool", "bar"] :=
  ⟨normalizeAmenities_supported exampleToString (fun _ => rfl) _ _
      (SupportedShape.strings [" WiFi ", "wifi", "WiFi", " "]),
   rfl, rfl, rfl⟩

/-- C13 (the code differs): for the amenities text `wifi, pool, wifi` the
payload of `handleCreate` carries the list `wifi`, `pool`, `wifi`, in which
`wifi` occurs twice; `normalizeAmenities` returns `wifi`, `pool` for the same
text. -/
theorem handleCreate_keeps_repeated_amenity :
    (AddHotelPackage.handleCreate AddHotelPackage.repeatedAmenityForm).map
        (fun dto => dto.amenities) = some ["wifi", "pool", "wifi"] ∧
    ¬ (["wifi", "pool", "wifi"] : List String).Nodup ∧
    normalizeAmenities exampleToString (JsVal.str "wifi, pool, wifi")
      = Except.ok ["wifi", "pool"] := by
  refine ⟨by decide, by decide, rfl⟩

theorem indexOfChar_append (c : Nat) (l1 l2 : List Char) (d : Char)
    (h1 : ∀ x ∈ l1, x.toNat ≠ c) (hd : d.toNat = c) :
    indexOfChar c (l1 ++ d :: l2) = l1.length := by
  induction l1 with
  | nil => simp [indexOfChar, hd]
  | cons a l1 ih =>
    have ha := h1 a (by simp)
    have hr := ih (fun x hx => h1 x (by simp [hx]))
    show indexOfChar c (a :: (l1 ++ d :: l2)) = _
    rw [indexOfChar, if_neg ha, hr]
    split_ifs with hneg
    · omega
    · simp

theorem drop_length_succ_append (l1 l2 : List Char) (x : Char) :
    (l1 ++ x :: l2).drop (l1.length + 1) = l2 := by
  induction l1 with
  | nil => rfl
  | cons a l1 ih => simp [ih]

/-- C15: for every payload `b` and every MIME type `m` without a comma,
`extractBase64 (toDataUrl b m) = b`: `toDataUrl` puts `data:m;base64,` in front
of a non-empty payload (an empty one stays empty) and `extractBase64` removes
exactly that. -/
theorem extractBase64_toDataUrl (b m : String) (hm : ∀ c ∈ m.data, c.toNat ≠ 44) :
    extractBase64 (toDataUrl b (some m)) = b ∧
    (b ≠ "" → toDataUrl b (some m) = "data:" ++ m ++ ";base64," ++ b) ∧
    (b = "" → toDataUrl b (some m) = "") := by
  by_cases hb : b = ""
  · subst hb
    exact ⟨rfl, fun h => absurd rfl h, fun _ => rfl⟩
  · refine ⟨?_, fun _ => by simp [toDataUrl, hb], fun h => absurd h hb⟩
    have hurl : toDataUrl b (some m) = "data:" ++ m ++ ";base64," ++ b := by
      simp [toDataUrl, hb]
    have hdata : (toDataUrl b (some m)).data
        = ("data:".data ++ m.data ++ ";base64".data) ++ Char.ofNat 44 :: b.data := by
      rw [hurl]
      simp [String.data_append]
    have hpre : ∀ x ∈ "data:".data ++ m.data ++ ";base64".data, x.toNat ≠ 44 := by
      intro x hx
      simp only [List.mem_append] at hx
      rcases hx with (hx | hx) | hx
      · revert x
        decide
      · exact hm x hx
      · revert x
        decide
    have hidx := indexOfChar_append 44 _ b.data (Char.ofNat 44) hpre rfl
    have hne : toDataUrl b (some m) ≠ "" := by
      intro h
      have := congrArg String.data h
      rw [hdata] at this
      simp at this
    unfold extractBase64
    rw [if_neg hne]
    simp only [hdata, hidx]
    have hnn : ((("data:".data ++ m.data ++ ";base64".data).length : Int) ≥ 0) := by positivity
    rw [if_pos hnn]
    have hnn1 : ¬ (((("data:".data ++ m.data ++ ";base64".data).length : Int) + 1) < 0) := by
      omega
    simp only [sliceFrom, if_neg hnn1]
    have htonat : ((("data:".data ++ m.data ++ ";base64".data).length : Int) + 1).toNat
        = ("data:".data ++ m.data ++ ";base64".data).length + 1 := by omega
    rw [htonat]
    rw [drop_length_succ_append]

/-- C15 on the payload `AAAA` with the type `image/png`. -/
theorem extractBase64_toDataUrl_witness :
    extractBase64 (toDataUrl "AAAA" (some "image/png")) = "AAAA" ∧
    ("AAAA" ≠ "" → toDataUrl "AAAA" (some "image/png")
      = "data:" ++ "image/png" ++ ";base64," ++ "AAAA") ∧
    ("AAAA" = "" → toDataUrl "AAAA" (some "image/png") = "") :=
  extractBase64_toDataUrl "AAAA" "image/png" (by decide)

theorem mathRound_le_of_le (x : ℚ) (n : Int) (h : x ≤ n) : mathRound x ≤ n := by
  unfold mathRound
  have h1 : ⌊x + 1 / 2⌋ < n + 1 := by
    rw [Int.floor_lt]
    push_cast
    linarith
  omega

theorem mathRound_intCast (n : Int) : mathRound (n : ℚ) = n := by
  unfold mathRound
  rw [Int.floor_eq_iff]
  constructor <;> linarith

theorem scaled_size (maxWidth : ℚ) (w h : Nat) (hw : 0 < w) :
    mathRound (w * min 1 (maxWidth / w)) ≤ w ∧ mathRound (h * min 1 (maxWidth / w)) ≤ h ∧
    ((w : ℚ) ≤ maxWidth →
      mathRound (w * min 1 (maxWidth / w)) = w ∧ mathRound (h * min 1 (maxWidth / w)) = h) := by
  have hs : min 1 (maxWidth / (w : ℚ)) ≤ 1 := min_le_left _ _
  have hw0 : (0 : ℚ) ≤ (w : ℚ) := Nat.cast_nonneg w
  have hh0 : (0 : ℚ) ≤ (h : ℚ) := Nat.cast_nonneg h
  refine ⟨?_, ?_, ?_⟩
  · apply mathRound_le_of_le
    push_cast
    nlinarith
  · apply mathRound_le_of_le
    push_cast
    nlinarith
  · intro hle
    have hwpos : (0 : ℚ) < (w : ℚ) := by exact_mod_cast hw
    have hone : min 1 (maxWidth / (w : ℚ)) = 1 := by
      apply min_eq_left
      rw [le_div_iff₀ hwpos]
      linarith
    rw [hone, mul_one, mul_one]
    exact ⟨mathRound_intCast w, mathRound_intCast h⟩

/-- C14: for a source image of positive width `w` and of height `h`, and for
every `maxWidth` (given or defaulted), both copies of `compressImageFile` draw
a canvas no wider than `w` and no higher than `h`, and when `w` is at most the
maximal width the canvas is exactly `w` by `h` (exact arithmetic, `Math.round`
rounding to the nearest integer). -/
theorem compressImageFile_never_upscales (w h : Nat) (maxWidth quality : Option ℚ)
    (mimeType : Option String) (hw : 0 < w) :
    (ImageCompress.compressImageFile w h maxWidth quality mimeType).width ≤ w ∧
    (ImageCompress.compressImageFile w h maxWidth quality mimeType).height ≤ h ∧
    ((w : ℚ) ≤ maxWidth.getD 1280 →
      (ImageCompress.compressImageFile w h maxWidth quality mimeType).width = w ∧
      (ImageCompress.compressImageFile w h maxWidth quality mimeType).height = h) ∧
    (AddHotelPackage.compressImageFile w h maxWidth quality mimeType).width ≤ w ∧
    (AddHotelPackage.compressImageFile w h maxWidth quality mimeType).height ≤ h ∧
    ((w : ℚ) ≤ maxWidth.getD 1024 →
      (AddHotelPackage.compressImageFile w h maxWidth quality mimeType).width = w ∧
      (AddHotelPackage.compressImageFile w h maxWidth quality mimeType).height = h) := by
  obtain ⟨a1, a2, a3⟩ := scaled_size (maxWidth.getD 1280) w h hw
  obtain ⟨b1, b2, b3⟩ := scaled_size (maxWidth.getD 1024) w h hw
  exact ⟨a1, a2, a3, b1, b2, b3⟩

/-- C14 on a source of 800 by 600 with `maxWidth` 1024: the canvas is 800 by
600. -/
theorem compressImageFile_never_upscales_witness :
    (ImageCompress.compressImageFile 800 600 (some 1024) none none).width = (800 : Nat) ∧
    (ImageCompress.compressImageFile 800 600 (some 1024) none none).height = (600 : Nat) ∧
    (AddHotelPackage.compressImageFile 800 600 (some 1024) none none).width ≤ (800 : Nat) :=
  ⟨((compressImageFile_never_upscales 800 600 (some 1024) none none (by decide)).2.2.1
      (by norm_num)).1,
   ((compressImageFile_never_upscales 800 600 (some 1024) none none (by decide)).2.2.1
      (by norm_num)).2,
   (compressImageFile_never_upscales 800 600 (some 1024) none none (by decide)).2.2.2.1⟩

/-- C17, as stated, fails: in a state with page index 5 and a held page of 2
pages, `prevPage` (and `gotoPrev`) issues a fetch for index 4, which is not in
the range from 0 to 1. -/
theorem prevPage_beyond_last_page :
    (∀ (ν : Type) (Number : String → ν),
      ((Home.prevPage Number Home.beyondLastPageState).2.map fun r => r.page) = some 4) ∧
    (∀ (ν : Type) (Number : String → ν),
      ((TravelPackages.gotoPrev Number TravelPackages.beyondLastPageState).2.map
        fun r => r.page) = some 4) ∧
    Home.beyondLastPageState.pageData.totalPages = 2 ∧ ¬ (4 ≤ 2 - 1) :=
  ⟨fun _ _ => rfl, fun _ _ => rfl, rfl, by decide⟩

/-- C17, amended: in every state the previous-page operation at page 0 and the
next-page operation at the last page are no-ops (no fetch, state unchanged);
a fetch issued by the next-page operation asks for `page + 1`, which is below
`totalPages`; a fetch issued by the previous-page operation asks for
`page - 1`, which is below `totalPages` when the page index is at most
`totalPages`. -/
theorem page_change_boundaries {α ν : Type} (Number : String → ν) (s : Home.State α)
    (t : TravelPackages.State) (totalPages : Option Nat) :
    (s.page = 0 → Home.prevPage Number s = (s, none)) ∧
    (s.page + 1 = s.pageData.totalPages → Home.nextPage Number s = (s, none)) ∧
    (∀ r, (Home.nextPage Number s).2 = some r →
      r.page = s.page + 1 ∧ r.page < s.pageData.totalPages) ∧
    (∀ r, (Home.prevPage Number s).2 = some r →
      r.page + 1 = s.page ∧ (s.page ≤ s.pageData.totalPages → r.page < s.pageData.totalPages)) ∧
    (t.page = 0 → TravelPackages.gotoPrev Number t = (t, none)) ∧
    (t.page + 1 = totalPages.getD 0 → TravelPackages.gotoNext Number t totalPages = (t, none)) ∧
    (∀ r, (TravelPackages.gotoNext Number t totalPages).2 = some r →
      r.page = t.page + 1 ∧ r.page < totalPages.getD 0) ∧
    (∀ r, (TravelPackages.gotoPrev Number t).2 = some r →
      r.page + 1 = t.page ∧ (t.page ≤ totalPages.getD 0 → r.page < totalPages.getD 0)) := by
  refine ⟨?_, ?_, ?_, ?_, ?_, ?_, ?_, ?_⟩
  · intro h
    simp [Home.prevPage, h]
  · intro h
    simp [Home.nextPage, h]
  · intro r hr
    unfold Home.nextPage at hr
    split_ifs at hr with hlt
    simp only [Option.some.injEq] at hr
    subst hr
    exact ⟨rfl, hlt⟩
  · intro r hr
    unfold Home.prevPage at hr
    split_ifs at hr with hlt
    simp only [Option.some.injEq] at hr
    subst hr
    simp only [Home.fetchData, Home.fetchParams]
    omega
  · intro h
    simp [TravelPackages.gotoPrev, h]
  · intro h
    simp [TravelPackages.gotoNext, h]
  · intro r hr
    unfold TravelPackages.gotoNext at hr
    split_ifs at hr with hlt
    simp only [Option.some.injEq] at hr
    subst hr
    exact ⟨rfl, hlt⟩
  · intro r hr
    unfold TravelPackages.gotoPrev at hr
    split_ifs at hr with hlt
    simp only [Option.some.injEq] at hr
    subst hr
    simp only [TravelPackages.fetchData]
    omega

/-- C17, amended, on the default hotel state (page 0 of 3): the previous-page
operation does nothing, and the next-page operation asks for page 1. -/
theorem page_change_boundaries_witness :
    Home.prevPage (fun text => text) Home.defaultState = (Home.defaultState, none) ∧
    (1 = Home.defaultState.page + 1 ∧ 1 < Home.defaultState.pageData.totalPages) :=
  ⟨(page_change_boundaries (fun text => text) Home.defaultState TravelPackages.defaultState
      (some 3)).1 rfl,
   (page_change_boundaries (fun text => text) Home.defaultState TravelPackages.defaultState
      (some 3)).2.2.1
      { q := "", country := "", state := "", minRating := none, page := 1, size := 10,
        sort := "name,asc" } rfl⟩

/-- C18 (the code differs): the page-size handler sets the size to the selected
number for the next render, but the request it issues is built from the render
it runs in: for every state and every selected number the request has page 0
and the size of the old state.  From the default size 10, selecting 24 issues a
request with size 10. -/
theorem onPerPageChange_request_has_old_size :
    (∀ (α ν : Type) (Number : String → ν) (s : Home.State α) (val : Nat),
      (Home.onPerPageChange Number s val).2.page = 0 ∧
      (Home.onPerPageChange Number s val).2.size = s.size ∧
      (Home.onPerPageChange Number s val).1.size = val ∧
      (Home.onPerPageChange Number s val).1.page = 0) ∧
    (∀ (ν : Type) (Number : String → ν) (t : TravelPackages.State) (val : Nat),
      (TravelPackages.onPerPageChange Number t val).2.page = 0 ∧
      (TravelPackages.onPerPageChange Number t val).2.size = t.size ∧
      (TravelPackages.onPerPageChange Number t val).1.size = val ∧
      (TravelPackages.onPerPageChange Number t val).1.page = 0) ∧
    (∀ (ν : Type) (Number : String → ν),
      (Home.onPerPageChange Number Home.defaultState 24).2.size = 10 ∧
      (TravelPackages.onPerPageChange Number TravelPackages.defaultState 24).2.size = 10) :=
  ⟨fun _ _ _ _ _ => ⟨rfl, rfl, rfl, rfl⟩, fun _ _ _ _ => ⟨rfl, rfl, rfl, rfl⟩,
   fun _ _ => ⟨rfl, rfl⟩⟩

/-- C19: when the search call of `fetchData` fails with the error `e`, the held
page data, the page index, the filters, the sort and the size are as they were
before the call, the error message is `e.message`, or the fixed text when
`e.message` is empty, and loading is `false`. -/
theorem fetchData_failure_frame {α ν : Type} (Number : String → ν) (s : Home.State α)
    (pageArg : Option Nat) (e : JsError) :
    Home.fetchSettled (Except.error e) (Home.fetchData Number s s pageArg).1
      = { s with
          error := some (if e.message ≠ "" then e.message
            else "Something went wrong while fetching hotels."),
          loading := false } ∧
    (Home.fetchSettled (Except.error e) (Home.fetchData Number s s pageArg).1).pageData
      = s.pageData ∧
    (Home.fetchSettled (Except.error e) (Home.fetchData Number s s pageArg).1).page = s.page ∧
    (Home.fetchSettled (Except.error e) (Home.fetchData Number s s pageArg).1).loading
      = false :=
  ⟨rfl, rfl, rfl, rfl⟩

theorem getElem?_map_update {β : Type} (f : Home.HotelRow β → Home.HotelRow β)
    (rows : List (Home.HotelRow β)) (i : Nat) (row : Home.HotelRow β)
    (h : rows[i]? = some row) : (rows.map f)[i]? = some (f row) := by
  rw [List.getElem?_map, h]
  rfl

/-- C20: after a successful `fetchAmenities(id)` (respectively
`rateHotel(id, stars)`) the held content has the same length and the same row
ids in the same order, the row at every position is the old row, with its
`amenities` replaced by the fetched list (respectively its `rating` by the
returned average) when its id is `id`, and the page metadata is unchanged; no
alert is shown. -/
theorem row_update_frame {β : Type} (id : Nat) (value : JsVal)
    (s : Home.State (Home.HotelRow β)) :
    ((Home.fetchAmenities id (Except.ok value) s).1.pageData.content.length
        = s.pageData.content.length ∧
      (Home.fetchAmenities id (Except.ok value) s).1.pageData.content.map (fun h => h.id)
        = s.pageData.content.map (fun h => h.id) ∧
      (∀ (i : Nat) (row : Home.HotelRow β), s.pageData.content[i]? = some row →
        (Home.fetchAmenities id (Except.ok value) s).1.pageData.content[i]?
          = some (if row.id = id then { row with amenities := value } else row)) ∧
      (Home.fetchAmenities id (Except.ok value) s).1.pageData.number = s.pageData.number ∧
      (Home.fetchAmenities id (Except.ok value) s).1.pageData.size = s.pageData.size ∧
      (Home.fetchAmenities id (Except.ok value) s).1.pageData.totalElements
        = s.pageData.totalElements ∧
      (Home.fetchAmenities id (Except.ok value) s).1.pageData.totalPages
        = s.pageData.totalPages ∧
      (Home.fetchAmenities id (Except.ok value) s).2 = none) ∧
    ((Home.rateHotel id (Except.ok value) s).1.pageData.content.length
        = s.pageData.content.length ∧
      (Home.rateHotel id (Except.ok value) s).1.pageData.content.map (fun h => h.id)
        = s.pageData.content.map (fun h => h.id) ∧
      (∀ (i : Nat) (row : Home.HotelRow β), s.pageData.content[i]? = some row →
        (Home.rateHotel id (Except.ok value) s).1.pageData.content[i]?
          = some (if row.id = id then { row with rating := value } else row)) ∧
      (Home.rateHotel id (Except.ok value) s).1.pageData.number = s.pageData.number ∧
      (Home.rateHotel id (Except.ok value) s).1.pageData.size = s.pageData.size ∧
      (Home.rateHotel id (Except.ok value) s).1.pageData.totalElements
        = s.pageData.totalElements ∧
      (Home.rateHotel id (Except.ok value) s).1.pageData.totalPages
        = s.pageData.totalPages ∧
      (Home.rateHotel id (Except.ok value) s).2 = none) := by
  refine ⟨⟨?_, ?_, ?_, rfl, rfl, rfl, rfl, rfl⟩, ⟨?_, ?_, ?_, rfl, rfl, rfl, rfl, rfl⟩⟩
  · simp [Home.fetchAmenities]
  · simp only [Home.fetchAmenities, List.map_map]
    apply List.map_congr_left
    intro h _
    simp only [Function.comp_apply]
    split <;> rfl
  · intro i row hrow
    exact getElem?_map_update _ _ i row hrow
  · simp [Home.rateHotel]
  · simp only [Home.rateHotel, List.map_map]
    apply List.map_congr_left
    intro h _
    simp only [Function.comp_apply]
    split <;> rfl
  · intro i row hrow
    exact getElem?_map_update _ _ i row hrow

/-- C20 on a held page with the rows 1 and 2: after fetching the amenities of
hotel 2, row 0 is as before and row 1 carries the fetched list. -/
theorem row_update_frame_witness :
    ((Home.fetchAmenities 2 (Except.ok (JsVal.arr [JsVal.str "wifi"]))
        Home.twoRowState).1.pageData.content)[0]?
      = some { id := 1, amenities := JsVal.undefined, rating := JsVal.num 4 0,
               rest := "Sea House" } ∧
    ((Home.fetchAmenities 2 (Except.ok (JsVal.arr [JsVal.str "wifi"]))
        Home.twoRowState).1.pageData.content)[1]?
      = some { id := 2, amenities := JsVal.arr [JsVal.str "wifi"], rating := JsVal.null,
               rest := "Hill House" } :=
  ⟨(row_update_frame 2 (JsVal.arr [JsVal.str "wifi"]) Home.twoRowState).1.2.2.1 0 _ rfl,
   (row_update_frame 2 (JsVal.arr [JsVal.str "wifi"]) Home.twoRowState).1.2.2.1 1 _ rfl⟩

/-! ### Claims C21 to C30 -/

theorem mem_toJsonOrThrowCopies (f : Response → String → Except JsError JsVal)
    (hf : f ∈ toJsonOrThrowCopies) :
    f = HotelApi.toJsonOrThrow ∨ f = TravelPackagesApi.toJsonOrThrow ∨
      f = PaymentsApi.toJsonOrThrow := by
  simpa [toJsonOrThrowCopies] using hf

/-- C24: on a response whose status `s` is outside 200-299 and is neither 401
nor 403, with body text `t` (the empty text when the body cannot be read) and
default message `d`, each copy of `toJsonOrThrow` fails, and the message of the
error is `d (s)` when `t` is empty and `d (s): t` otherwise, `s` in decimal. -/
theorem toJsonOrThrow_request_failed (s : Nat) (body : Except JsError String) (d : String)
    (hs : ¬ (200 ≤ s ∧ s ≤ 299)) (h401 : s ≠ 401) (h403 : s ≠ 403) :
    ∀ f ∈ toJsonOrThrowCopies,
      (bodyText body = "" →
        f ⟨s, body⟩ d = Except.error (mkError (d ++ " (" ++ numberToString s ++ ")"))) ∧
      (bodyText body ≠ "" →
        f ⟨s, body⟩ d
          = Except.error (mkError (d ++ " (" ++ numberToString s ++ "): " ++ bodyText body))) := by
  intro f hf
  have hassoc : ∀ a t : String, a ++ ")" ++ (": " ++ t) = a ++ "): " ++ t := by
    intro a t
    have h : (")" : String) ++ ": " = "): " := by decide
    rw [← String.append_assoc, String.append_assoc a ")" ": ", h]
  rcases mem_toJsonOrThrowCopies f hf with rfl | rfl | rfl <;>
  · constructor
    · intro ht
      cases body with
      | error e =>
        simp [HotelApi.toJsonOrThrow, TravelPackagesApi.toJsonOrThrow, PaymentsApi.toJsonOrThrow,
          Response.ok, hs, h401, h403]
      | ok t =>
        have ht' : t = "" := ht
        subst ht'
        simp [HotelApi.toJsonOrThrow, TravelPackagesApi.toJsonOrThrow, PaymentsApi.toJsonOrThrow,
          Response.ok, hs, h401, h403]
    · intro ht
      cases body with
      | error e => exact absurd rfl ht
      | ok t =>
        have ht' : t ≠ "" := ht
        simp [HotelApi.toJsonOrThrow, TravelPackagesApi.toJsonOrThrow, PaymentsApi.toJsonOrThrow,
          Response.ok, hs, h401, h403, ht', bodyText, hassoc]

/-- C24 at status 500, with the body `boom` and with an empty body. -/
theorem toJsonOrThrow_request_failed_witness :
    TravelPackagesApi.toJsonOrThrow ⟨500, Except.ok "boom"⟩ "Failed to load packages"
      = Except.error (mkError "Failed to load packages (500): boom") ∧
    HotelApi.toJsonOrThrow ⟨500, Except.ok ""⟩ "Failed to load packages"
      = Except.error (mkError "Failed to load packages (500)") :=
  ⟨((toJsonOrThrow_request_failed 500 (Except.ok "boom") "Failed to load packages"
      (by decide) (by decide) (by decide) TravelPackagesApi.toJsonOrThrow
      (by simp [toJsonOrThrowCopies])).2 (by decide)).trans (by rfl),
   ((toJsonOrThrow_request_failed 500 (Except.ok "") "Failed to load packages"
      (by decide) (by decide) (by decide) HotelApi.toJsonOrThrow
      (by simp [toJsonOrThrowCopies])).1 (by decide)).trans (by rfl)⟩

theorem jsonParse_empty : ∀ v, JSON.parse "" ≠ Except.ok v := by
  intro v h
  have h2 : JSON.parse "" = Except.error (JsError.mk "SyntaxError" "Unexpected token in JSON") := by
    rfl
  rw [h2] at h
  exact absurd h (by simp)

/-- C25: on a response with a status in 200-299 (204 included), each copy of
`toJsonOrThrow` returns a value and never fails: `null` when the body text is
empty (also when the body cannot be read), the value `JSON.parse` gives when
the text is valid JSON, and the text itself when it is not empty and not valid
JSON. -/
theorem toJsonOrThrow_success (s : Nat) (body : Except JsError String) (d : String)
    (hs : 200 ≤ s ∧ s ≤ 299) :
    ∀ f ∈ toJsonOrThrowCopies,
      (∃ v, f ⟨s, body⟩ d = Except.ok v) ∧
      (bodyText body = "" → f ⟨s, body⟩ d = Except.ok JsVal.null) ∧
      (∀ v, JSON.parse (bodyText body) = Except.ok v → f ⟨s, body⟩ d = Except.ok v) ∧
      (bodyText body ≠ "" → (∀ v, JSON.parse (bodyText body) ≠ Except.ok v) →
        f ⟨s, body⟩ d = Except.ok (JsVal.str (bodyText body))) := by
  intro f hf
  have key : f ⟨s, body⟩ d =
      match (if bodyText body ≠ "" then JSON.parse (bodyText body) else Except.ok JsVal.null) with
      | Except.ok v => Except.ok v
      | Except.error _ =>
        Except.ok (if bodyText body ≠ "" then JsVal.str (bodyText body) else JsVal.null) := by
    rcases mem_toJsonOrThrowCopies f hf with rfl | rfl | rfl <;>
      simp [HotelApi.toJsonOrThrow, TravelPackagesApi.toJsonOrThrow, PaymentsApi.toJsonOrThrow,
        Response.ok, hs, bodyText]
  by_cases ht : bodyText body = ""
  · have hnull : f ⟨s, body⟩ d = Except.ok JsVal.null := by rw [key]; simp [ht]
    refine ⟨⟨_, hnull⟩, fun _ => hnull, fun v hv => ?_, fun h => absurd ht h⟩
    rw [ht] at hv
    exact absurd hv (jsonParse_empty v)
  · cases hp : JSON.parse (bodyText body) with
    | ok v =>
      have hv : f ⟨s, body⟩ d = Except.ok v := by rw [key]; simp [ht, hp]
      refine ⟨⟨_, hv⟩, fun h => absurd h ht, fun w hw => ?_, fun _ h => absurd rfl (h v)⟩
      cases hw
      exact hv
    | error e =>
      have hv : f ⟨s, body⟩ d = Except.ok (JsVal.str (bodyText body)) := by
        rw [key]; simp [ht, hp]
      exact ⟨⟨_, hv⟩, fun h => absurd h ht, fun w hw => (by cases hw), fun _ _ => hv⟩

/-- C25 at status 204 with an empty body, at status 200 with the JSON text
`[true]`, and at status 200 with the text `created`, which is not JSON. -/
theorem toJsonOrThrow_success_witness :
    PaymentsApi.toJsonOrThrow ⟨204, Except.ok ""⟩ "Failed" = Except.ok JsVal.null ∧
    TravelPackagesApi.toJsonOrThrow ⟨200, Except.ok "[true]"⟩ "Failed"
      = Except.ok (JsVal.arr [JsVal.bool true]) ∧
    TravelPackagesApi.toJsonOrThrow ⟨200, Except.ok "created"⟩ "Failed"
      = Except.ok (JsVal.str "created") :=
  ⟨(toJsonOrThrow_success 204 (Except.ok "") "Failed" (by decide) PaymentsApi.toJsonOrThrow
      (by simp [toJsonOrThrowCopies])).2.1 rfl,
   (toJsonOrThrow_success 200 (Except.ok "[true]") "Failed" (by decide)
      TravelPackagesApi.toJsonOrThrow (by simp [toJsonOrThrowCopies])).2.2.1 _ (by rfl),
   by rfl⟩

theorem stringToNumber_of_literal (text : String) (l : NumericLiteral)
    (h : stringNumericLiteral text = some l) : stringToNumber text = l.value := by
  simp [stringToNumber, h]

theorem decimal_value_nonneg (m : Nat) (e : Int) :
    (NumericLiteral.decimal false m e).value = JsNumber.finite ((m : ℚ) * (10 : ℚ) ^ e) := by
  simp [NumericLiteral.value]

theorem lt_zero_decimal (m : Nat) (e : Int) :
    (JsNumber.finite 0).lt (NumericLiteral.decimal false m e).value = decide (0 < m) := by
  have h10 : (0 : ℚ) < (10 : ℚ) ^ e := zpow_pos (by norm_num) e
  rw [decimal_value_nonneg]
  simp only [JsNumber.lt]
  by_cases hm : 0 < m
  · have : (0 : ℚ) < (m : ℚ) * (10 : ℚ) ^ e := mul_pos (by exact_mod_cast hm) h10
    simp [hm, this]
  · have hm0 : m = 0 := by omega
    subst hm0
    simp

theorem le_zero_decimal (m : Nat) (e : Int) :
    (JsNumber.finite 0).le (NumericLiteral.decimal false m e).value = true := by
  have h10 : (0 : ℚ) < (10 : ℚ) ^ e := zpow_pos (by norm_num) e
  rw [decimal_value_nonneg]
  simp only [JsNumber.le, decide_eq_true_eq]
  positivity

/-- C21 (counterexample): the draft with title and destination `Goa`, both
photos chosen, and the text `0` in the duration and in the price field can be
submitted, although `Number('0')` is 0: neither `Number(durationDays) ≥ 1` nor
`Number(price) > 0` holds, and `handleCreate` sends the duration 0 and the
price 0. -/
theorem canSubmitCreate_accepts_zero_duration_and_price :
    AddTravelPackages.canSubmitCreate AddTravelPackages.zeroDraft = true ∧
    (JsNumber.finite 1).le (stringToNumber AddTravelPackages.zeroDraft.durationDays) = false ∧
    (JsNumber.finite 0).lt (stringToNumber AddTravelPackages.zeroDraft.price) = false ∧
    (AddTravelPackages.handleCreate AddTravelPackages.zeroDraft).map
        (fun dto => (dto.durationDays, dto.price))
      = some (JsNumber.finite 0, JsNumber.finite 0) := by
  have h0 : stringToNumber "0" = JsNumber.finite 0 := by
    rw [stringToNumber_of_literal "0" (NumericLiteral.decimal false 0 0) (by decide)]
    simp [NumericLiteral.value]
  have hc : AddTravelPackages.canSubmitCreate AddTravelPackages.zeroDraft = true := by decide
  refine ⟨hc, ?_, ?_, ?_⟩
  · show (JsNumber.finite 1).le (stringToNumber "0") = false
    rw [h0]; simp [JsNumber.le]
  · show (JsNumber.finite 0).lt (stringToNumber "0") = false
    rw [h0]; simp [JsNumber.lt]
  · simp only [AddTravelPackages.handleCreate, hc, Bool.not_true, Bool.false_eq_true, if_false,
      Option.map_some']
    show some (stringToNumber "0", stringToNumber "0") = _
    rw [h0]

/-- What `canSubmitCreate` of the travel-package page tests: the title and the
destination are not empty after trimming, the duration and the price field are
not empty, and both photo slots are filled. -/
theorem canSubmitCreate_iff (form : AddTravelPackages.CreateForm) :
    AddTravelPackages.canSubmitCreate form = true ↔
      jsTrim form.title ≠ "" ∧ jsTrim form.destination ≠ "" ∧
      form.durationDays ≠ "" ∧ form.price ≠ "" ∧
      form.photo1File.isSome = true ∧ form.photo2File.isSome = true := by
  unfold AddTravelPackages.canSubmitCreate
  cases h1 : form.photo1File <;> cases h2 : form.photo2File <;>
    by_cases ha : jsTrim form.title = "" <;> by_cases hb : jsTrim form.destination = "" <;>
    by_cases hc : form.durationDays = "" <;> by_cases hd : form.price = "" <;>
    simp [ha, hb, hc, hd]

/-- C21 (amended): if `canSubmitCreate` holds for a travel-package draft, then
the title and the destination are not empty after trimming, the duration and
the price field are not empty texts, and both photo slots are filled. -/
theorem canSubmitCreate_requires (form : AddTravelPackages.CreateForm)
    (h : AddTravelPackages.canSubmitCreate form = true) :
    jsTrim form.title ≠ "" ∧ jsTrim form.destination ≠ "" ∧
    form.durationDays ≠ "" ∧ form.price ≠ "" ∧
    form.photo1File.isSome = true ∧ form.photo2File.isSome = true :=
  (canSubmitCreate_iff form).1 h

/-- C21 (amended) on a complete draft of three days at 8999. -/
theorem canSubmitCreate_requires_witness :
    AddTravelPackages.canSubmitCreate AddTravelPackages.goaDraft = true ∧
    jsTrim AddTravelPackages.goaDraft.title ≠ "" ∧
    jsTrim AddTravelPackages.goaDraft.destination ≠ "" ∧
    AddTravelPackages.goaDraft.durationDays ≠ "" ∧ AddTravelPackages.goaDraft.price ≠ "" ∧
    AddTravelPackages.goaDraft.photo1File.isSome = true ∧
    AddTravelPackages.goaDraft.photo2File.isSome = true :=
  ⟨by decide, canSubmitCreate_requires AddTravelPackages.goaDraft (by decide)⟩

/-- C22 (the code differs): the room draft `Deluxe`, capacity `2`, price `4999`
with an empty inventory field is accepted by `canSubmitRoom`, because
`Number('')` is 0 and `0 >= 0`; an empty capacity or price field is rejected,
since `0 > 0` fails. -/
theorem canSubmitRoom_accepts_empty_inventory :
    AddHotelPackage.canSubmitRoom AddHotelPackage.emptyInventoryDraft = true ∧
    stringToNumber AddHotelPackage.emptyInventoryDraft.inventory = JsNumber.finite 0 ∧
    (∀ form : AddHotelPackage.RoomForm, form.capacity = "" ∨ form.price = "" →
      AddHotelPackage.canSubmitRoom form = false) := by
  have he : stringToNumber "" = (NumericLiteral.decimal false 0 0).value :=
    stringToNumber_of_literal "" _ (by decide)
  have h2 : stringToNumber "2" = (NumericLiteral.decimal false 2 0).value :=
    stringToNumber_of_literal "2" _ (by decide)
  have h4999 : stringToNumber "4999" = (NumericLiteral.decimal false 4999 0).value :=
    stringToNumber_of_literal "4999" _ (by decide)
  have ht : jsTrim "Deluxe" ≠ "" := by decide
  refine ⟨?_, ?_, ?_⟩
  · show (decide (jsTrim "Deluxe" ≠ "") && !(stringToNumber "2").isNaN &&
        (JsNumber.finite 0).lt (stringToNumber "2") && !(stringToNumber "4999").isNaN &&
        (JsNumber.finite 0).lt (stringToNumber "4999") && !(stringToNumber "").isNaN &&
        (JsNumber.finite 0).le (stringToNumber "")) = true
    rw [he, h2, h4999, lt_zero_decimal, lt_zero_decimal, le_zero_decimal]
    simp [ht, NumericLiteral.value, JsNumber.isNaN]
  · show stringToNumber "" = _
    rw [he]; simp [NumericLiteral.value]
  · intro form h
    rcases h with h | h
    · simp [AddHotelPackage.canSubmitRoom, h, he, lt_zero_decimal]
    · simp [AddHotelPackage.canSubmitRoom, h, he, lt_zero_decimal]

theorem canSubmitRoom_of_literals (form : AddHotelPackage.RoomForm) (c p i : Nat)
    (ec ep ei : Int)
    (hc : stringNumericLiteral form.capacity = some (NumericLiteral.decimal false c ec))
    (hp : stringNumericLiteral form.price = some (NumericLiteral.decimal false p ep))
    (hi : stringNumericLiteral form.inventory = some (NumericLiteral.decimal false i ei)) :
    AddHotelPackage.canSubmitRoom form
      = (decide (jsTrim form.type ≠ "") && decide (0 < c) && decide (0 < p)) := by
  simp only [AddHotelPackage.canSubmitRoom, stringToNumber_of_literal _ _ hc,
    stringToNumber_of_literal _ _ hp, stringToNumber_of_literal _ _ hi, lt_zero_decimal,
    le_zero_decimal]
  simp [NumericLiteral.value, JsNumber.isNaN]

/-- C23 (the code differs): with the rooms manager of hotel 7 on page 2, a
successful `createRoom` for a complete draft resets the room form but refetches
page 2, the held page, not page 0; in general its refetch asks for the held
page number.  The two sibling flows do refetch page 0: a successful
`handleCreate` of the hotel page and of the travel-package page resets the
draft to its initial values and asks for page 0, whatever page is held. -/
theorem createRoom_refetches_held_page :
    AddHotelPackage.createRoom AddHotelPackage.thirdPageState
        ⟨AddHotelPackage.deluxeDraft, none, false⟩ (Except.ok ())
      = (⟨AddHotelPackage.emptyRoomForm, none, false⟩,
         some { hotelId := 7, type := "", page := 2, size := 10, sortBy := "updatedAt",
                sortDir := "desc" }) ∧
    (∀ (ρ : Type) (s : AddHotelPackage.RoomsState ρ) (st : AddHotelPackage.RoomFormState)
        (args : AddHotelPackage.ListRoomsArgs),
      (AddHotelPackage.createRoom s st (Except.ok ())).2 = some args →
        args.page = s.roomsPage.number) ∧
    (∀ (α : Type) (s : AddHotelPackage.MineState α) (st : AddHotelPackage.CreateState),
      AddHotelPackage.canSubmitCreate st.form = true →
        (AddHotelPackage.handleCreateSettled s st (Except.ok ())).1.form
          = AddHotelPackage.emptyCreateForm ∧
        ((AddHotelPackage.handleCreateSettled s st (Except.ok ())).2.map fun a => a.page)
          = some 0) ∧
    (∀ (α : Type) (pageData : Option (LoosePage α)) (st : AddTravelPackages.CreateState),
      AddTravelPackages.canSubmitCreate st.form = true →
        (AddTravelPackages.handleCreateSettled pageData st (Except.ok ())).1.form
          = AddTravelPackages.emptyCreateForm ∧
        ((AddTravelPackages.handleCreateSettled pageData st (Except.ok ())).2.map
            fun a => a.page) = some 0) := by
  have hsub : AddHotelPackage.canSubmitRoom AddHotelPackage.deluxeDraft = true := by
    rw [canSubmitRoom_of_literals AddHotelPackage.deluxeDraft 2 4999 10 0 0 0
      (by decide) (by decide) (by decide)]
    decide
  refine ⟨?_, ?_, ?_, ?_⟩
  · simp only [AddHotelPackage.createRoom, hsub]
    decide
  · intro ρ s st args h
    simp only [AddHotelPackage.createRoom] at h
    split_ifs at h with h1
    simp only [AddHotelPackage.loadRooms] at h
    split_ifs at h with h2
    simp only [Option.some.injEq] at h
    rw [← h]
  · intro α s st h
    simp [AddHotelPackage.handleCreateSettled, h, AddHotelPackage.fetchMine]
  · intro α pageData st h
    simp [AddTravelPackages.handleCreateSettled, h, AddTravelPackages.fetchMine]

theorem digitVal_digitChar (n : Nat) : digitVal (digitChar n) = some (n % 10) := by
  have h : ∀ k, k < 10 → digitVal (Char.ofNat (48 + k)) = some k := by decide
  exact h (n % 10) (Nat.mod_lt n (by decide))

theorem twoDigits_digitChar (a b : Nat) :
    twoDigits (digitChar a) (digitChar b) = some (10 * (a % 10) + b % 10) := by
  simp [twoDigits, digitVal_digitChar]

theorem isoDateOnly_text (c : CivilDate) (hv : c.Valid) (hy : c.year ≤ 9999) :
    isoDateOnly c.text.data = some ((c.year : Int), c.month, c.day) := by
  obtain ⟨h1, h2, h3, h4⟩ := hv
  have hd31 : daysInMonth c.year c.month ≤ 31 := by
    unfold daysInMonth; split_ifs <;> omega
  have ey : 100 * (10 * (c.year / 1000 % 10) + c.year / 100 % 10) +
      (10 * (c.year / 10 % 10) + c.year % 10) = c.year := by omega
  have em : 10 * (c.month / 10 % 10) + c.month % 10 = c.month := by omega
  have ed : 10 * (c.day / 10 % 10) + c.day % 10 = c.day := by omega
  simp only [CivilDate.text, isoDateOnly, twoDigits_digitChar, ey, em, ed]
  have h45 : (Char.ofNat 45).toNat = 45 := by decide
  simp [h45, h1, h2, h3, h4]

theorem dayFromYear_succ (y : Int) :
    dayFromYear (y + 1) = dayFromYear y + 365 + (if isLeapYear y then 1 else 0) := by
  unfold dayFromYear isLeapYear
  by_cases h4 : y % 4 = 0 <;> by_cases h100 : y % 100 = 0 <;> by_cases h400 : y % 400 = 0 <;>
    simp [h4, h100, h400] <;> omega

theorem next_valid (c : CivilDate) (hv : c.Valid) : c.next.Valid := by
  obtain ⟨h1, h2, h3, h4⟩ := hv
  unfold CivilDate.next
  split_ifs with ha hb
  · exact ⟨h1, h2, by simp, by simpa using ha⟩
  · refine ⟨by simp, by simp; omega, by simp, ?_⟩
    simp only [daysInMonth]; split_ifs <;> omega
  · refine ⟨by simp, by simp, by simp, ?_⟩
    simp [daysInMonth]

theorem makeDay_next (c : CivilDate) (hv : c.Valid) :
    makeDay (c.next.year : Int) c.next.month c.next.day = makeDay c.year c.month c.day + 1 := by
  obtain ⟨h1, h2, h3, h4⟩ := hv
  unfold CivilDate.next
  split_ifs with ha hb
  · simp only [makeDay]; push_cast; omega
  · have hday : c.day = daysInMonth c.year c.month := by omega
    simp only [makeDay]
    rw [hday]
    have hm : c.month = 1 ∨ c.month = 2 ∨ c.month = 3 ∨ c.month = 4 ∨ c.month = 5 ∨
        c.month = 6 ∨ c.month = 7 ∨ c.month = 8 ∨ c.month = 9 ∨ c.month = 10 ∨ c.month = 11 := by
      omega
    rcases hm with h | h | h | h | h | h | h | h | h | h | h <;>
      cases hl : isLeapYear (c.year : Int) <;>
      simp [h, hl, daysBeforeMonth, daysInMonth] <;> omega
  · have hm : c.month = 12 := by omega
    have hday : c.day = 31 := by
      have : daysInMonth c.year c.month = 31 := by simp [daysInMonth, hm]
      omega
    simp only [makeDay, hm, hday]
    have hs := dayFromYear_succ (c.year : Int)
    push_cast
    rw [hs]
    cases hl : isLeapYear (c.year : Int) <;> cases hl2 : isLeapYear ((c.year : Int) + 1) <;>
      simp [hl, hl2, daysBeforeMonth] <;> omega
theorem iterate_next_valid (c : CivilDate) (hv : c.Valid) (n : Nat) :
    (CivilDate.next^[n] c).Valid := by
  induction n with
  | zero => exact hv
  | succ k ih =>
    rw [Function.iterate_succ_apply']
    exact next_valid _ ih

theorem year_le_iterate_next (c : CivilDate) (n : Nat) : c.year ≤ (CivilDate.next^[n] c).year := by
  induction n with
  | zero => exact Nat.le_refl _
  | succ k ih =>
    rw [Function.iterate_succ_apply']
    refine Nat.le_trans ih ?_
    unfold CivilDate.next
    split_ifs <;> simp

theorem makeDay_iterate_next (c : CivilDate) (hv : c.Valid) (n : Nat) :
    makeDay ((CivilDate.next^[n] c).year : Int) (CivilDate.next^[n] c).month
        (CivilDate.next^[n] c).day
      = makeDay c.year c.month c.day + n := by
  induction n with
  | zero => simp
  | succ k ih =>
    rw [Function.iterate_succ_apply', makeDay_next _ (iterate_next_valid c hv k), ih]
    push_cast
    ring

theorem text_ne_empty (c : CivilDate) : c.text ≠ "" := by
  intro h
  have hl := congrArg String.length h
  simp [CivilDate.text] at hl

theorem parse_text (otherFormats : String → Option Int) (c : CivilDate) (hv : c.Valid)
    (hy : c.year ≤ 9999) :
    Date.parse otherFormats c.text = some (makeDay c.year c.month c.day * 86400000) := by
  simp [Date.parse, isoDateOnly_text c hv hy]

theorem diffNights_of_parse (otherFormats : String → Option Int) (checkIn checkOut : String)
    (i o : Int) (h1 : checkIn ≠ "") (h2 : checkOut ≠ "")
    (hi : Date.parse otherFormats checkIn = some i)
    (ho : Date.parse otherFormats checkOut = some o) :
    HotelDetails.diffNights otherFormats checkIn checkOut
      = if ⌈((o - i : Int) : ℚ) / (1000 * 60 * 60 * 24)⌉ > 0
        then ⌈((o - i : Int) : ℚ) / (1000 * 60 * 60 * 24)⌉ else 1 := by
  simp only [HotelDetails.diffNights, h1, h2, or_self, if_false, hi, ho]

/-- C29: `diffNights` returns an integer that is at least 1 on all texts (it is
a total function: nothing is thrown); it returns 1 when a text is empty, when a
date is invalid, and when the check-out time is not after the check-in time;
and for a day `c` of the calendar and the day `n ≥ 1` days later, both given
as `YYYY-MM-DD` with a year up to 9999, it returns `n`. -/
theorem diffNights_spec (otherFormats : String → Option Int) :
    (∀ checkIn checkOut : String, 1 ≤ HotelDetails.diffNights otherFormats checkIn checkOut) ∧
    (∀ checkIn checkOut : String,
      checkIn = "" ∨ checkOut = "" ∨ Date.parse otherFormats checkIn = none ∨
          Date.parse otherFormats checkOut = none →
        HotelDetails.diffNights otherFormats checkIn checkOut = 1) ∧
    (∀ (checkIn checkOut : String) (i o : Int),
      Date.parse otherFormats checkIn = some i → Date.parse otherFormats checkOut = some o →
        o ≤ i → HotelDetails.diffNights otherFormats checkIn checkOut = 1) ∧
    (∀ (c : CivilDate) (n : Nat), c.Valid → 1 ≤ n → (CivilDate.next^[n] c).year ≤ 9999 →
      HotelDetails.diffNights otherFormats c.text (CivilDate.next^[n] c).text = n) := by
  refine ⟨?_, ?_, ?_, ?_⟩
  · intro checkIn checkOut
    unfold HotelDetails.diffNights
    split_ifs
    · exact le_refl _
    · split
      · simp only
        split_ifs with h
        · omega
        · exact le_refl _
      · exact le_refl _
  · intro checkIn checkOut h
    unfold HotelDetails.diffNights
    split_ifs with h0
    · rfl
    · have h3 : Date.parse otherFormats checkIn = none ∨
          Date.parse otherFormats checkOut = none := by tauto
      rcases h3 with h3 | h3
      · rw [h3]
      · rw [h3]
        cases Date.parse otherFormats checkIn <;> rfl
  · intro checkIn checkOut i o hi ho hle
    unfold HotelDetails.diffNights
    split_ifs with h0
    · rfl
    · rw [hi, ho]
      have hc : ⌈((o - i : Int) : ℚ) / (1000 * 60 * 60 * 24)⌉ ≤ 0 := by
        rw [Int.ceil_le]
        have : ((o - i : Int) : ℚ) ≤ 0 := by exact_mod_cast (by omega : o - i ≤ 0)
        exact div_nonpos_of_nonpos_of_nonneg (by simpa using this) (by norm_num)
      simp only
      rw [if_neg (by omega)]
  · intro c n hv hn hy
    have hyc : c.year ≤ 9999 := Nat.le_trans (year_le_iterate_next c n) hy
    rw [diffNights_of_parse otherFormats _ _ _ _ (text_ne_empty _) (text_ne_empty _)
      (parse_text otherFormats c hv hyc)
      (parse_text otherFormats _ (iterate_next_valid c hv n) hy),
      makeDay_iterate_next c hv n]
    have hq : (((makeDay c.year c.month c.day + n) * 86400000
        - makeDay c.year c.month c.day * 86400000 : Int) : ℚ) / (1000 * 60 * 60 * 24)
        = ((n : Int) : ℚ) := by
      push_cast
      field_simp
      ring
    rw [hq, Int.ceil_intCast]
    rw [if_pos (by omega)]

/-- C29 on a stay from 28 February to 2 March 2024 (three nights, across the
leap day), on the same two dates swapped, on an empty check-in text and on a
check-in text that is no date. -/
theorem diffNights_spec_witness :
    HotelDetails.diffNights (fun _ => none) "2024-02-28" "2024-03-02" = 3 ∧
    HotelDetails.diffNights (fun _ => none) "2024-03-02" "2024-02-28" = 1 ∧
    HotelDetails.diffNights (fun _ => none) "" "2024-02-28" = 1 ∧
    HotelDetails.diffNights (fun _ => none) "next week" "2024-02-28" = 1 :=
  ⟨(diffNights_spec (fun _ => none)).2.2.2 ⟨2024, 2, 28⟩ 3
      (by simp [CivilDate.Valid, daysInMonth, isLeapYear]) (by decide) (by decide),
   (diffNights_spec (fun _ => none)).2.2.1 "2024-03-02" "2024-02-28" 1709337600000
      1709078400000 (by decide) (by decide) (by decide),
   (diffNights_spec (fun _ => none)).2.1 "" "2024-02-28" (Or.inl rfl),
   (diffNights_spec (fun _ => none)).2.1 "next week" "2024-02-28"
      (Or.inr (Or.inr (Or.inl (by decide))))⟩

theorem jsNumber_lt_irrefl (a : JsNumber) : a.lt a = false := by
  cases a <;> simp [JsNumber.lt]

theorem jsNumber_lt_trans (a b c : JsNumber) (h1 : a.lt b = true) (h2 : b.lt c = true) :
    a.lt c = true := by
  cases a <;> cases b <;> cases c <;> simp_all [JsNumber.lt]
  exact lt_trans h1 h2

theorem jsNumber_lt_of_lt_of_le (a b c : JsNumber) (h1 : a.lt b = true) (h2 : b.le c = true) :
    a.lt c = true := by
  cases a <;> cases b <;> cases c <;> simp_all [JsNumber.lt, JsNumber.le]
  exact lt_of_lt_of_le h1 h2

theorem jsNumber_le_of_lt (a b : JsNumber) (h : a.lt b = true) : a.le b = true := by
  cases a <;> cases b <;> simp_all [JsNumber.lt, JsNumber.le]
  exact le_of_lt h

theorem jsNumber_le_of_not_lt (a b : JsNumber) (ha : a.isNaN = false) (hb : b.isNaN = false)
    (h : b.lt a = false) : a.le b = true := by
  cases a <;> cases b <;> simp_all [JsNumber.lt, JsNumber.le, JsNumber.isNaN]

/-- The `reduce` of the auto-select effect keeps the earliest room of lowest
price: the result splits the rooms seen into those before it, all dearer, and
those after it, none cheaper. -/
theorem foldl_cheapest {β : Type} (l : List (HotelDetails.Room β)) (m : HotelDetails.Room β)
    (hnum : ∀ r ∈ m :: l, r.price.isNaN = false) :
    ∃ pre post,
      m :: l = pre ++ l.foldl (fun min r => if r.price.lt min.price then r else min) m :: post ∧
      (∀ x ∈ pre,
        (l.foldl (fun min r => if r.price.lt min.price then r else min) m).price.lt x.price
          = true) ∧
      (∀ x ∈ post,
        (l.foldl (fun min r => if r.price.lt min.price then r else min) m).price.le x.price
          = true) := by
  induction l using List.reverseRecOn with
  | nil => exact ⟨[], [], rfl, by simp, by simp⟩
  | append_singleton l x ih =>
    have hnum' : ∀ r ∈ m :: l, r.price.isNaN = false := by
      intro r hr
      apply hnum
      rcases List.mem_cons.1 hr with h | h
      · exact List.mem_cons.2 (Or.inl h)
      · exact List.mem_cons.2 (Or.inr (List.mem_append.2 (Or.inl h)))
    obtain ⟨pre, post, hsplit, hpre, hpost⟩ := ih hnum'
    rw [List.foldl_append]
    simp only [List.foldl_cons, List.foldl_nil]
    generalize hr : l.foldl (fun min r => if r.price.lt min.price then r else min) m = r at *
    have hrmem : r ∈ m :: l := by rw [hsplit]; simp
    have hxnum : x.price.isNaN = false :=
      hnum x (List.mem_cons.2 (Or.inr (List.mem_append.2 (Or.inr (List.mem_singleton.2 rfl)))))
    by_cases hlt : x.price.lt r.price = true
    · rw [if_pos hlt]
      refine ⟨m :: l, [], by simp, ?_, by simp⟩
      intro y hy
      rw [hsplit] at hy
      rcases List.mem_append.1 hy with h | h
      · exact jsNumber_lt_trans _ _ _ hlt (hpre y h)
      · rcases List.mem_cons.1 h with h | h
        · rw [h]; exact hlt
        · exact jsNumber_lt_of_lt_of_le _ _ _ hlt (hpost y h)
    · rw [if_neg hlt]
      refine ⟨pre, post ++ [x], ?_, hpre, ?_⟩
      · rw [← List.cons_append, hsplit]; simp
      · intro y hy
        rcases List.mem_append.1 hy with h | h
        · exact hpost y h
        · rw [List.mem_singleton.1 h]
          exact jsNumber_le_of_not_lt _ _ (hnum' r hrmem) hxnum (by simpa using hlt)

/-- C28: when no room is selected and the loaded list is not empty (the price
of every room with `inventory > 0` being a number, not `NaN`), the auto-select
effect sets the guest count to 1 and selects:
if no room has `inventory > 0`, the first room of the list; otherwise a room
with `inventory > 0` such that every room with `inventory > 0` before it in
the list is dearer and every one after it is not cheaper. -/
theorem autoSelect_cheapest_available {β : Type} (content : List (HotelDetails.Room β))
    (guests : Nat) (hne : content ≠ [])
    (hnum : ∀ r ∈ content, (JsNumber.finite 0).lt r.inventory = true → r.price.isNaN = false) :
    (HotelDetails.autoSelect none guests content).2 = 1 ∧
    (content.filter (fun r => (JsNumber.finite 0).lt r.inventory) = [] →
      ∃ first rest, content = first :: rest ∧
        (HotelDetails.autoSelect none guests content).1 = some first) ∧
    (content.filter (fun r => (JsNumber.finite 0).lt r.inventory) ≠ [] →
      ∃ pre r post,
        (HotelDetails.autoSelect none guests content).1 = some r ∧
        content.filter (fun r => (JsNumber.finite 0).lt r.inventory) = pre ++ r :: post ∧
        (JsNumber.finite 0).lt r.inventory = true ∧
        (∀ x ∈ pre, r.price.lt x.price = true) ∧
        (∀ x ∈ post, r.price.le x.price = true)) := by
  have hsel : HotelDetails.autoSelect none guests content
      = (HotelDetails.cheapestAvail content, 1) := by
    cases content with
    | nil => exact absurd rfl hne
    | cons a l => rfl
  rw [hsel]
  refine ⟨rfl, ?_, ?_⟩
  · intro hav
    cases content with
    | nil => exact absurd rfl hne
    | cons a l =>
      refine ⟨a, l, rfl, ?_⟩
      simp only [HotelDetails.cheapestAvail, hav, List.head?_cons]
  · intro hav
    cases hf : content.filter (fun r => (JsNumber.finite 0).lt r.inventory) with
    | nil => exact absurd hf hav
    | cons first rest =>
      have hnumAv : ∀ r ∈ first :: rest, r.price.isNaN = false := by
        intro r hr
        rw [← hf] at hr
        exact hnum r (List.mem_filter.1 hr).1 (List.mem_filter.1 hr).2
      obtain ⟨pre, post, hsplit, hpre, hpost⟩ := foldl_cheapest rest first hnumAv
      have hself : (if first.price.lt first.price then first else first) = first := by simp
      refine ⟨pre, _, post, ?_, hsplit, ?_, hpre, hpost⟩
      · simp only [HotelDetails.cheapestAvail, hf, List.foldl_cons, hself]
      · have hmem : rest.foldl (fun min r => if r.price.lt min.price then r else min) first
            ∈ content.filter (fun r => (JsNumber.finite 0).lt r.inventory) := by
          rw [hf, hsplit]; simp
        exact (List.mem_filter.1 hmem).2

/-- C28 on a list whose cheapest room is sold out and where two rooms in stock
tie at the lowest price: the earlier of the two, `Deluxe`, is selected. -/
theorem autoSelect_cheapest_available_witness :
    ((HotelDetails.autoSelect none 3 HotelDetails.sampleRooms).1.map fun r => r.rest)
      = some "Deluxe" ∧
    ∃ pre r post,
      (HotelDetails.autoSelect none 3 HotelDetails.sampleRooms).1 = some r ∧
      HotelDetails.sampleRooms.filter (fun r => (JsNumber.finite 0).lt r.inventory)
        = pre ++ r :: post ∧
      (JsNumber.finite 0).lt r.inventory = true ∧
      (∀ x ∈ pre, r.price.lt x.price = true) ∧
      (∀ x ∈ post, r.price.le x.price = true) :=
  ⟨by
      have h : ¬ ((9000 : ℚ) < 4000) := by norm_num
      simp [HotelDetails.autoSelect, HotelDetails.cheapestAvail, HotelDetails.sampleRooms,
        JsNumber.lt, List.filter, h],
   (autoSelect_cheapest_available HotelDetails.sampleRooms 3
      (by simp [HotelDetails.sampleRooms])
      (by simp [HotelDetails.sampleRooms, JsNumber.isNaN])).2.2
      (by simp [HotelDetails.sampleRooms, JsNumber.lt])⟩

theorem splitRuns_ne_nil (cs : List Char) (b : Bool) : splitRuns cs b ≠ [] := by
  induction cs generalizing b with
  | nil => simp [splitRuns]
  | cons c cs ih =>
    simp only [splitRuns]
    split_ifs
    · exact ih true
    · simp
    · split <;> simp

/-- Cutting a text that starts with a token: the token is glued to the first
segment of what follows. -/
theorem splitRuns_token_append (t tail : List Char)
    (ht : ∀ c ∈ t, isAmenityDelimiter c = false) :
    splitRuns (t ++ tail) false
      = (t ++ (splitRuns tail false).headD []) :: (splitRuns tail false).tail := by
  induction t with
  | nil =>
    simp only [List.nil_append]
    cases h : splitRuns tail false with
    | nil => exact absurd h (splitRuns_ne_nil _ _)
    | cons seg more => rfl
  | cons c t ih =>
    have hc : isAmenityDelimiter c = false := ht c (by simp)
    have ih' := ih (fun d hd => ht d (by simp [hd]))
    show splitRuns (c :: (t ++ tail)) false = _
    rw [splitRuns, if_neg (by simp [hc]), ih']
    rfl

theorem splitRuns_flag (c : Char) (cs : List Char) (b : Bool)
    (hc : isAmenityDelimiter c = false) : splitRuns (c :: cs) b = splitRuns (c :: cs) false := by
  simp only [splitRuns, hc, Bool.false_eq_true, if_false]

theorem joinWith_data_cons (x y : String) (rest : List String) :
    (joinWith ", " (x :: y :: rest)).data
      = x.data ++ (Char.ofNat 44 :: Char.ofNat 32 :: (joinWith ", " (y :: rest)).data) := by
  simp only [joinWith, String.data_append]
  rw [List.append_assoc]
  rfl

theorem joinWith_head (x : String) (rest : List String) (hx : x ≠ "") :
    ∃ c cs, (joinWith ", " (x :: rest)).data = c :: cs ∧ c ∈ x.data := by
  have hd : x.data ≠ [] := fun h => hx (String.ext h)
  obtain ⟨c, t, hct⟩ := List.exists_cons_of_ne_nil hd
  cases rest with
  | nil => exact ⟨c, t, by simp [joinWith, hct], by simp [hct]⟩
  | cons y rest =>
    refine ⟨c, t ++ (Char.ofNat 44 :: Char.ofNat 32 :: (joinWith ", " (y :: rest)).data), ?_,
      by simp [hct]⟩
    rw [joinWith_data_cons, hct]
    rfl

/-- Cutting the displayed text of a list of tokens gives the tokens back. -/
theorem splitRuns_joinWith (l : List String) (hl : l ≠ [])
    (htok : ∀ x ∈ l, x ≠ "" ∧ ∀ c ∈ x.data, isAmenityDelimiter c = false) (b : Bool) :
    splitRuns (joinWith ", " l).data b = l.map String.data := by
  induction l generalizing b with
  | nil => exact absurd rfl hl
  | cons x rest ih =>
    obtain ⟨hx, hxt⟩ := htok x (by simp)
    obtain ⟨c, cs, hcs, hcx⟩ := joinWith_head x rest hx
    rw [hcs, splitRuns_flag c cs b (hxt c hcx), ← hcs]
    cases rest with
    | nil =>
      have h := splitRuns_token_append x.data [] hxt
      simp only [List.append_nil] at h
      simp only [joinWith, h, splitRuns, List.headD_cons, List.tail_cons, List.append_nil,
        List.map_cons, List.map_nil]
    | cons y rest =>
      have hrest := ih (by simp) (fun z hz => htok z (by simp [hz])) true
      have h44 : isAmenityDelimiter (Char.ofNat 44) = true := by decide
      have h32 : isAmenityDelimiter (Char.ofNat 32) = true := by decide
      rw [joinWith_data_cons, splitRuns_token_append _ _ hxt]
      simp only [splitRuns, h44, h32, if_true, Bool.false_eq_true, if_false, hrest,
        List.headD_cons, List.tail_cons, List.append_nil, List.map_cons]

theorem splitRuns_segments (cs : List Char) (b : Bool) :
    ∀ seg ∈ splitRuns cs b, ∀ c ∈ seg, isAmenityDelimiter c = false := by
  induction cs generalizing b with
  | nil => simp [splitRuns]
  | cons d cs ih =>
    intro seg hseg c hc
    simp only [splitRuns] at hseg
    split_ifs at hseg with h1 h2
    · exact ih true seg hseg c hc
    · rcases List.mem_cons.1 hseg with h | h
      · subst h; simp at hc
      · exact ih true seg h c hc
    · cases hs : splitRuns cs false with
      | nil => exact absurd hs (splitRuns_ne_nil _ _)
      | cons s more =>
        rw [hs] at hseg
        rcases List.mem_cons.1 hseg with h | h
        · subst h
          rcases List.mem_cons.1 hc with h' | h'
          · rw [h']; simpa using h1
          · exact ih false s (by rw [hs]; simp) c h'
        · exact ih false seg (by rw [hs]; simp [h]) c hc

theorem not_whitespace_of_not_delimiter (c : Char) (h : isAmenityDelimiter c = false) :
    isJsWhitespace c = false := by
  simp only [isAmenityDelimiter, Bool.or_eq_false_iff] at h
  exact h.2

theorem jsTrim_singleToken (s : String) (h : ∀ c ∈ s.data, isAmenityDelimiter c = false) :
    jsTrim s = s := by
  apply jsTrim_of_noOuterWhitespace
  constructor
  · intro c hc
    exact not_whitespace_of_not_delimiter c (h c (List.mem_of_mem_head? hc))
  · intro c hc
    exact not_whitespace_of_not_delimiter c (h c (List.mem_of_mem_getLast? hc))

theorem trimAndFilter_tokens (l : List String)
    (htok : ∀ x ∈ l, x ≠ "" ∧ ∀ c ∈ x.data, isAmenityDelimiter c = false) :
    trimAndFilter l = l := by
  induction l with
  | nil => rfl
  | cons x rest ih =>
    obtain ⟨hx, hxt⟩ := htok x (by simp)
    have hr := ih (fun z hz => htok z (by simp [hz]))
    simp only [trimAndFilter, List.map_cons] at hr ⊢
    rw [jsTrim_singleToken x hxt, List.filter_cons_of_pos (by simpa using hx), hr]

theorem foldl_set_nodup (l acc : List String) (h : (acc ++ l).Nodup) :
    l.foldl (fun set x => if x ∈ set then set else set ++ [x]) acc = acc ++ l := by
  induction l generalizing acc with
  | nil => simp
  | cons x rest ih =>
    have hx : x ∉ acc := by
      intro hmem
      have := List.nodup_append.1 h
      exact this.2.2 hmem (by simp) 
    simp only [List.foldl_cons, hx, if_false]
    rw [ih (acc ++ [x]) (by simpa using h)]
    simp

theorem setToArray_nodup (l : List String) (h : l.Nodup) : setToArray l = l := by
  simpa [setToArray] using foldl_set_nodup l [] (by simpa using h)
theorem tokens_of_segments (cs : List Char) (b : Bool) :
    ∀ x ∈ setToArray (trimAndFilter ((splitRuns cs b).map String.mk)),
      x ≠ "" ∧ SingleToken x := by
  intro x hx
  have hmem := ((setToArray_firstOccurrences _).2.1 x).1 hx
  obtain ⟨hne, t, ht, htx⟩ := (mem_trimAndFilter _ x).1 hmem
  obtain ⟨seg, hseg, hmk⟩ := List.mem_map.1 ht
  have htok : ∀ c ∈ t.data, isAmenityDelimiter c = false := by
    rw [← hmk]
    exact splitRuns_segments cs b seg hseg
  rw [jsTrim_singleToken t htok] at htx
  exact ⟨hne, htx ▸ htok⟩

/-- Parsing the displayed text of a list of distinct tokens gives the list. -/
theorem updateEditAmenitiesInput_joinWith (l : List String) (hnd : l.Nodup)
    (htok : ∀ x ∈ l, x ≠ "" ∧ SingleToken x) :
    updateEditAmenitiesInput (amenitiesInputValue l) = l := by
  by_cases hl : l = []
  · subst hl
    rfl
  · have hmap : (l.map String.data).map String.mk = l := by
      rw [List.map_map]
      exact (List.map_congr_left (fun s _ => rfl)).trans (List.map_id l)
    simp only [updateEditAmenitiesInput, amenitiesInputValue,
      splitRuns_joinWith l hl htok false, hmap, trimAndFilter_tokens l htok,
      setToArray_nodup l hnd]

/-- C30 (counterexample): `normalizeAmenities` keeps the entry `swimming pool`
of an array of strings; the edit form shows the list `wifi`, `swimming pool`
as the text `wifi, swimming pool`, and `updateEditAmenitiesInput` parses that
text into the three entries `wifi`, `swimming`, `pool`. -/
theorem updateEditAmenitiesInput_splits_multi_word :
    normalizeAmenities exampleToString
        (JsVal.arr [JsVal.str "wifi", JsVal.str "swimming pool"])
      = Except.ok ["wifi", "swimming pool"] ∧
    amenitiesInputValue ["wifi", "swimming pool"] = "wifi, swimming pool" ∧
    updateEditAmenitiesInput (amenitiesInputValue ["wifi", "swimming pool"])
      = ["wifi", "swimming", "pool"] := by
  refine ⟨rfl, by decide, by decide⟩

/-- C30 (amended): for a raw amenities value of a supported shape,
`normalizeAmenities` returns a list `L`, and parsing the text the edit form
shows for `L` with `updateEditAmenitiesInput` gives `L` again exactly when no
entry of `L` contains a comma, a semicolon or white space; for a raw value that
is a delimited string this is always so. -/
theorem amenities_round_trip (toStringMethod : JsVal → Except JsError String)
    (hstr : ∀ s, toStringMethod (JsVal.str s) = Except.ok s) (raw : JsVal)
    (texts : List String) (h : SupportedShape raw texts) :
    ∃ result : List String,
      normalizeAmenities toStringMethod raw = Except.ok result ∧
      (updateEditAmenitiesInput (amenitiesInputValue result) = result ↔
        ∀ x ∈ result, SingleToken x) ∧
      ((∃ s, raw = JsVal.str s) →
        updateEditAmenitiesInput (amenitiesInputValue result) = result) := by
  have hnd : (setToArray (trimAndFilter texts)).Nodup :=
    (setToArray_firstOccurrences (trimAndFilter texts)).1
  have hne : ∀ x ∈ setToArray (trimAndFilter texts), x ≠ "" := by
    intro x hx
    have hmem := ((setToArray_firstOccurrences (trimAndFilter texts)).2.1 x).1 hx
    exact ((mem_trimAndFilter texts x).1 hmem).1
  have hback : (∀ x ∈ setToArray (trimAndFilter texts), SingleToken x) →
      updateEditAmenitiesInput (amenitiesInputValue (setToArray (trimAndFilter texts)))
        = setToArray (trimAndFilter texts) := fun htok =>
    updateEditAmenitiesInput_joinWith _ hnd (fun x hx => ⟨hne x hx, htok x hx⟩)
  refine ⟨_, normalizeAmenities_of_shape toStringMethod hstr raw texts h, ⟨?_, hback⟩, ?_⟩
  · intro heq x hx
    rw [← heq] at hx
    exact (tokens_of_segments _ false x hx).2
  · rintro ⟨s, hs⟩
    subst hs
    cases h
    exact hback (fun x hx => (tokens_of_segments s.data false x hx).2)

/-- C30 (amended) on the array `wifi`, ` pool `, `wifi`: the list `wifi`,
`pool` is shown as `wifi, pool` and parsed back to itself. -/
theorem amenities_round_trip_witness :
    (∃ result : List String,
      normalizeAmenities exampleToString
          (JsVal.arr [JsVal.str "wifi", JsVal.str " pool ", JsVal.str "wifi"])
        = Except.ok result ∧
      (updateEditAmenitiesInput (amenitiesInputValue result) = result ↔
        ∀ x ∈ result, SingleToken x) ∧
      ((∃ s, JsVal.arr [JsVal.str "wifi", JsVal.str " pool ", JsVal.str "wifi"] = JsVal.str s) →
        updateEditAmenitiesInput (amenitiesInputValue result) = result)) ∧
    normalizeAmenities exampleToString
        (JsVal.arr [JsVal.str "wifi", JsVal.str " pool ", JsVal.str "wifi"])
      = Except.ok ["wifi", "pool"] ∧
    updateEditAmenitiesInput (amenitiesInputValue ["wifi", "pool"]) = ["wifi", "pool"] :=
  ⟨amenities_round_trip exampleToString (fun _ => rfl) _ _
      (SupportedShape.strings ["wifi", " pool ", "wifi"]),
   rfl, by decide⟩

/-- C27 (the code differs): two calls of `fetchData` are issued one after the
other, the response `second` to the later call arrives first and the response
`first` to the earlier call arrives last.  The earlier controller has been
aborted, but neither `fetch` call carries a signal, so the stale response is
applied: the page holds `first` and the page index of `first`.  In general the
`fetch` call of a search settles to its response whatever has been aborted. -/
theorem stale_search_response_is_applied {α ν : Type} (Number : String → ν) (s : Home.State α)
    (first second : PageData α) :
    (Home.fetchDataResume
        (Home.fetchDataResume
          (Home.fetchDataIssue Number
            (Home.fetchDataIssue Number (Home.Controller.initial s) none) none)
          1 (Except.ok second))
        0 (Except.ok first)).state.pageData = first ∧
    (Home.fetchDataResume
        (Home.fetchDataResume
          (Home.fetchDataIssue Number
            (Home.fetchDataIssue Number (Home.Controller.initial s) none) none)
          1 (Except.ok second))
        0 (Except.ok first)).state.page = first.number ∧
    (Home.fetchDataIssue Number
        (Home.fetchDataIssue Number (Home.Controller.initial s) none) none).aborted
      = [true, false] ∧
    (Home.fetchDataIssue Number
        (Home.fetchDataIssue Number (Home.Controller.initial s) none) none).calls.map
        (fun call => call.signal)
      = [none, none] ∧
    (∀ (aborted : List Bool) (params : Home.SearchParams ν)
        (response : Except JsError (PageData α)),
      fetchOutcome aborted (HotelApi.searchFetch params) response = response) := by
  refine ⟨rfl, rfl, rfl, rfl, fun _ _ _ => rfl⟩

end HotelFrontend
